import Mathlib

/-!
# HD44780 character-display driver

A shallow embedding of `HD44780.c` (stm32-HD44780, version 0.1.3).

The driver talks to the controller through GPIO pins only.  The embedding keeps
that level: every `HAL_GPIO_Init`, `HAL_GPIO_WritePin`, `HAL_GPIO_ReadPin` and
`delay_ns` call of the source appends one `Event` to a trace.  The port/pin pair
stored in the descriptor for a line is represented by the name of that line
(`Line`), so the descriptor keeps only its three mode flags.

What the controller answers on a bus read is given by a `Device`: the level it
presents on each data line during the n-th read pulse.  The busy-flag loop of
the source has no bound; it is embedded with a fuel argument and returns `none`
when the fuel runs out.

The controller's view of a trace (`busOps`) is obtained by replaying the pin
writes and latching one bus operation at every falling edge of the enable line.
-/

namespace HD44780Driver

/-! ## Data model -/

/-- The eleven lines between the MCU and the controller (`rs_gpio`/`rs_pin`, ...). -/
inductive Line
  | rs | rw | en | d0 | d1 | d2 | d3 | d4 | d5 | d6 | d7
  deriving DecidableEq, Repr

/-- The two GPIO modes the driver uses (`GPIO_MODE_OUTPUT_PP`, `GPIO_MODE_INPUT`). -/
inductive GpioMode
  | output_pp | input
  deriving DecidableEq, Repr

/-- One call into the platform layer. -/
inductive Event
  | init (line : Line) (mode : GpioMode)
  | write (line : Line) (level : Bool)
  | read (line : Line) (level : Bool)
  | delay (ns : Nat) (iterations : Nat)
  deriving DecidableEq, Repr

/-- The mode flags of the device descriptor `HD44780` (HD44780.h, lines 63-106). -/
structure HD44780 where
  interface_8_bit : Bool
  single_line : Bool
  font_5x10 : Bool
  deriving DecidableEq, Repr

/-- The runtime configuration `HD44780_Config` (HD44780.h, lines 112-142). -/
structure HD44780_Config where
  disable_display : Bool
  enable_cursor : Bool
  enable_blink : Bool
  shift_display : Bool
  shift_rtl : Bool
  deriving DecidableEq, Repr

/-- The level the controller presents on a data line during the n-th read pulse. -/
abbrev Device := Nat → Line → Bool

/-- Driver-visible state: the global `delay_loop_time`, the number of completed
read pulses, and the trace of platform calls made so far. -/
structure Hw where
  delay_loop_time : Nat
  pulls : Nat
  trace : List Event
  deriving DecidableEq, Repr

/-! ## Constants (HD44780.c, lines 18-71) -/

def HD44780_SECOND_LINE_ADDRESS : Nat := 0x40
def HD44780_TAB_SIZE : Nat := 4
def HD44780_CMD_CLEAR_DISPLAY : Nat := 0x01
def HD44780_CMD_RETURN_HOME : Nat := 0x02
def HD44780_CMD_ENTRY_MODE_SET : Nat := 0x04
def HD44780_FLG_DIR_RTL : Nat := 0x00
def HD44780_FLG_DIR_LTR : Nat := 0x02
def HD44780_FLG_DISPLAY_NOSHIFT : Nat := 0x00
def HD44780_FLG_DISPLAY_SHIFT : Nat := 0x01
def HD44780_CMD_DISPLAY_CONTROL : Nat := 0x08
def HD44780_FLG_DISPLAY_OFF : Nat := 0x00
def HD44780_FLG_DISPLAY_ON : Nat := 0x04
def HD44780_FLG_CURSOR_OFF : Nat := 0x00
def HD44780_FLG_CURSOR_ON : Nat := 0x02
def HD44780_FLG_BLINK_OFF : Nat := 0x00
def HD44780_FLG_BLINK_ON : Nat := 0x01
def HD44780_CMD_CURSOR_DISPLAY_SHIFT : Nat := 0x10
def HD44780_FLG_SHIFT_DISPLAY : Nat := 0x08
def HD44780_FLG_SHIFT_LTR : Nat := 0x00
def HD44780_FLG_SHIFT_RTL : Nat := 0x04
def HD44780_CMD_FUNCTION_SET : Nat := 0x20
def HD44780_FLG_DATA_LEN_4BIT : Nat := 0x00
def HD44780_FLG_DATA_LEN_8BIT : Nat := 0x10
def HD44780_FLG_1_LINE : Nat := 0x00
def HD44780_FLG_2_LINE : Nat := 0x08
def HD44780_FLG_FONT_5X8 : Nat := 0x00
def HD44780_FLG_FONT_5X10 : Nat := 0x04
def HD44780_CMD_SET_CGRAM_ADDRESS : Nat := 0x40
def HD44780_CMD_SET_DDRAM_ADDRESS : Nat := 0x80
def HD44780_CMD_READ_BUSYFLAG_AND_ADDRESS : Nat := 0x07
def DELAY_LOOP_CYCLES : Nat := 9

/-! ## Platform layer -/

/-- Source `HAL_GPIO_WritePin(port, pin, level)`. -/
def HAL_GPIO_WritePin (line : Line) (level : Bool) (hw : Hw) : Hw :=
  { hw with trace := hw.trace ++ [Event.write line level] }

/-- Source `HAL_GPIO_ReadPin(port, pin)`: samples what the device presents now. -/
def HAL_GPIO_ReadPin (dev : Device) (line : Line) (hw : Hw) : Bool × Hw :=
  (dev hw.pulls line, { hw with trace := hw.trace ++ [Event.read line (dev hw.pulls line)] })

/-- Source `GPIO_init(gpio, pin, mode)` (lines 353-357); pull and speed are constants. -/
def GPIO_init (line : Line) (mode : GpioMode) (hw : Hw) : Hw :=
  { hw with trace := hw.trace ++ [Event.init line mode] }

/-! ## Delay functionality (lines 70-115) -/

/-- Source `delay_init()` (lines 80-86); `clock` is `SystemCoreClock`.  The quotient
is stored in a 32-bit variable.  The source divides by the clock, so a zero clock
is outside its domain (here the quotient is then 0). -/
def delay_init (clock : Nat) (hw : Hw) : Hw :=
  if hw.delay_loop_time = 0 then
    { hw with delay_loop_time := (1000000000 * DELAY_LOOP_CYCLES / clock) % 2 ^ 32 }
  else hw

/-- Source `delay_ns(ns)` (lines 97-103): the busy loop is recorded as one event
carrying the requested duration and the initial value of `counter`.  The source
divides by `delay_loop_time`, so a call made while `delay_loop_time = 0` (before
`delay_init`) is outside its domain: the division is undefined there, while this
total function yields the counter 0.  Every statement below about an operation that
runs without calibrating first therefore assumes `delay_loop_time ≠ 0`. -/
def delay_ns (ns : Nat) (hw : Hw) : Hw :=
  { hw with trace := hw.trace ++ [Event.delay ns (ns / hw.delay_loop_time)] }

/-- The `delay_us` macro. -/
def delay_us (us : Nat) (hw : Hw) : Hw := delay_ns (us * 1000) hw

/-- The `delay_ms` macro. -/
def delay_ms (ms : Nat) (hw : Hw) : Hw := delay_ns (ms * 1000000) hw

/-! ## Internal functions (lines 359-540) -/

/-- Source `HD44780_set_data_mode` (lines 359-373). -/
def HD44780_set_data_mode (lcd : HD44780) (mode : GpioMode) (hw : Hw) : Hw :=
  let hw := GPIO_init Line.d7 mode hw
  let hw := GPIO_init Line.d6 mode hw
  let hw := GPIO_init Line.d5 mode hw
  let hw := GPIO_init Line.d4 mode hw
  if lcd.interface_8_bit then
    let hw := GPIO_init Line.d3 mode hw
    let hw := GPIO_init Line.d2 mode hw
    let hw := GPIO_init Line.d1 mode hw
    GPIO_init Line.d0 mode hw
  else hw

/-- One step `value |= HAL_GPIO_ReadPin(port, pin) << k` of `HD44780_pull_value`. -/
def pull_bit (dev : Device) (line : Line) (k : Nat) (acc : Nat × Hw) : Nat × Hw :=
  let r := HAL_GPIO_ReadPin dev line acc.2
  (acc.1 ||| (r.1.toNat <<< k), r.2)

/-- Source `HD44780_pull_value` (lines 375-408): one bus read.  The device moves on to
its next response when the enable pulse ends. -/
def HD44780_pull_value (dev : Device) (lcd : HD44780) (hw : Hw) : Nat × Hw :=
  let hw := HAL_GPIO_WritePin Line.en true hw
  let hw := delay_ns 400 hw
  let acc : Nat × Hw := (0, hw)
  let acc :=
    if lcd.interface_8_bit then
      let acc := pull_bit dev Line.d7 7 acc
      let acc := pull_bit dev Line.d6 6 acc
      let acc := pull_bit dev Line.d5 5 acc
      let acc := pull_bit dev Line.d4 4 acc
      let acc := pull_bit dev Line.d3 3 acc
      let acc := pull_bit dev Line.d2 2 acc
      let acc := pull_bit dev Line.d1 1 acc
      pull_bit dev Line.d0 0 acc
    else
      let acc := pull_bit dev Line.d7 3 acc
      let acc := pull_bit dev Line.d6 2 acc
      let acc := pull_bit dev Line.d5 1 acc
      pull_bit dev Line.d4 0 acc
  let hw := HAL_GPIO_WritePin Line.en false acc.2
  (acc.1, { hw with pulls := hw.pulls + 1 })

/-- The level `byte & (1 << k) ? GPIO_PIN_SET : GPIO_PIN_RESET`. -/
def bit_level (byte k : Nat) : Bool := decide (byte &&& (1 <<< k) ≠ 0)

/-- Source `HD44780_push_value` (lines 410-441): one bus write. -/
def HD44780_push_value (lcd : HD44780) (byte : Nat) (hw : Hw) : Hw :=
  let hw := HAL_GPIO_WritePin Line.en true hw
  let hw :=
    if lcd.interface_8_bit then
      let hw := HAL_GPIO_WritePin Line.d7 (bit_level byte 7) hw
      let hw := HAL_GPIO_WritePin Line.d6 (bit_level byte 6) hw
      let hw := HAL_GPIO_WritePin Line.d5 (bit_level byte 5) hw
      let hw := HAL_GPIO_WritePin Line.d4 (bit_level byte 4) hw
      let hw := HAL_GPIO_WritePin Line.d3 (bit_level byte 3) hw
      let hw := HAL_GPIO_WritePin Line.d2 (bit_level byte 2) hw
      let hw := HAL_GPIO_WritePin Line.d1 (bit_level byte 1) hw
      HAL_GPIO_WritePin Line.d0 (bit_level byte 0) hw
    else
      let hw := HAL_GPIO_WritePin Line.d7 (bit_level byte 3) hw
      let hw := HAL_GPIO_WritePin Line.d6 (bit_level byte 2) hw
      let hw := HAL_GPIO_WritePin Line.d5 (bit_level byte 1) hw
      HAL_GPIO_WritePin Line.d4 (bit_level byte 0) hw
  let hw := delay_ns 240 hw
  HAL_GPIO_WritePin Line.en false hw

/-- Source `HD44780_read_byte` (lines 443-465).  The result is a `uint8_t`. -/
def HD44780_read_byte (dev : Device) (lcd : HD44780) (hw : Hw) : Nat × Hw :=
  let hw := HAL_GPIO_WritePin Line.rw true hw
  let hw := HAL_GPIO_WritePin Line.rs false hw
  let hw := HD44780_set_data_mode lcd GpioMode.input hw
  if lcd.interface_8_bit then
    HD44780_pull_value dev lcd hw
  else
    let hi := HD44780_pull_value dev lcd hw
    let byte := (0 ||| (hi.1 <<< 4)) % 256
    let lo := HD44780_pull_value dev lcd hi.2
    ((byte ||| lo.1) % 256, lo.2)

/-- Source `HD44780_get_address` (lines 510-513): `~(1 << 7)` clears bit 7 of the byte. -/
def HD44780_get_address (dev : Device) (lcd : HD44780) (hw : Hw) : Nat × Hw :=
  let r := HD44780_read_byte dev lcd hw
  (r.1 &&& (0xFF ^^^ (1 <<< HD44780_CMD_READ_BUSYFLAG_AND_ADDRESS)), r.2)

/-- Source `HD44780_get_busyflag` (lines 515-518). -/
def HD44780_get_busyflag (dev : Device) (lcd : HD44780) (hw : Hw) : Nat × Hw :=
  let r := HD44780_read_byte dev lcd hw
  ((r.1 >>> HD44780_CMD_READ_BUSYFLAG_AND_ADDRESS) &&& 1, r.2)

/-- Source `HD44780_await_busyflag` (lines 536-540): `while (get_busyflag) ;`.  Each
unit of fuel pays for one evaluation of the loop condition. -/
def HD44780_await_busyflag (dev : Device) (lcd : HD44780) : Nat → Hw → Option Hw
  | 0, _ => none
  | fuel + 1, hw =>
    let r := HD44780_get_busyflag dev lcd hw
    if r.1 ≠ 0 then HD44780_await_busyflag dev lcd fuel r.2 else some r.2

/-- Source `HD44780_write_byte` (lines 467-496).  In 4-bit mode the second
`push_value` receives the byte itself and uses its low four bits. -/
def HD44780_write_byte (dev : Device) (lcd : HD44780) (rs : Bool) (byte : Nat)
    (fuel : Nat) (hw : Hw) : Option Hw :=
  let hw := HD44780_set_data_mode lcd GpioMode.output_pp hw
  let hw := HAL_GPIO_WritePin Line.rw false hw
  let hw := HAL_GPIO_WritePin Line.rs rs hw
  let hw :=
    if lcd.interface_8_bit then HD44780_push_value lcd byte hw
    else HD44780_push_value lcd byte (HD44780_push_value lcd (byte >>> 4) hw)
  match HD44780_await_busyflag dev lcd fuel hw with
  | none => none
  | some hw => some (if rs then delay_us 5 hw else hw)

/-- Source `HD44780_write_init` (lines 498-508): the degraded write used during
initialization. -/
def HD44780_write_init (lcd : HD44780) (byte : Nat) (hw : Hw) : Hw :=
  if lcd.interface_8_bit then HD44780_push_value lcd byte hw
  else HD44780_push_value lcd (byte >>> 4) hw

/-- Source `HD44780_write_instruction` (lines 520-523). -/
def HD44780_write_instruction (dev : Device) (lcd : HD44780) (byte : Nat)
    (fuel : Nat) (hw : Hw) : Option Hw :=
  HD44780_write_byte dev lcd false byte fuel hw

/-- Source `HD44780_write_data` (lines 525-528). -/
def HD44780_write_data (dev : Device) (lcd : HD44780) (byte : Nat)
    (fuel : Nat) (hw : Hw) : Option Hw :=
  HD44780_write_byte dev lcd true byte fuel hw

/-- Source `HD44780_get_current_line` (lines 530-534). -/
def HD44780_get_current_line (dev : Device) (lcd : HD44780) (hw : Hw) : Nat × Hw :=
  let r := HD44780_get_address dev lcd hw
  ((!lcd.single_line && decide (r.1 ≥ HD44780_SECOND_LINE_ADDRESS)).toNat, r.2)

/-- The loop `for (uint8_t i = 0; i < count; ++i) body(i)`, unrolled from index
`i`.  Every bound in this driver is at most 128, so the 8-bit counter never
wraps. -/
def for_loop (body : Nat → Hw → Option Hw) : Nat → Nat → Hw → Option Hw
  | 0, _, hw => some hw
  | count + 1, i, hw => (body i hw).bind (for_loop body count (i + 1))

/-! ## Public functions (lines 198-347) -/

/-- Source `HD44780_init` (lines 198-238); `clock` is `SystemCoreClock`. -/
def HD44780_init (dev : Device) (lcd : HD44780) (clock : Nat) (fuel : Nat) (hw : Hw) :
    Option Hw :=
  let hw := delay_init clock hw
  let hw := GPIO_init Line.rs GpioMode.output_pp hw
  let hw := GPIO_init Line.rw GpioMode.output_pp hw
  let hw := GPIO_init Line.en GpioMode.output_pp hw
  let hw := HD44780_set_data_mode lcd GpioMode.output_pp hw
  let hw := HAL_GPIO_WritePin Line.rs false hw
  let hw := HAL_GPIO_WritePin Line.rw false hw
  let hw := HAL_GPIO_WritePin Line.en false hw
  let hw := delay_ms 50 hw
  let hw := HD44780_write_init lcd (HD44780_CMD_FUNCTION_SET ||| HD44780_FLG_DATA_LEN_8BIT) hw
  let hw := delay_us 4500 hw
  let hw := HD44780_write_init lcd (HD44780_CMD_FUNCTION_SET ||| HD44780_FLG_DATA_LEN_8BIT) hw
  let hw := delay_us 120 hw
  let hw := HD44780_write_init lcd (HD44780_CMD_FUNCTION_SET ||| HD44780_FLG_DATA_LEN_8BIT) hw
  let hw := delay_us 50 hw
  let hw :=
    if !lcd.interface_8_bit then
      let hw :=
        HD44780_write_init lcd (HD44780_CMD_FUNCTION_SET ||| HD44780_FLG_DATA_LEN_4BIT) hw
      delay_us 50 hw
    else hw
  let flg_data_len :=
    if lcd.interface_8_bit then HD44780_FLG_DATA_LEN_8BIT else HD44780_FLG_DATA_LEN_4BIT
  let flg_line_qty := if lcd.single_line then HD44780_FLG_1_LINE else HD44780_FLG_2_LINE
  let flg_font_size := if lcd.font_5x10 then HD44780_FLG_FONT_5X10 else HD44780_FLG_FONT_5X8
  (HD44780_write_instruction dev lcd
      (HD44780_CMD_FUNCTION_SET ||| flg_data_len ||| flg_line_qty ||| flg_font_size) fuel hw).bind
  fun hw => (HD44780_write_instruction dev lcd HD44780_CMD_DISPLAY_CONTROL fuel hw).bind
  fun hw => (HD44780_write_instruction dev lcd HD44780_CMD_CLEAR_DISPLAY fuel hw).bind
  fun hw => (HD44780_write_instruction dev lcd
      (HD44780_CMD_ENTRY_MODE_SET ||| HD44780_FLG_DISPLAY_NOSHIFT ||| HD44780_FLG_DIR_LTR)
      fuel hw).bind
  fun hw => HD44780_write_instruction dev lcd
      (HD44780_CMD_DISPLAY_CONTROL ||| HD44780_FLG_DISPLAY_ON ||| HD44780_FLG_CURSOR_OFF |||
        HD44780_FLG_BLINK_OFF) fuel hw

/-- Source `HD44780_configure` (lines 240-250). -/
def HD44780_configure (dev : Device) (lcd : HD44780) (config : HD44780_Config)
    (fuel : Nat) (hw : Hw) : Option Hw :=
  let flg_display_en :=
    if config.disable_display then HD44780_FLG_DISPLAY_OFF else HD44780_FLG_DISPLAY_ON
  let flg_cursor_en :=
    if config.enable_cursor then HD44780_FLG_CURSOR_ON else HD44780_FLG_CURSOR_OFF
  let flg_blink_en :=
    if config.enable_blink then HD44780_FLG_BLINK_ON else HD44780_FLG_BLINK_OFF
  let flg_shift_entity :=
    if config.shift_display then HD44780_FLG_DISPLAY_SHIFT else HD44780_FLG_DISPLAY_NOSHIFT
  let flg_shift_dir := if config.shift_rtl then HD44780_FLG_DIR_RTL else HD44780_FLG_DIR_LTR
  (HD44780_write_instruction dev lcd
      (HD44780_CMD_ENTRY_MODE_SET ||| flg_shift_entity ||| flg_shift_dir) fuel hw).bind
  fun hw => HD44780_write_instruction dev lcd
      (HD44780_CMD_DISPLAY_CONTROL ||| flg_display_en ||| flg_cursor_en ||| flg_blink_en)
      fuel hw

/-- Source `HD44780_clear` (lines 252-255). -/
def HD44780_clear (dev : Device) (lcd : HD44780) (fuel : Nat) (hw : Hw) : Option Hw :=
  HD44780_write_instruction dev lcd HD44780_CMD_CLEAR_DISPLAY fuel hw

/-- Source `HD44780_return_home` (lines 257-260). -/
def HD44780_return_home (dev : Device) (lcd : HD44780) (fuel : Nat) (hw : Hw) : Option Hw :=
  HD44780_write_instruction dev lcd HD44780_CMD_RETURN_HOME fuel hw

/-- Source `HD44780_cursor_to` (lines 262-270); `addr` is a `uint8_t`. -/
def HD44780_cursor_to (dev : Device) (lcd : HD44780) (column row : Nat)
    (fuel : Nat) (hw : Hw) : Option Hw :=
  let start :=
    if row % 2 ≠ 0 ∧ lcd.single_line = false then HD44780_SECOND_LINE_ADDRESS else 0
  let addr := (start + column) % 256
  HD44780_write_instruction dev lcd (HD44780_CMD_SET_DDRAM_ADDRESS ||| addr) fuel hw

/-- Source `HD44780_shift_display` (lines 272-280); `n` is an `int8_t`. -/
def HD44780_shift_display (dev : Device) (lcd : HD44780) (n : Int)
    (fuel : Nat) (hw : Hw) : Option Hw :=
  let flg_shift_dir := if n < 0 then HD44780_FLG_SHIFT_RTL else HD44780_FLG_SHIFT_LTR
  for_loop
    (fun _ hw => HD44780_write_instruction dev lcd
      (HD44780_CMD_CURSOR_DISPLAY_SHIFT ||| HD44780_FLG_SHIFT_DISPLAY ||| flg_shift_dir)
      fuel hw)
    n.natAbs 0 hw

/-- Source `HD44780_create_symbol` (lines 282-305); `symbol` is the memory behind the
array pointer, and the instruction argument is converted to `uint8_t`. -/
def HD44780_create_symbol (dev : Device) (lcd : HD44780) (address : Nat) (font_5x10 : Bool)
    (symbol : Nat → Nat) (fuel : Nat) (hw : Hw) : Option Hw :=
  let r := HD44780_get_address dev lcd hw
  let ddram_address := r.1
  (HD44780_write_instruction dev lcd
      ((HD44780_CMD_SET_CGRAM_ADDRESS ||| (address <<< 3)) % 256) fuel r.2).bind
  fun hw =>
    let height := if font_5x10 then 10 else 8
    (for_loop (fun i hw => HD44780_write_data dev lcd (symbol i) fuel hw) height 0 hw).bind
  fun hw =>
    (if font_5x10 then
      for_loop (fun _ hw => HD44780_write_data dev lcd 0 fuel hw) 6 0 hw
    else some hw).bind
  fun hw => HD44780_write_instruction dev lcd
      (HD44780_CMD_SET_DDRAM_ADDRESS ||| ddram_address) fuel hw

/-- Source `HD44780_put_char` (lines 307-339); newline is 10, tab is 9, space is 32. -/
def HD44780_put_char (dev : Device) (lcd : HD44780) (chr : Nat)
    (fuel : Nat) (hw : Hw) : Option Hw :=
  if chr = 10 then
    let r := HD44780_get_current_line dev lcd hw
    if lcd.single_line = false ∧ r.1 = 0 then HD44780_cursor_to dev lcd 0 1 fuel r.2
    else HD44780_cursor_to dev lcd 0 0 fuel r.2
  else if chr = 9 then
    for_loop (fun _ hw => HD44780_write_data dev lcd 32 fuel hw) HD44780_TAB_SIZE 0 hw
  else HD44780_write_data dev lcd chr fuel hw

/-- Source `HD44780_put_str` (lines 341-347); `str` is the memory behind the pointer,
and reading past its end has no defined result. -/
def HD44780_put_str (dev : Device) (lcd : HD44780) (fuel : Nat) : List Nat → Hw → Option Hw
  | [], _ => none
  | c :: rest, hw =>
    if c ≠ 0 then (HD44780_put_char dev lcd c fuel hw).bind (HD44780_put_str dev lcd fuel rest)
    else some hw

/-! ## The controller's view of the bus -/

/-- One bus operation as the controller latches it: a write carries the level of
the register-select line and the value on the data lines in use; a read carries
the level of the register-select line. -/
inductive BusOp
  | write (rs : Bool) (value : Nat)
  | read (rs : Bool)
  deriving DecidableEq, Repr

/-- The level last written to each line. -/
structure Pins where
  rs : Bool
  rw : Bool
  en : Bool
  d0 : Bool
  d1 : Bool
  d2 : Bool
  d3 : Bool
  d4 : Bool
  d5 : Bool
  d6 : Bool
  d7 : Bool
  deriving DecidableEq, Repr

/-- Updates the level of one line. -/
def Pins.set (p : Pins) : Line → Bool → Pins
  | Line.rs, v => { p with rs := v }
  | Line.rw, v => { p with rw := v }
  | Line.en, v => { p with en := v }
  | Line.d0, v => { p with d0 := v }
  | Line.d1, v => { p with d1 := v }
  | Line.d2, v => { p with d2 := v }
  | Line.d3, v => { p with d3 := v }
  | Line.d4, v => { p with d4 := v }
  | Line.d5, v => { p with d5 := v }
  | Line.d6, v => { p with d6 := v }
  | Line.d7, v => { p with d7 := v }

/-- The number on the data lines in use: D7..D0 on an 8-bit bus, D7..D4 on a
4-bit bus (most significant line first). -/
def bus_value (lcd : HD44780) (p : Pins) : Nat :=
  if lcd.interface_8_bit then
    p.d7.toNat * 128 + p.d6.toNat * 64 + p.d5.toNat * 32 + p.d4.toNat * 16 +
      p.d3.toNat * 8 + p.d2.toNat * 4 + p.d1.toNat * 2 + p.d0.toNat
  else
    p.d7.toNat * 8 + p.d6.toNat * 4 + p.d5.toNat * 2 + p.d4.toNat

/-- The operation latched when the enable line falls with the lines at `p`. -/
def latch (lcd : HD44780) (p : Pins) : BusOp :=
  if p.rw then BusOp.read p.rs else BusOp.write p.rs (bus_value lcd p)

/-- Replay state: line levels and the bus operations latched so far. -/
structure Dec where
  pins : Pins
  ops : List BusOp
  deriving DecidableEq, Repr

/-- All lines low, nothing latched. -/
def Dec.start : Dec :=
  ⟨⟨false, false, false, false, false, false, false, false, false, false, false⟩, []⟩

/-- Replays one event: a pin write changes a level, and a high-to-low change of
the enable line latches one bus operation. -/
def Dec.step (lcd : HD44780) (s : Dec) : Event → Dec
  | Event.write line level =>
    ⟨s.pins.set line level,
      if line = Line.en ∧ s.pins.en = true ∧ level = false then s.ops ++ [latch lcd s.pins]
      else s.ops⟩
  | _ => s

/-- Replay of the whole trace of a state. -/
def dec (lcd : HD44780) (hw : Hw) : Dec := hw.trace.foldl (Dec.step lcd) Dec.start

/-- The bus operations the controller has seen so far. -/
def busOps (lcd : HD44780) (hw : Hw) : List BusOp := (dec lcd hw).ops

/-! ## Notions used to state and prove the properties -/

/-- Bus pulses per byte transfer: one on an 8-bit bus, two on a 4-bit bus. -/
def stride (lcd : HD44780) : Nat := if lcd.interface_8_bit then 1 else 2

/-- The value a bus write of `byte` puts on the data lines in use. -/
def pushed (lcd : HD44780) (byte : Nat) : Nat :=
  if lcd.interface_8_bit then byte % 256 else byte % 16

/-- The byte the device presents on D7..D0 during read pulse `n`. -/
def line_byte (dev : Device) (n : Nat) : Nat :=
  (dev n Line.d7).toNat * 128 + (dev n Line.d6).toNat * 64 + (dev n Line.d5).toNat * 32 +
    (dev n Line.d4).toNat * 16 + (dev n Line.d3).toNat * 8 + (dev n Line.d2).toNat * 4 +
    (dev n Line.d1).toNat * 2 + (dev n Line.d0).toNat

/-- The nibble the device presents on D7..D4 during read pulse `n`. -/
def line_nibble (dev : Device) (n : Nat) : Nat :=
  (dev n Line.d7).toNat * 8 + (dev n Line.d6).toNat * 4 + (dev n Line.d5).toNat * 2 +
    (dev n Line.d4).toNat

/-- The byte a register read starting at read pulse `n` transfers: one pulse on
an 8-bit bus, high nibble then low nibble on a 4-bit bus. -/
def status_byte (lcd : HD44780) (dev : Device) (n : Nat) : Nat :=
  if lcd.interface_8_bit then line_byte dev n
  else line_nibble dev n * 16 + line_nibble dev (n + 1)

/-- The device answers every register read request eventually with a clear busy
bit: from any read pulse on, some later status byte has D7 low in its first
pulse. -/
def Responsive (lcd : HD44780) (dev : Device) : Prop :=
  ∀ n, ∃ k, dev (n + stride lcd * k) Line.d7 = false

/-- One evaluation of the busy-flag loop condition: the state after the read. -/
def poll (dev : Device) (lcd : HD44780) (hw : Hw) : Hw := (HD44780_get_busyflag dev lcd hw).2

/-- The bus writes that transfer `byte` to the register selected by `rs`: the
whole byte at once on an 8-bit bus, the high nibble and then the low nibble on a
4-bit bus. -/
def busWriteOf (lcd : HD44780) (rs : Bool) (byte : Nat) : List BusOp :=
  if lcd.interface_8_bit then [BusOp.write rs byte]
  else [BusOp.write rs (byte / 16), BusOp.write rs (byte % 16)]

/-- The bus reads of `n` consecutive status-register reads (register-select low). -/
def statusReads (lcd : HD44780) (n : Nat) : List BusOp :=
  List.replicate (stride lcd * n) (BusOp.read false)

/-- The bus operations of a list of busy-flag-gated register writes `(rs, byte)`:
each byte transfer is followed by at least one status read, and nothing else
occurs. -/
def Gated (lcd : HD44780) : List (Bool × Nat) → List BusOp → Prop
  | [], X => X = []
  | w :: ws, X =>
    ∃ m X', X = busWriteOf lcd w.1 w.2 ++ statusReads lcd (m + 1) ++ X' ∧ Gated lcd ws X'

/-- Started in `hw`, the operation returns for every sufficiently large fuel,
always in the same state, and the bus operations it has added are exactly `X`. -/
def Performs (lcd : HD44780) (op : Nat → Hw → Option Hw) (hw : Hw) (X : List BusOp) : Prop :=
  ∃ f0 hw', (∀ fuel, f0 ≤ fuel → op fuel hw = some hw') ∧
    busOps lcd hw' = busOps lcd hw ++ X

/-- The pin activity of `HD44780_write_byte` before it waits for the busy flag. -/
def write_byte_bus (lcd : HD44780) (rs : Bool) (byte : Nat) (hw : Hw) : Hw :=
  let hw := HD44780_set_data_mode lcd GpioMode.output_pp hw
  let hw := HAL_GPIO_WritePin Line.rw false hw
  let hw := HAL_GPIO_WritePin Line.rs rs hw
  if lcd.interface_8_bit then HD44780_push_value lcd byte hw
  else HD44780_push_value lcd byte (HD44780_push_value lcd (byte >>> 4) hw)

/-- From every state, the operation returns after performing exactly the gated
register writes `ws`. -/
def RunsGated (lcd : HD44780) (op : Nat → Hw → Option Hw) (ws : List (Bool × Nat)) : Prop :=
  ∀ hw, ∃ X, Performs lcd op hw X ∧ Gated lcd ws X

/-- The pin activity of `HD44780_init` before its first busy-flag-gated write
(lines 200-226). -/
def init_bus (lcd : HD44780) (clock : Nat) (hw : Hw) : Hw :=
  let hw := delay_init clock hw
  let hw := GPIO_init Line.rs GpioMode.output_pp hw
  let hw := GPIO_init Line.rw GpioMode.output_pp hw
  let hw := GPIO_init Line.en GpioMode.output_pp hw
  let hw := HD44780_set_data_mode lcd GpioMode.output_pp hw
  let hw := HAL_GPIO_WritePin Line.rs false hw
  let hw := HAL_GPIO_WritePin Line.rw false hw
  let hw := HAL_GPIO_WritePin Line.en false hw
  let hw := delay_ms 50 hw
  let hw := HD44780_write_init lcd (HD44780_CMD_FUNCTION_SET ||| HD44780_FLG_DATA_LEN_8BIT) hw
  let hw := delay_us 4500 hw
  let hw := HD44780_write_init lcd (HD44780_CMD_FUNCTION_SET ||| HD44780_FLG_DATA_LEN_8BIT) hw
  let hw := delay_us 120 hw
  let hw := HD44780_write_init lcd (HD44780_CMD_FUNCTION_SET ||| HD44780_FLG_DATA_LEN_8BIT) hw
  let hw := delay_us 50 hw
  if !lcd.interface_8_bit then
    let hw :=
      HD44780_write_init lcd (HD44780_CMD_FUNCTION_SET ||| HD44780_FLG_DATA_LEN_4BIT) hw
    delay_us 50 hw
  else hw

/-! ## Specification-side definitions -/

/-- An instruction-register write of `byte`. -/
def instr (byte : Nat) : Bool × Nat := (false, byte)

/-- A data-register write of `byte`. -/
def data (byte : Nat) : Bool × Nat := (true, byte)

/-- The addressing model of the specification (section 4.7): base 0x40 on a
two-line display when the row is odd, base 0 otherwise; the result is base plus
column. -/
def address_for (lcd : HD44780) (column row : Nat) : Nat :=
  if lcd.single_line = false ∧ row % 2 = 1 then 0x40 + column else column

/-- The entry-mode byte of the specification's command table (section 4.5). -/
def entry_mode_byte (config : HD44780_Config) : Nat :=
  0x04 ||| (if config.shift_display then 0x01 else 0x00) |||
    (if config.shift_rtl then 0x00 else 0x02)

/-- The display-control byte of the specification's command table (section 4.5). -/
def display_control_byte (config : HD44780_Config) : Nat :=
  0x08 ||| (if config.disable_display then 0x00 else 0x04) |||
    (if config.enable_cursor then 0x02 else 0x00) |||
    (if config.enable_blink then 0x01 else 0x00)

/-- The function-set byte carrying the final width, line-count and font flags. -/
def function_set_byte (lcd : HD44780) : Nat :=
  0x20 ||| (if lcd.interface_8_bit then 0x10 else 0) |||
    (if lcd.single_line then 0 else 0x08) ||| (if lcd.font_5x10 then 0x04 else 0)

/-- A degraded write of `byte`: one bus write with register-select low, showing
the whole byte on an 8-bit bus and only its high nibble on a 4-bit bus. -/
def degradedWrite (lcd : HD44780) (byte : Nat) : BusOp :=
  BusOp.write false (if lcd.interface_8_bit then byte else byte / 16)

/-- The degraded writes of the initialization sequence: three times 0x30, then
0x20 once when the bus is 4-bit. -/
def degradedWrites (lcd : HD44780) : List BusOp :=
  [degradedWrite lcd 0x30, degradedWrite lcd 0x30, degradedWrite lcd 0x30] ++
    (if lcd.interface_8_bit then [] else [degradedWrite lcd 0x20])

/-- The configuration with every flag false. -/
def all_false_config : HD44780_Config := ⟨false, false, false, false, false⟩

/-- The register writes that define a glyph: the rows in order, eight for a
5x8 glyph, ten followed by six zero bytes for a 5x10 glyph. -/
def glyph_rows (font_5x10 : Bool) (symbol : Nat → Nat) : List (Bool × Nat) :=
  if font_5x10 then
    (List.range 10).map (fun i => data (symbol i)) ++ List.replicate 6 (data 0)
  else (List.range 8).map (fun i => data (symbol i))

/-- Applying `HD44780_put_char` to each byte of a list, in order. -/
def put_chars (dev : Device) (lcd : HD44780) (fuel : Nat) : List Nat → Hw → Option Hw
  | [], hw => some hw
  | c :: rest, hw => (HD44780_put_char dev lcd c fuel hw).bind (put_chars dev lcd fuel rest)

/-- A device that is never busy and presents a low level on every line. -/
def idle_device : Device := fun _ _ => false

/-- The state before the driver has touched any pin. -/
def power_on : Hw := ⟨0, 0, []⟩

/-- The state right after the delay calibration at 72 MHz (loop time
`9000000000 / 72000000 = 125` ns), before the driver has touched any pin. -/
def calibrated : Hw := ⟨125, 0, []⟩

/-- A device that is never busy and always reports the address counter 0x45. -/
def device_at_0x45 : Device :=
  fun _ line => decide (line = Line.d6 ∨ line = Line.d2 ∨ line = Line.d0)

/-! ## Pin-level descriptions -/

/-- The pin events of one enable pulse of a bus write as the source performs it:
the enable line is asserted, the listed lines are driven in order, the driver
holds for 240 ns, and the enable line is deasserted. -/
def write_pulse (drive : List (Line × Bool)) (loop_time : Nat) : List Event :=
  [Event.write Line.en true] ++ drive.map (fun x => Event.write x.1 x.2) ++
    [Event.delay 240 (240 / loop_time), Event.write Line.en false]

/-- Bit `i` of `byte` on line `Di`, for `i` from 7 down to 0. -/
def byte_on_lines (byte : Nat) : List (Line × Bool) :=
  [(Line.d7, byte.testBit 7), (Line.d6, byte.testBit 6), (Line.d5, byte.testBit 5),
    (Line.d4, byte.testBit 4), (Line.d3, byte.testBit 3), (Line.d2, byte.testBit 2),
    (Line.d1, byte.testBit 1), (Line.d0, byte.testBit 0)]

/-- Bits 7..4 of `byte` on lines D7..D4. -/
def high_nibble_on_lines (byte : Nat) : List (Line × Bool) :=
  [(Line.d7, byte.testBit 7), (Line.d6, byte.testBit 6), (Line.d5, byte.testBit 5),
    (Line.d4, byte.testBit 4)]

/-- Bits 3..0 of `byte` on lines D7..D4. -/
def low_nibble_on_lines (byte : Nat) : List (Line × Bool) :=
  [(Line.d7, byte.testBit 3), (Line.d6, byte.testBit 2), (Line.d5, byte.testBit 1),
    (Line.d4, byte.testBit 0)]

/-- The lines one primitive bus write drives for its argument: D7..D0 carry bits
7..0 on an 8-bit bus, D7..D4 carry bits 3..0 on a 4-bit bus. -/
def push_drive (lcd : HD44780) (value : Nat) : List (Line × Bool) :=
  if lcd.interface_8_bit then byte_on_lines value else low_nibble_on_lines value

/-- The enable pulses that transfer `byte`: one pulse with the whole byte on an
8-bit bus, a pulse with the high nibble and then a pulse with the low nibble on
a 4-bit bus. -/
def byte_pulses (lcd : HD44780) (byte loop_time : Nat) : List Event :=
  if lcd.interface_8_bit then write_pulse (byte_on_lines byte) loop_time
  else write_pulse (high_nibble_on_lines byte) loop_time ++
    write_pulse (low_nibble_on_lines byte) loop_time

/-- The configuration calls of `HD44780_set_data_mode` for the lines in use. -/
def data_mode_events (lcd : HD44780) (mode : GpioMode) : List Event :=
  [Event.init Line.d7 mode, Event.init Line.d6 mode, Event.init Line.d5 mode,
      Event.init Line.d4 mode] ++
    (if lcd.interface_8_bit then
      [Event.init Line.d3 mode, Event.init Line.d2 mode, Event.init Line.d1 mode,
        Event.init Line.d0 mode]
    else [])

/-- The order of pin actions the specification states for a primitive bus write:
the data lines are driven first, then the enable line is asserted, held for
240 ns, and deasserted. -/
def claimed_write_pulse (drive : List (Line × Bool)) (loop_time : Nat) : List Event :=
  drive.map (fun x => Event.write x.1 x.2) ++
    [Event.write Line.en true, Event.delay 240 (240 / loop_time), Event.write Line.en false]

/-- A device on an 8-bit bus whose first two status bytes are 0x81 (busy) and
whose later status bytes are 0x01 (ready). -/
def busy_twice_device : Device :=
  fun n line => decide (line = Line.d0 ∨ (line = Line.d7 ∧ n < 2))

/-- The loop `while (counter--) ;` of `delay_ns` (lines 99-102): the number of
times its empty body runs for a given initial value of `counter`. -/
def delay_loop : Nat → Nat
  | 0 => 0
  | counter + 1 => delay_loop counter + 1

/-- The level of one line. -/
def Pins.level (p : Pins) : Line → Bool
  | Line.rs => p.rs
  | Line.rw => p.rw
  | Line.en => p.en
  | Line.d0 => p.d0
  | Line.d1 => p.d1
  | Line.d2 => p.d2
  | Line.d3 => p.d3
  | Line.d4 => p.d4
  | Line.d5 => p.d5
  | Line.d6 => p.d6
  | Line.d7 => p.d7

/-- The data lines in use: D7..D4 always, D3..D0 on an 8-bit bus only. -/
def in_use (lcd : HD44780) : Line → Bool
  | Line.d7 => true
  | Line.d6 => true
  | Line.d5 => true
  | Line.d4 => true
  | Line.d3 => lcd.interface_8_bit
  | Line.d2 => lcd.interface_8_bit
  | Line.d1 => lcd.interface_8_bit
  | Line.d0 => lcd.interface_8_bit
  | _ => false

/-- Replays one event and records the line levels at every falling edge of the
enable line that occurs with the read/write line low: the levels the controller
latches at a bus write. -/
def snap_step (s : Pins × List Pins) : Event → Pins × List Pins
  | Event.write line level =>
    (s.1.set line level,
      if line = Line.en ∧ s.1.en = true ∧ level = false ∧ s.1.rw = false then s.2 ++ [s.1]
      else s.2)
  | _ => s

/-- Replay of the whole trace of a state, recording the levels of every bus write. -/
def snap (hw : Hw) : Pins × List Pins := hw.trace.foldl snap_step (Dec.start.pins, [])

/-- The line levels of the bus writes performed so far, in order. -/
def written_levels (hw : Hw) : List Pins := (snap hw).2

/-- From read pulse `n` on, the device presents on every data line in use the
levels `L`, one entry per read pulse, in order. -/
def Presents (lcd : HD44780) (dev : Device) (n : Nat) (L : List Pins) : Prop :=
  ∀ (j : Nat) (h : j < L.length) (line : Line), in_use lcd line = true →
    dev (n + j) line = (L.get ⟨j, h⟩).level line

/-! ## Runs of public operations -/

/-- A call of one public function of the driver with its arguments. -/
inductive Op
  | init (clock : Nat)
  | configure (config : HD44780_Config)
  | clear
  | return_home
  | cursor_to (column row : Nat)
  | shift_display (n : Int)
  | create_symbol (address : Nat) (font_5x10 : Bool) (symbol : Nat → Nat)
  | put_char (chr : Nat)
  | put_str (str : List Nat)

/-- Executes one call. -/
def run_op (dev : Device) (lcd : HD44780) (fuel : Nat) : Op → Hw → Option Hw
  | Op.init clock, hw => HD44780_init dev lcd clock fuel hw
  | Op.configure config, hw => HD44780_configure dev lcd config fuel hw
  | Op.clear, hw => HD44780_clear dev lcd fuel hw
  | Op.return_home, hw => HD44780_return_home dev lcd fuel hw
  | Op.cursor_to column row, hw => HD44780_cursor_to dev lcd column row fuel hw
  | Op.shift_display n, hw => HD44780_shift_display dev lcd n fuel hw
  | Op.create_symbol address font_5x10 symbol, hw =>
    HD44780_create_symbol dev lcd address font_5x10 symbol fuel hw
  | Op.put_char chr, hw => HD44780_put_char dev lcd chr fuel hw
  | Op.put_str str, hw => HD44780_put_str dev lcd fuel str hw

/-- Executes a sequence of calls, one after the other. -/
def run_ops (dev : Device) (lcd : HD44780) (fuel : Nat) : List Op → Hw → Option Hw
  | [], hw => some hw
  | op :: ops, hw => (run_op dev lcd fuel op hw).bind (run_ops dev lcd fuel ops)

/-- The inputs for which a call has a defined result: the memory passed to
`HD44780_put_str` contains a terminator. -/
def Op.terminated : Op → Prop
  | Op.put_str str => 0 ∈ str
  | _ => True

/-- The operation returns from every state, in a state that does not depend on
the fuel, once the fuel is large enough. -/
def Returns (op : Nat → Hw → Option Hw) : Prop :=
  ∀ hw, ∃ f0 hw', ∀ fuel, f0 ≤ fuel → op fuel hw = some hw'

/-- The property `I` of states is kept by the four kinds of pin activity the
driver is built from: the pin activity of a byte write, a register read, a
delay, and the start of the initialization. -/
structure Stable (dev : Device) (lcd : HD44780) (I : Hw → Prop) : Prop where
  write_bus : ∀ rs byte hw, I hw → I (write_byte_bus lcd rs byte hw)
  read : ∀ hw, I hw → I (HD44780_read_byte dev lcd hw).2
  delay : ∀ n hw, I hw → I (delay_ns n hw)
  init_bus : ∀ clock hw, I hw → I (init_bus lcd clock hw)

/-! ## Monitors on the pin trace -/

/-- The low data lines D0..D3. -/
def Line.is_low : Line → Bool
  | Line.d0 => true
  | Line.d1 => true
  | Line.d2 => true
  | Line.d3 => true
  | _ => false

/-- The data lines D0..D7. -/
def Line.is_data : Line → Bool
  | Line.rs => false
  | Line.rw => false
  | Line.en => false
  | _ => true

/-- The event configures, drives or samples one of the lines D0..D3. -/
def touches_low : Event → Bool
  | Event.init line _ => line.is_low
  | Event.write line _ => line.is_low
  | Event.read line _ => line.is_low
  | Event.delay _ _ => false

/-- The events of the trace that touch one of the lines D0..D3. -/
def low_touches (hw : Hw) : List Event := hw.trace.filter touches_low

/-- The mode each data line has last been configured to, if any. -/
structure Modes where
  d0 : Option GpioMode
  d1 : Option GpioMode
  d2 : Option GpioMode
  d3 : Option GpioMode
  d4 : Option GpioMode
  d5 : Option GpioMode
  d6 : Option GpioMode
  d7 : Option GpioMode
  deriving DecidableEq, Repr

/-- Records the configuration of one line; only data lines are tracked. -/
def Modes.set (m : Modes) : Line → GpioMode → Modes
  | Line.d0, v => { m with d0 := some v }
  | Line.d1, v => { m with d1 := some v }
  | Line.d2, v => { m with d2 := some v }
  | Line.d3, v => { m with d3 := some v }
  | Line.d4, v => { m with d4 := some v }
  | Line.d5, v => { m with d5 := some v }
  | Line.d6, v => { m with d6 := some v }
  | Line.d7, v => { m with d7 := some v }
  | _, _ => m

/-- Every data line in use has last been configured to `mode`. -/
def Modes.all (lcd : HD44780) (m : Modes) (mode : GpioMode) : Bool :=
  decide (m.d7 = some mode) && decide (m.d6 = some mode) && decide (m.d5 = some mode) &&
    decide (m.d4 = some mode) &&
    (!lcd.interface_8_bit ||
      (decide (m.d3 = some mode) && decide (m.d2 = some mode) && decide (m.d1 = some mode) &&
        decide (m.d0 = some mode)))

/-- State of the bus-direction monitor: line levels, data-line modes, and whether
every check so far has passed. -/
structure Mon where
  pins : Pins
  modes : Modes
  ok : Bool
  deriving DecidableEq, Repr

/-- Nothing configured, all lines low, no check failed. -/
def Mon.start : Mon := ⟨Dec.start.pins, ⟨none, none, none, none, none, none, none, none⟩, true⟩

/-- The bus is set up for a write: read/write low and every data line in use an
output. -/
def Mon.write_cfg (lcd : HD44780) (s : Mon) : Bool :=
  !s.pins.rw && s.modes.all lcd GpioMode.output_pp

/-- The bus is set up for a status read: read/write high, register-select low
and every data line in use an input. -/
def Mon.read_cfg (lcd : HD44780) (s : Mon) : Bool :=
  s.pins.rw && !s.pins.rs && s.modes.all lcd GpioMode.input

/-- The check an event has to pass.  Asserting the enable line requires the
write set-up or the read set-up; driving a data line requires the write set-up;
sampling a data line requires the enable line high and the read set-up; and the
set-up (register-select, read/write, data-line modes) may change only while the
enable line is low, so the set-up found when the enable line is asserted is the
set-up of the whole pulse. -/
def Mon.check (lcd : HD44780) (s : Mon) : Event → Bool
  | Event.init line _ => !line.is_data || !s.pins.en
  | Event.write Line.en level => !level || s.write_cfg lcd || s.read_cfg lcd
  | Event.write Line.rs _ => !s.pins.en
  | Event.write Line.rw _ => !s.pins.en
  | Event.write _ _ => s.write_cfg lcd
  | Event.read line _ => !line.is_data || (s.pins.en && s.read_cfg lcd)
  | Event.delay _ _ => true

/-- Replays one event in the monitor. -/
def Mon.step (lcd : HD44780) (s : Mon) (e : Event) : Mon :=
  match e with
  | Event.init line mode => ⟨s.pins, s.modes.set line mode, s.ok && s.check lcd e⟩
  | Event.write line level => ⟨s.pins.set line level, s.modes, s.ok && s.check lcd e⟩
  | _ => ⟨s.pins, s.modes, s.ok && s.check lcd e⟩

/-- Replay of the whole trace of a state in the monitor. -/
def mon (lcd : HD44780) (hw : Hw) : Mon := hw.trace.foldl (Mon.step lcd) Mon.start

/-- Every enable pulse so far had a consistent bus direction, and the enable line
is deasserted now. -/
def BusSafe (lcd : HD44780) (hw : Hw) : Prop :=
  (mon lcd hw).ok = true ∧ (mon lcd hw).pins.en = false

/-- No check has failed, the enable line is low, and the bus is set up for a
write. -/
def WriteReady (lcd : HD44780) (hw : Hw) : Prop :=
  (mon lcd hw).ok = true ∧ (mon lcd hw).pins.en = false ∧ (mon lcd hw).pins.rw = false ∧
    (mon lcd hw).modes.all lcd GpioMode.output_pp = true

/-- No check has failed, the enable line is low, and the bus is set up for a
status read. -/
def ReadReady (lcd : HD44780) (hw : Hw) : Prop :=
  (mon lcd hw).ok = true ∧ (mon lcd hw).pins.en = false ∧ (mon lcd hw).pins.rw = true ∧
    (mon lcd hw).pins.rs = false ∧ (mon lcd hw).modes.all lcd GpioMode.input = true

/-! ## Replay and termination lemmas -/

@[simp] theorem dec_write (lcd : HD44780) (l : Line) (v : Bool) (hw : Hw) :
    dec lcd (HAL_GPIO_WritePin l v hw) = (dec lcd hw).step lcd (Event.write l v) := by
  simp [dec, HAL_GPIO_WritePin, List.foldl_append]

@[simp] theorem dec_gpio_init (lcd : HD44780) (l : Line) (m : GpioMode) (hw : Hw) :
    dec lcd (GPIO_init l m hw) = dec lcd hw := by
  simp [dec, GPIO_init, List.foldl_append, Dec.step]

@[simp] theorem dec_delay_ns (lcd : HD44780) (n : Nat) (hw : Hw) :
    dec lcd (delay_ns n hw) = dec lcd hw := by
  simp [dec, delay_ns, List.foldl_append, Dec.step]

@[simp] theorem dec_delay_us (lcd : HD44780) (n : Nat) (hw : Hw) :
    dec lcd (delay_us n hw) = dec lcd hw := by
  simp [delay_us]

@[simp] theorem dec_delay_ms (lcd : HD44780) (n : Nat) (hw : Hw) :
    dec lcd (delay_ms n hw) = dec lcd hw := by
  simp [delay_ms]

@[simp] theorem dec_delay_init (lcd : HD44780) (c : Nat) (hw : Hw) :
    dec lcd (delay_init c hw) = dec lcd hw := by
  unfold delay_init
  split <;> rfl

@[simp] theorem dec_read_pin (lcd : HD44780) (dev : Device) (l : Line) (hw : Hw) :
    dec lcd (HAL_GPIO_ReadPin dev l hw).2 = dec lcd hw := by
  simp [dec, HAL_GPIO_ReadPin, List.foldl_append, Dec.step]

@[simp] theorem dec_set_data_mode (lcd : HD44780) (m : GpioMode) (hw : Hw) :
    dec lcd (HD44780_set_data_mode lcd m hw) = dec lcd hw := by
  unfold HD44780_set_data_mode
  split <;> simp

theorem bit_level_mod (b k : Nat) (hk : k < 8) : bit_level (b % 256) k = bit_level b k := by
  unfold bit_level
  congr 2
  apply Nat.eq_of_testBit_eq
  intro i
  rw [Nat.one_shiftLeft]
  simp only [Nat.testBit_and, Nat.testBit_two_pow, show (256 : Nat) = 2 ^ 8 from rfl,
    Nat.testBit_mod_two_pow]
  by_cases h : k = i
  · subst h; simp [hk]
  · simp [h]

set_option maxRecDepth 1000000 in
theorem bits_byte_lt : ∀ b, b < 256 →
    (bit_level b 7).toNat * 128 + (bit_level b 6).toNat * 64 + (bit_level b 5).toNat * 32 +
      (bit_level b 4).toNat * 16 + (bit_level b 3).toNat * 8 + (bit_level b 2).toNat * 4 +
      (bit_level b 1).toNat * 2 + (bit_level b 0).toNat = b := by
  decide

set_option maxRecDepth 1000000 in
theorem bits_nibble_lt : ∀ b, b < 256 →
    (bit_level b 3).toNat * 8 + (bit_level b 2).toNat * 4 +
      (bit_level b 1).toNat * 2 + (bit_level b 0).toNat = b % 16 := by
  decide

theorem bits_byte (b : Nat) :
    (bit_level b 7).toNat * 128 + (bit_level b 6).toNat * 64 + (bit_level b 5).toNat * 32 +
      (bit_level b 4).toNat * 16 + (bit_level b 3).toNat * 8 + (bit_level b 2).toNat * 4 +
      (bit_level b 1).toNat * 2 + (bit_level b 0).toNat = b % 256 := by
  have h := bits_byte_lt (b % 256) (Nat.mod_lt _ (by norm_num))
  simpa [bit_level_mod] using h

theorem bits_nibble (b : Nat) :
    (bit_level b 3).toNat * 8 + (bit_level b 2).toNat * 4 +
      (bit_level b 1).toNat * 2 + (bit_level b 0).toNat = b % 16 := by
  have h := bits_nibble_lt (b % 256) (Nat.mod_lt _ (by norm_num))
  have h2 : b % 256 % 16 = b % 16 := Nat.mod_mod_of_dvd b (by norm_num)
  simpa [bit_level_mod, h2] using h

theorem dec_push (lcd : HD44780) (b : Nat) (hw : Hw) :
    (dec lcd (HD44780_push_value lcd b hw)).ops =
        (dec lcd hw).ops ++
          [if (dec lcd hw).pins.rw then BusOp.read (dec lcd hw).pins.rs
            else BusOp.write (dec lcd hw).pins.rs (pushed lcd b)] ∧
      (dec lcd (HD44780_push_value lcd b hw)).pins.rs = (dec lcd hw).pins.rs ∧
      (dec lcd (HD44780_push_value lcd b hw)).pins.rw = (dec lcd hw).pins.rw := by
  unfold HD44780_push_value
  cases h8 : lcd.interface_8_bit
  · simp [Dec.step, Pins.set, latch, bus_value, h8, pushed, bits_nibble]
  · simp [Dec.step, Pins.set, latch, bus_value, h8, pushed, bits_byte]

@[simp] theorem pulls_write (l : Line) (v : Bool) (hw : Hw) :
    (HAL_GPIO_WritePin l v hw).pulls = hw.pulls := rfl

@[simp] theorem pulls_gpio_init (l : Line) (m : GpioMode) (hw : Hw) :
    (GPIO_init l m hw).pulls = hw.pulls := rfl

@[simp] theorem pulls_delay_ns (n : Nat) (hw : Hw) : (delay_ns n hw).pulls = hw.pulls := rfl

@[simp] theorem pulls_read_pin (dev : Device) (l : Line) (hw : Hw) :
    (HAL_GPIO_ReadPin dev l hw).2.pulls = hw.pulls := rfl

@[simp] theorem value_read_pin (dev : Device) (l : Line) (hw : Hw) :
    (HAL_GPIO_ReadPin dev l hw).1 = dev hw.pulls l := rfl

@[simp] theorem pulls_set_data_mode (lcd : HD44780) (m : GpioMode) (hw : Hw) :
    (HD44780_set_data_mode lcd m hw).pulls = hw.pulls := by
  unfold HD44780_set_data_mode
  split <;> rfl

theorem or_bits8 : ∀ a7 a6 a5 a4 a3 a2 a1 a0 : Bool,
    ((a7.toNat <<< 7) ||| (a6.toNat <<< 6) ||| (a5.toNat <<< 5) ||| (a4.toNat <<< 4) |||
      (a3.toNat <<< 3) ||| (a2.toNat <<< 2) ||| (a1.toNat <<< 1) ||| a0.toNat) =
    a7.toNat * 128 + a6.toNat * 64 + a5.toNat * 32 + a4.toNat * 16 + a3.toNat * 8 +
      a2.toNat * 4 + a1.toNat * 2 + a0.toNat := by
  decide

theorem or_bits4 : ∀ a3 a2 a1 a0 : Bool,
    ((a3.toNat <<< 3) ||| (a2.toNat <<< 2) ||| (a1.toNat <<< 1) ||| a0.toNat) =
    a3.toNat * 8 + a2.toNat * 4 + a1.toNat * 2 + a0.toNat := by
  decide

@[simp] theorem dec_mk (lcd : HD44780) (a p : Nat) (hw : Hw) :
    dec lcd (Hw.mk a p hw.trace) = dec lcd hw := rfl

theorem pull_value_spec (dev : Device) (lcd : HD44780) (hw : Hw) :
    (HD44780_pull_value dev lcd hw).1 =
        (if lcd.interface_8_bit then line_byte dev hw.pulls else line_nibble dev hw.pulls) ∧
      (HD44780_pull_value dev lcd hw).2.pulls = hw.pulls + 1 ∧
      (dec lcd (HD44780_pull_value dev lcd hw).2).ops =
        (dec lcd hw).ops ++
          [if (dec lcd hw).pins.rw then BusOp.read (dec lcd hw).pins.rs
            else BusOp.write (dec lcd hw).pins.rs (bus_value lcd (dec lcd hw).pins)] ∧
      (dec lcd (HD44780_pull_value dev lcd hw).2).pins.rs = (dec lcd hw).pins.rs ∧
      (dec lcd (HD44780_pull_value dev lcd hw).2).pins.rw = (dec lcd hw).pins.rw := by
  unfold HD44780_pull_value
  cases h8 : lcd.interface_8_bit
  · refine ⟨?_, ?_, ?_, ?_, ?_⟩
    · simp [pull_bit, line_nibble, or_bits4]
    · simp [pull_bit]
    all_goals simp [pull_bit, Dec.step, Pins.set, latch, bus_value]
  · refine ⟨?_, ?_, ?_, ?_, ?_⟩
    · simp [pull_bit, line_byte, or_bits8]
    · simp [pull_bit]
    all_goals simp [pull_bit, Dec.step, Pins.set, latch, bus_value]

theorem nibbles_byte : ∀ a7 a6 a5 a4 a3 a2 a1 a0 : Bool,
    ((0 ||| ((a7.toNat * 8 + a6.toNat * 4 + a5.toNat * 2 + a4.toNat) <<< 4)) % 256 |||
      (a3.toNat * 8 + a2.toNat * 4 + a1.toNat * 2 + a0.toNat)) % 256 =
    (a7.toNat * 8 + a6.toNat * 4 + a5.toNat * 2 + a4.toNat) * 16 +
      (a3.toNat * 8 + a2.toNat * 4 + a1.toNat * 2 + a0.toNat) := by
  decide

theorem read_byte_spec (dev : Device) (lcd : HD44780) (hw : Hw) :
    (HD44780_read_byte dev lcd hw).1 = status_byte lcd dev hw.pulls ∧
      (HD44780_read_byte dev lcd hw).2.pulls = hw.pulls + stride lcd ∧
      busOps lcd (HD44780_read_byte dev lcd hw).2 =
        busOps lcd hw ++ List.replicate (stride lcd) (BusOp.read false) := by
  unfold HD44780_read_byte busOps
  cases h8 : lcd.interface_8_bit
  · simp only [Bool.false_eq_true, ↓reduceIte]
    generalize hA : HD44780_set_data_mode lcd GpioMode.input
      (HAL_GPIO_WritePin Line.rs false (HAL_GPIO_WritePin Line.rw true hw)) = A
    have hAp : A.pulls = hw.pulls := by subst hA; simp
    have hAd : dec lcd A = ((dec lcd hw).step lcd (Event.write Line.rw true)).step lcd
        (Event.write Line.rs false) := by subst hA; simp
    obtain ⟨v1, p1, o1, rs1, rw1⟩ := pull_value_spec dev lcd A
    obtain ⟨v2, p2, o2, -, -⟩ := pull_value_spec dev lcd (HD44780_pull_value dev lcd A).2
    refine ⟨?_, ?_, ?_⟩
    · rw [v2, v1, p1, hAp]
      simp only [h8, Bool.false_eq_true, ↓reduceIte, status_byte, line_nibble]
      exact nibbles_byte _ _ _ _ _ _ _ _
    · rw [p2, p1, hAp]; simp [stride, h8]
    · rw [o2, rs1, rw1, o1, hAd]
      simp [Dec.step, Pins.set, stride, h8]
  · simp only [↓reduceIte]
    generalize hA : HD44780_set_data_mode lcd GpioMode.input
      (HAL_GPIO_WritePin Line.rs false (HAL_GPIO_WritePin Line.rw true hw)) = A
    have hAp : A.pulls = hw.pulls := by subst hA; simp
    have hAd : dec lcd A = ((dec lcd hw).step lcd (Event.write Line.rw true)).step lcd
        (Event.write Line.rs false) := by subst hA; simp
    obtain ⟨v1, p1, o1, -, -⟩ := pull_value_spec dev lcd A
    refine ⟨?_, ?_, ?_⟩
    · rw [v1, hAp]; simp [h8, status_byte]
    · rw [p1, hAp]; simp [stride, h8]
    · rw [o1, hAd]
      simp [Dec.step, Pins.set, stride, h8]

theorem busy_bit8 : ∀ a7 a6 a5 a4 a3 a2 a1 a0 : Bool,
    ((a7.toNat * 128 + a6.toNat * 64 + a5.toNat * 32 + a4.toNat * 16 + a3.toNat * 8 +
      a2.toNat * 4 + a1.toNat * 2 + a0.toNat) >>> 7) &&& 1 = a7.toNat := by
  decide

theorem busy_bit4 : ∀ a7 a6 a5 a4 a3 a2 a1 a0 : Bool,
    (((a7.toNat * 8 + a6.toNat * 4 + a5.toNat * 2 + a4.toNat) * 16 +
      (a3.toNat * 8 + a2.toNat * 4 + a1.toNat * 2 + a0.toNat)) >>> 7) &&& 1 = a7.toNat := by
  decide

theorem status_busy_bit (lcd : HD44780) (dev : Device) (n : Nat) :
    (status_byte lcd dev n >>> 7) &&& 1 = (dev n Line.d7).toNat := by
  unfold status_byte
  split
  · exact busy_bit8 _ _ _ _ _ _ _ _
  · exact busy_bit4 _ _ _ _ _ _ _ _

theorem get_busyflag_spec (dev : Device) (lcd : HD44780) (hw : Hw) :
    (HD44780_get_busyflag dev lcd hw).1 = (dev hw.pulls Line.d7).toNat ∧
      (poll dev lcd hw).pulls = hw.pulls + stride lcd ∧
      busOps lcd (poll dev lcd hw) =
        busOps lcd hw ++ List.replicate (stride lcd) (BusOp.read false) := by
  obtain ⟨v, p, o⟩ := read_byte_spec dev lcd hw
  have hp : poll dev lcd hw = (HD44780_read_byte dev lcd hw).2 := by
    simp only [poll, HD44780_get_busyflag]
  rw [hp]
  refine ⟨?_, p, o⟩
  simp only [HD44780_get_busyflag, v, HD44780_CMD_READ_BUSYFLAG_AND_ADDRESS]
  exact status_busy_bit lcd dev hw.pulls

theorem poll_iterate (dev : Device) (lcd : HD44780) (n : Nat) (hw : Hw) :
    ((poll dev lcd)^[n] hw).pulls = hw.pulls + stride lcd * n ∧
      busOps lcd ((poll dev lcd)^[n] hw) =
        busOps lcd hw ++ List.replicate (stride lcd * n) (BusOp.read false) := by
  induction n generalizing hw with
  | zero => simp
  | succ n ih =>
    obtain ⟨-, p, o⟩ := get_busyflag_spec dev lcd hw
    obtain ⟨p', o'⟩ := ih (poll dev lcd hw)
    rw [Function.iterate_succ_apply]
    refine ⟨?_, ?_⟩
    · rw [p', p]; ring
    · rw [o', o, List.append_assoc, ← List.replicate_add]
      congr 2; ring

theorem await_busyflag_succ (dev : Device) (lcd : HD44780) (fuel : Nat) (hw : Hw) :
    HD44780_await_busyflag dev lcd (fuel + 1) hw =
      if dev hw.pulls Line.d7 = true then HD44780_await_busyflag dev lcd fuel (poll dev lcd hw)
      else some (poll dev lcd hw) := by
  obtain ⟨v, -, -⟩ := get_busyflag_spec dev lcd hw
  rw [HD44780_await_busyflag]
  show (if (HD44780_get_busyflag dev lcd hw).1 ≠ 0 then _ else _) = _
  rw [v]
  cases dev hw.pulls Line.d7 <;> rfl

/-- The busy-flag loop returns after `k + 1` status reads when the first clear
busy bit is the one of status byte number `k`. -/
theorem await_busyflag_returns (dev : Device) (lcd : HD44780) (k : Nat) :
    ∀ (hw : Hw) (fuel : Nat), k < fuel →
      (∀ j, j < k → dev (hw.pulls + stride lcd * j) Line.d7 = true) →
      dev (hw.pulls + stride lcd * k) Line.d7 = false →
      HD44780_await_busyflag dev lcd fuel hw = some ((poll dev lcd)^[k + 1] hw) := by
  induction k with
  | zero =>
    intro hw fuel hf _ hk
    obtain ⟨f, rfl⟩ : ∃ f, fuel = f + 1 := ⟨fuel - 1, by omega⟩
    simp only [Nat.mul_zero, Nat.add_zero] at hk
    rw [await_busyflag_succ, if_neg (by simp [hk])]
    simp
  | succ k ih =>
    intro hw fuel hf hj hk
    obtain ⟨f, rfl⟩ : ∃ f, fuel = f + 1 := ⟨fuel - 1, by omega⟩
    obtain ⟨-, p, -⟩ := get_busyflag_spec dev lcd hw
    have h0 := hj 0 (by omega)
    simp only [Nat.mul_zero, Nat.add_zero] at h0
    have hrec := ih (poll dev lcd hw) f (by omega)
      (fun j hjk => by
        have e : hw.pulls + stride lcd + stride lcd * j = hw.pulls + stride lcd * (j + 1) := by
          ring
        rw [p, e]
        exact hj (j + 1) (by omega))
      (by
        have e : hw.pulls + stride lcd + stride lcd * k = hw.pulls + stride lcd * (k + 1) := by
          ring
        rw [p, e]; exact hk)
    rw [await_busyflag_succ, if_pos h0, Function.iterate_succ_apply]
    exact hrec

theorem await_busyflag_total (dev : Device) (lcd : HD44780) (hdev : Responsive lcd dev)
    (hw : Hw) :
    ∃ k, ∀ fuel, k < fuel →
      HD44780_await_busyflag dev lcd fuel hw = some ((poll dev lcd)^[k + 1] hw) := by
  classical
  have hex := hdev hw.pulls
  refine ⟨Nat.find hex, fun fuel hf => ?_⟩
  refine await_busyflag_returns dev lcd _ hw fuel hf (fun j hj => ?_) (Nat.find_spec hex)
  have := Nat.find_min hex hj
  simpa using this

theorem write_byte_eq (dev : Device) (lcd : HD44780) (rs : Bool) (byte fuel : Nat) (hw : Hw) :
    HD44780_write_byte dev lcd rs byte fuel hw =
      (HD44780_await_busyflag dev lcd fuel (write_byte_bus lcd rs byte hw)).map
        (fun hw => if rs then delay_us 5 hw else hw) := by
  unfold HD44780_write_byte write_byte_bus
  simp only []
  split <;> rename_i h <;> simp [h]

theorem write_byte_bus_ops (lcd : HD44780) (rs : Bool) (byte : Nat) (hb : byte < 256)
    (hw : Hw) :
    busOps lcd (write_byte_bus lcd rs byte hw) = busOps lcd hw ++ busWriteOf lcd rs byte := by
  unfold write_byte_bus busOps busWriteOf
  simp only []
  generalize hA : HAL_GPIO_WritePin Line.rs rs (HAL_GPIO_WritePin Line.rw false
    (HD44780_set_data_mode lcd GpioMode.output_pp hw)) = A
  have hAo : (dec lcd A).ops = (dec lcd hw).ops := by
    subst hA; simp [Dec.step]
  have hArs : (dec lcd A).pins.rs = rs := by
    subst hA; simp [Dec.step, Pins.set]
  have hArw : (dec lcd A).pins.rw = false := by
    subst hA; simp [Dec.step, Pins.set]
  cases h8 : lcd.interface_8_bit
  · obtain ⟨o1, rs1, rw1⟩ := dec_push lcd (byte >>> 4) A
    obtain ⟨o2, -, -⟩ := dec_push lcd byte (HD44780_push_value lcd (byte >>> 4) A)
    simp only [Bool.false_eq_true, ↓reduceIte]
    rw [o2, rs1, rw1, o1, hArs, hArw, hAo]
    have e1 : (byte >>> 4) % 16 = byte / 16 := by
      rw [Nat.shiftRight_eq_div_pow]; omega
    simp [pushed, h8, e1]
  · obtain ⟨o1, -, -⟩ := dec_push lcd byte A
    simp only [↓reduceIte]
    rw [o1, hArs, hArw, hAo]
    simp [pushed, h8, Nat.mod_eq_of_lt hb]

theorem busOps_delay_if (lcd : HD44780) (rs : Bool) (hw : Hw) :
    busOps lcd (if rs then delay_us 5 hw else hw) = busOps lcd hw := by
  cases rs <;> simp [busOps]

theorem write_byte_performs (dev : Device) (lcd : HD44780) (hdev : Responsive lcd dev)
    (rs : Bool) (byte : Nat) (hb : byte < 256) (hw : Hw) :
    ∃ m, Performs lcd (HD44780_write_byte dev lcd rs byte) hw
      (busWriteOf lcd rs byte ++ statusReads lcd (m + 1)) := by
  obtain ⟨k, hk⟩ := await_busyflag_total dev lcd hdev (write_byte_bus lcd rs byte hw)
  refine ⟨k, k + 1,
    (if rs then delay_us 5 ((poll dev lcd)^[k + 1] (write_byte_bus lcd rs byte hw))
      else (poll dev lcd)^[k + 1] (write_byte_bus lcd rs byte hw)),
    fun fuel hf => ?_, ?_⟩
  · rw [write_byte_eq, hk fuel (by omega)]
    simp only [Option.map_some']
  · rw [busOps_delay_if, (poll_iterate dev lcd (k + 1) _).2, write_byte_bus_ops lcd rs byte hb,
      List.append_assoc]
    rfl

/-! ## Composition of gated writes -/

theorem gated_append (lcd : HD44780) (ws2 : List (Bool × Nat)) (X2 : List BusOp)
    (h2 : Gated lcd ws2 X2) :
    ∀ (ws1 : List (Bool × Nat)) (X1 : List BusOp), Gated lcd ws1 X1 →
      Gated lcd (ws1 ++ ws2) (X1 ++ X2) := by
  intro ws1
  induction ws1 with
  | nil =>
    intro X1 h1
    simp only [Gated] at h1
    subst h1
    simpa using h2
  | cons w ws ih =>
    intro X1 h1
    obtain ⟨m, X', rfl, h⟩ := h1
    exact ⟨m, X' ++ X2, by simp only [List.append_assoc], ih X' h⟩

theorem gated_singleton (lcd : HD44780) (w : Bool × Nat) (m : Nat) :
    Gated lcd [w] (busWriteOf lcd w.1 w.2 ++ statusReads lcd (m + 1)) :=
  ⟨m, [], by simp, rfl⟩

theorem gated_snoc (lcd : HD44780) (w : Bool × Nat) :
    ∀ (ws : List (Bool × Nat)) (X : List BusOp), Gated lcd (ws ++ [w]) X →
      ∃ X1 m, X = X1 ++ busWriteOf lcd w.1 w.2 ++ statusReads lcd (m + 1) ∧
        Gated lcd ws X1 := by
  intro ws
  induction ws with
  | nil =>
    intro X h
    obtain ⟨m, X', rfl, h'⟩ := h
    simp only [Gated] at h'
    subst h'
    exact ⟨[], m, by simp, rfl⟩
  | cons v ws ih =>
    intro X h
    obtain ⟨m, X', rfl, h'⟩ := h
    obtain ⟨X1, m1, rfl, h1⟩ := ih X' h'
    exact ⟨busWriteOf lcd v.1 v.2 ++ statusReads lcd (m + 1) ++ X1, m1,
      by simp only [List.append_assoc], m, X1, rfl, h1⟩

theorem gated_mem (lcd : HD44780) :
    ∀ (ws : List (Bool × Nat)) (X : List BusOp), Gated lcd ws X → ∀ op, op ∈ X →
      op = BusOp.read false ∨ ∃ w, w ∈ ws ∧ op ∈ busWriteOf lcd w.1 w.2 := by
  intro ws
  induction ws with
  | nil =>
    intro X h op hop
    simp only [Gated] at h
    subst h
    simp at hop
  | cons v ws ih =>
    intro X h op hop
    obtain ⟨m, X', rfl, h'⟩ := h
    simp only [List.mem_append] at hop
    rcases hop with (hop | hop) | hop
    · exact Or.inr ⟨v, by simp, hop⟩
    · exact Or.inl (List.eq_of_mem_replicate hop)
    · rcases ih X' h' op hop with h1 | ⟨w, hw, h1⟩
      · exact Or.inl h1
      · exact Or.inr ⟨w, by simp [hw], h1⟩

theorem performs_bind (lcd : HD44780) {op1 op2 : Nat → Hw → Option Hw} {hw : Hw}
    {X1 : List BusOp} {P : List BusOp → Prop} (h1 : Performs lcd op1 hw X1)
    (h2 : ∀ hw1, ∃ X2, Performs lcd op2 hw1 X2 ∧ P X2) :
    ∃ X2, Performs lcd (fun fuel hw => (op1 fuel hw).bind (op2 fuel)) hw (X1 ++ X2) ∧ P X2 := by
  obtain ⟨f1, hw1, r1, o1⟩ := h1
  obtain ⟨X2, ⟨f2, hw2, r2, o2⟩, hP⟩ := h2 hw1
  refine ⟨X2, ⟨max f1 f2, hw2, fun fuel hf => ?_, ?_⟩, hP⟩
  · simp only [r1 fuel (le_trans (le_max_left f1 f2) hf), Option.some_bind,
      r2 fuel (le_trans (le_max_right f1 f2) hf)]
  · rw [o2, o1, List.append_assoc]

theorem performs_congr (lcd : HD44780) {op op' : Nat → Hw → Option Hw} {hw : Hw}
    {X : List BusOp} (he : ∀ fuel, op fuel hw = op' fuel hw) (h : Performs lcd op' hw X) :
    Performs lcd op hw X := by
  obtain ⟨f0, hw', r, o⟩ := h
  exact ⟨f0, hw', fun fuel hf => by rw [he, r fuel hf], o⟩

theorem runs_congr (lcd : HD44780) {op op' : Nat → Hw → Option Hw} {ws : List (Bool × Nat)}
    (he : ∀ fuel hw, op fuel hw = op' fuel hw) (h : RunsGated lcd op' ws) :
    RunsGated lcd op ws := by
  intro hw
  obtain ⟨X, hp, hg⟩ := h hw
  exact ⟨X, performs_congr lcd (fun fuel => he fuel hw) hp, hg⟩

theorem runs_pure (lcd : HD44780) : RunsGated lcd (fun _ hw => some hw) [] :=
  fun hw => ⟨[], ⟨0, hw, fun _ _ => rfl, by simp⟩, rfl⟩

theorem runs_bind (lcd : HD44780) {op1 op2 : Nat → Hw → Option Hw}
    {ws1 ws2 : List (Bool × Nat)} (h1 : RunsGated lcd op1 ws1) (h2 : RunsGated lcd op2 ws2) :
    RunsGated lcd (fun fuel hw => (op1 fuel hw).bind (op2 fuel)) (ws1 ++ ws2) := by
  intro hw
  obtain ⟨X1, hp1, hg1⟩ := h1 hw
  obtain ⟨X2, hp, hg2⟩ := performs_bind lcd hp1 h2
  exact ⟨X1 ++ X2, hp, gated_append lcd ws2 X2 hg2 ws1 X1 hg1⟩

theorem runs_write_byte (dev : Device) (lcd : HD44780) (hdev : Responsive lcd dev)
    (rs : Bool) (byte : Nat) (hb : byte < 256) :
    RunsGated lcd (HD44780_write_byte dev lcd rs byte) [(rs, byte)] := by
  intro hw
  obtain ⟨m, hp⟩ := write_byte_performs dev lcd hdev rs byte hb hw
  exact ⟨_, hp, gated_singleton lcd (rs, byte) m⟩

theorem runs_write_instruction (dev : Device) (lcd : HD44780) (hdev : Responsive lcd dev)
    (byte : Nat) (hb : byte < 256) :
    RunsGated lcd (HD44780_write_instruction dev lcd byte) [instr byte] :=
  runs_congr lcd (fun _ _ => by simp only [HD44780_write_instruction])
    (runs_write_byte dev lcd hdev false byte hb)

theorem runs_write_data (dev : Device) (lcd : HD44780) (hdev : Responsive lcd dev)
    (byte : Nat) (hb : byte < 256) :
    RunsGated lcd (HD44780_write_data dev lcd byte) [data byte] :=
  runs_congr lcd (fun _ _ => by simp only [HD44780_write_data])
    (runs_write_byte dev lcd hdev true byte hb)

theorem runs_for_loop (lcd : HD44780) (body : Nat → Nat → Hw → Option Hw)
    (w : Nat → Bool × Nat) (h : ∀ i, RunsGated lcd (body i) [w i]) :
    ∀ count i0, RunsGated lcd (fun fuel hw => for_loop (fun i hw => body i fuel hw) count i0 hw)
      ((List.range count).map (fun j => w (i0 + j))) := by
  intro count
  induction count with
  | zero =>
    intro i0
    have hz : RunsGated lcd (fun _ hw => some hw)
        ((List.range 0).map (fun j => w (i0 + j))) := by
      simpa using runs_pure lcd
    exact runs_congr lcd (fun _ _ => by simp only [for_loop]) hz
  | succ n ih =>
    intro i0
    have hl : (List.range (n + 1)).map (fun j => w (i0 + j)) =
        [w i0] ++ (List.range n).map (fun j => w (i0 + 1 + j)) := by
      rw [List.range_succ_eq_map]
      simp only [List.map_cons, List.map_map, Nat.add_zero, List.singleton_append,
        List.cons.injEq, true_and]
      apply List.map_congr_left
      intro j _
      simp only [Function.comp, Nat.succ_eq_add_one]
      congr 1
      omega
    rw [hl]
    exact runs_congr lcd (fun _ _ => by simp only [for_loop]) (runs_bind lcd (h i0) (ih (i0 + 1)))

/-! ## Byte arithmetic used by the public operations -/

theorem or_0x80_mod (a : Nat) : (0x80 ||| a) % 256 = 0x80 ||| a % 256 := by
  apply Nat.eq_of_testBit_eq
  intro i
  simp only [show (256 : Nat) = 2 ^ 8 from rfl, show (0x80 : Nat) = 2 ^ 7 from rfl,
    Nat.testBit_mod_two_pow, Nat.testBit_or, Nat.testBit_two_pow]
  by_cases h : i < 8
  · simp [h]
  · have h7 : ¬ (7 = i) := by omega
    simp [h, h7]

theorem or_0x80_lt (a : Nat) (ha : a < 256) : 0x80 ||| a < 256 :=
  Nat.or_lt_two_pow (n := 8) (by norm_num) ha

theorem cursor_byte (lcd : HD44780) (column row : Nat) :
    HD44780_CMD_SET_DDRAM_ADDRESS |||
        ((if row % 2 ≠ 0 ∧ lcd.single_line = false then HD44780_SECOND_LINE_ADDRESS else 0) +
          column) % 256 =
      (0x80 ||| address_for lcd column row) % 256 := by
  rw [or_0x80_mod]
  unfold address_for HD44780_CMD_SET_DDRAM_ADDRESS HD44780_SECOND_LINE_ADDRESS
  by_cases h : row % 2 ≠ 0 ∧ lcd.single_line = false
  · have h' : lcd.single_line = false ∧ row % 2 = 1 := ⟨h.2, by omega⟩
    rw [if_pos h, if_pos h']
  · have h' : ¬ (lcd.single_line = false ∧ row % 2 = 1) := fun hc => h ⟨by omega, hc.1⟩
    rw [if_neg h, if_neg h', Nat.zero_add]

theorem entry_mode_byte_lt (config : HD44780_Config) : entry_mode_byte config < 256 := by
  rcases config with ⟨a, b, c, d, e⟩
  cases a <;> cases b <;> cases c <;> cases d <;> cases e <;> decide

theorem display_control_byte_lt (config : HD44780_Config) :
    display_control_byte config < 256 := by
  rcases config with ⟨a, b, c, d, e⟩
  cases a <;> cases b <;> cases c <;> cases d <;> cases e <;> decide

theorem function_set_byte_lt (lcd : HD44780) : function_set_byte lcd < 256 := by
  rcases lcd with ⟨a, b, c⟩
  cases a <;> cases b <;> cases c <;> decide

theorem idle_responsive (lcd : HD44780) : Responsive lcd idle_device :=
  fun _ => ⟨0, rfl⟩

theorem gated_one (lcd : HD44780) (w : Bool × Nat) (X : List BusOp) (h : Gated lcd [w] X) :
    ∃ m, X = busWriteOf lcd w.1 w.2 ++ statusReads lcd (m + 1) := by
  obtain ⟨m, X', rfl, h'⟩ := h
  simp only [Gated] at h'
  subst h'
  exact ⟨m, by simp⟩

theorem runs_cursor_to (dev : Device) (lcd : HD44780) (hdev : Responsive lcd dev)
    (column row : Nat) :
    RunsGated lcd (HD44780_cursor_to dev lcd column row)
      [instr ((0x80 ||| address_for lcd column row) % 256)] := by
  refine runs_congr lcd (fun fuel hw => ?_)
    (runs_write_instruction dev lcd hdev _ (Nat.mod_lt _ (by norm_num)))
  simp only [HD44780_cursor_to, cursor_byte]

theorem runs_configure (dev : Device) (lcd : HD44780) (hdev : Responsive lcd dev)
    (config : HD44780_Config) :
    RunsGated lcd (HD44780_configure dev lcd config)
      [instr (entry_mode_byte config), instr (display_control_byte config)] := by
  refine runs_congr lcd (fun fuel hw => ?_)
    (runs_bind lcd
      (runs_write_instruction dev lcd hdev _ (entry_mode_byte_lt config))
      (runs_write_instruction dev lcd hdev _ (display_control_byte_lt config)))
  rfl

theorem runs_repeat (dev : Device) (lcd : HD44780) (hdev : Responsive lcd dev) (rs : Bool)
    (byte : Nat) (hb : byte < 256) (count i0 : Nat) :
    RunsGated lcd
      (fun fuel hw => for_loop (fun _ hw => HD44780_write_byte dev lcd rs byte fuel hw) count i0 hw)
      (List.replicate count (rs, byte)) := by
  have h := runs_for_loop lcd (fun _ => HD44780_write_byte dev lcd rs byte) (fun _ => (rs, byte))
    (fun _ => runs_write_byte dev lcd hdev rs byte hb) count i0
  have e : (List.range count).map (fun _ => (rs, byte)) = List.replicate count (rs, byte) := by
    simp
  rw [e] at h
  exact h

theorem runs_shift_display (dev : Device) (lcd : HD44780) (hdev : Responsive lcd dev)
    (n : Int) :
    RunsGated lcd (HD44780_shift_display dev lcd n)
      (List.replicate n.natAbs (instr (if n < 0 then 0x1C else 0x18))) := by
  have hb : (if n < 0 then 0x1C else 0x18 : Nat) < 256 := by split <;> norm_num
  refine runs_congr lcd (fun fuel hw => ?_) (runs_repeat dev lcd hdev false _ hb n.natAbs 0)
  unfold HD44780_shift_display HD44780_write_instruction
  by_cases h : n < 0
  · simp only [h, ↓reduceIte]; rfl
  · simp only [h, ↓reduceIte]; rfl

theorem runs_put_char_tab (dev : Device) (lcd : HD44780) (hdev : Responsive lcd dev) :
    RunsGated lcd (HD44780_put_char dev lcd 9) (List.replicate 4 (data 0x20)) := by
  refine runs_congr lcd (fun fuel hw => ?_)
    (runs_repeat dev lcd hdev true 0x20 (by norm_num) 4 0)
  rfl

theorem mem_busWriteOf (lcd : HD44780) (rs : Bool) (byte : Nat) (op : BusOp)
    (h : op ∈ busWriteOf lcd rs byte) : ∃ v, op = BusOp.write rs v := by
  unfold busWriteOf at h
  split at h
  · simp only [List.mem_singleton] at h
    exact ⟨_, h⟩
  · simp only [List.mem_cons, List.mem_singleton, List.not_mem_nil, or_false] at h
    rcases h with h | h
    · exact ⟨_, h⟩
    · exact ⟨_, h⟩

/-! ## Strings -/

theorem put_str_eq_put_chars (dev : Device) (lcd : HD44780) (fuel : Nat) (rest : List Nat) :
    ∀ (s : List Nat), (∀ c, c ∈ s → c ≠ 0) → ∀ hw,
      HD44780_put_str dev lcd fuel (s ++ 0 :: rest) hw = put_chars dev lcd fuel s hw := by
  intro s
  induction s with
  | nil =>
    intro _ hw
    simp only [List.nil_append, HD44780_put_str, put_chars, ne_eq, not_true_eq_false,
      ↓reduceIte]
  | cons c s ih =>
    intro hs hw
    have hc : c ≠ 0 := hs c (by simp)
    have hf : HD44780_put_str dev lcd fuel (s ++ 0 :: rest) = put_chars dev lcd fuel s :=
      funext (ih (fun d hd => hs d (by simp [hd])))
    rw [List.cons_append, HD44780_put_str, if_pos hc, hf, put_chars]

theorem put_chars_append (dev : Device) (lcd : HD44780) (fuel : Nat) (s2 : List Nat) :
    ∀ (s1 : List Nat) (hw : Hw),
      put_chars dev lcd fuel (s1 ++ s2) hw =
        (put_chars dev lcd fuel s1 hw).bind (put_chars dev lcd fuel s2) := by
  intro s1
  induction s1 with
  | nil => intro hw; simp only [List.nil_append, put_chars, Option.some_bind]
  | cons c s ih =>
    intro hw
    have hf : put_chars dev lcd fuel (s ++ s2) =
        fun hw => (put_chars dev lcd fuel s hw).bind (put_chars dev lcd fuel s2) :=
      funext ih
    rw [List.cons_append, put_chars, put_chars, hf]
    cases HD44780_put_char dev lcd c fuel hw <;> rfl

theorem runs_put_chars_plain (dev : Device) (lcd : HD44780) (hdev : Responsive lcd dev) :
    ∀ (s : List Nat), (∀ c, c ∈ s → c < 256 ∧ c ≠ 10 ∧ c ≠ 9) →
      RunsGated lcd (fun fuel hw => put_chars dev lcd fuel s hw) (s.map data) := by
  intro s
  induction s with
  | nil => intro _; exact runs_congr lcd (fun _ _ => by simp only [put_chars]) (runs_pure lcd)
  | cons c s ih =>
    intro hs
    obtain ⟨hc, hn, ht⟩ := hs c (by simp)
    have h1 : RunsGated lcd (HD44780_put_char dev lcd c) [data c] :=
      runs_congr lcd (fun _ _ => by simp only [HD44780_put_char, hn, ht, ↓reduceIte])
        (runs_write_data dev lcd hdev c hc)
    have h2 := ih (fun d hd => hs d (by simp [hd]))
    exact runs_congr lcd (fun _ _ => by simp only [put_chars]) (runs_bind lcd h1 h2)

/-! ## Operations that act on the bus before their gated writes -/

theorem performs_after (lcd : HD44780) {op op' : Nat → Hw → Option Hw} {hw hw1 : Hw}
    {R X : List BusOp} (he : ∀ fuel, op fuel hw = op' fuel hw1)
    (ho : busOps lcd hw1 = busOps lcd hw ++ R) (hp : Performs lcd op' hw1 X) :
    Performs lcd op hw (R ++ X) := by
  obtain ⟨f0, hw', r, o⟩ := hp
  exact ⟨f0, hw', fun fuel hf => by rw [he, r fuel hf], by rw [o, ho, List.append_assoc]⟩

theorem dec_write_init (lcd : HD44780) (byte : Nat) (hb : byte < 256) (hw : Hw)
    (hrs : (dec lcd hw).pins.rs = false) (hrw : (dec lcd hw).pins.rw = false) :
    (dec lcd (HD44780_write_init lcd byte hw)).ops =
        (dec lcd hw).ops ++ [degradedWrite lcd byte] ∧
      (dec lcd (HD44780_write_init lcd byte hw)).pins.rs = false ∧
      (dec lcd (HD44780_write_init lcd byte hw)).pins.rw = false := by
  unfold HD44780_write_init degradedWrite
  cases h8 : lcd.interface_8_bit
  · obtain ⟨o, r, w⟩ := dec_push lcd (byte >>> 4) hw
    have e1 : (byte >>> 4) % 16 = byte / 16 := by
      rw [Nat.shiftRight_eq_div_pow]; omega
    simp only [Bool.false_eq_true, ↓reduceIte]
    rw [o, r, w, hrs, hrw]
    simp [pushed, h8, e1]
  · obtain ⟨o, r, w⟩ := dec_push lcd byte hw
    simp only [↓reduceIte]
    rw [o, r, w, hrs, hrw]
    simp [pushed, h8, Nat.mod_eq_of_lt hb]

theorem init_bus_ops (lcd : HD44780) (clock : Nat) (hw : Hw)
    (hen : (dec lcd hw).pins.en = false) :
    busOps lcd (init_bus lcd clock hw) = busOps lcd hw ++ degradedWrites lcd := by
  unfold init_bus busOps degradedWrites
  simp only [HD44780_CMD_FUNCTION_SET, HD44780_FLG_DATA_LEN_8BIT, HD44780_FLG_DATA_LEN_4BIT]
  generalize hA : delay_ms 50 (HAL_GPIO_WritePin Line.en false (HAL_GPIO_WritePin Line.rw false
    (HAL_GPIO_WritePin Line.rs false (HD44780_set_data_mode lcd GpioMode.output_pp
      (GPIO_init Line.en GpioMode.output_pp (GPIO_init Line.rw GpioMode.output_pp
        (GPIO_init Line.rs GpioMode.output_pp (delay_init clock hw)))))))) = A
  have hAo : (dec lcd A).ops = (dec lcd hw).ops := by
    subst hA; simp [Dec.step, Pins.set, hen]
  have hArs : (dec lcd A).pins.rs = false := by
    subst hA; simp [Dec.step, Pins.set]
  have hArw : (dec lcd A).pins.rw = false := by
    subst hA; simp [Dec.step, Pins.set]
  obtain ⟨o1, r1, w1⟩ := dec_write_init lcd (0x20 ||| 0x10) (by decide) A hArs hArw
  generalize hB : HD44780_write_init lcd (0x20 ||| 0x10) A = B at o1 r1 w1
  obtain ⟨o2, r2, w2⟩ := dec_write_init lcd (0x20 ||| 0x10) (by decide) (delay_us 4500 B)
    (by simpa using r1) (by simpa using w1)
  generalize hC : HD44780_write_init lcd (0x20 ||| 0x10) (delay_us 4500 B) = C at o2 r2 w2
  obtain ⟨o3, r3, w3⟩ := dec_write_init lcd (0x20 ||| 0x10) (by decide) (delay_us 120 C)
    (by simpa using r2) (by simpa using w2)
  generalize hD : HD44780_write_init lcd (0x20 ||| 0x10) (delay_us 120 C) = D at o3 r3 w3
  obtain ⟨o4, -, -⟩ := dec_write_init lcd (0x20 ||| 0x00) (by decide) (delay_us 50 D)
    (by simpa using r3) (by simpa using w3)
  simp only [dec_delay_us] at o2 o3 o4
  cases h8 : lcd.interface_8_bit
  · simp only [Bool.not_false, ↓reduceIte, dec_delay_us, Bool.false_eq_true]
    rw [o4, o3, o2, o1, hAo]
    simp
  · simp only [Bool.not_true, Bool.false_eq_true, ↓reduceIte, dec_delay_us]
    rw [o3, o2, o1, hAo]
    simp

theorem init_eq (dev : Device) (lcd : HD44780) (clock fuel : Nat) (hw : Hw) :
    HD44780_init dev lcd clock fuel hw =
      ((HD44780_write_instruction dev lcd (function_set_byte lcd) fuel
          (init_bus lcd clock hw)).bind
        fun hw => (HD44780_write_instruction dev lcd 0x08 fuel hw).bind
        fun hw => (HD44780_write_instruction dev lcd 0x01 fuel hw).bind
        fun hw => (HD44780_write_instruction dev lcd (entry_mode_byte all_false_config)
            fuel hw).bind
        fun hw => HD44780_write_instruction dev lcd (display_control_byte all_false_config)
            fuel hw) := by
  rfl

theorem init_performs (dev : Device) (lcd : HD44780) (hdev : Responsive lcd dev)
    (clock : Nat) (hw : Hw) (hen : (dec lcd hw).pins.en = false) :
    ∃ X, Performs lcd (HD44780_init dev lcd clock) hw (degradedWrites lcd ++ X) ∧
      Gated lcd [instr (function_set_byte lcd), instr 0x08, instr 0x01,
        instr (entry_mode_byte all_false_config),
        instr (display_control_byte all_false_config)] X := by
  have hr := runs_bind lcd
    (runs_write_instruction dev lcd hdev (function_set_byte lcd) (function_set_byte_lt lcd))
    (runs_bind lcd (runs_write_instruction dev lcd hdev 0x08 (by norm_num))
      (runs_bind lcd (runs_write_instruction dev lcd hdev 0x01 (by norm_num))
        (runs_bind lcd
          (runs_write_instruction dev lcd hdev (entry_mode_byte all_false_config)
            (entry_mode_byte_lt _))
          (runs_write_instruction dev lcd hdev (display_control_byte all_false_config)
            (display_control_byte_lt _)))))
  obtain ⟨X, hp, hg⟩ := hr (init_bus lcd clock hw)
  exact ⟨X, performs_after lcd (fun fuel => init_eq dev lcd clock fuel hw)
    (init_bus_ops lcd clock hw hen) hp, hg⟩

theorem gated_split (lcd : HD44780) (ws2 : List (Bool × Nat)) :
    ∀ (ws1 : List (Bool × Nat)) (X : List BusOp), Gated lcd (ws1 ++ ws2) X →
      ∃ X1 X2, X = X1 ++ X2 ∧ Gated lcd ws1 X1 ∧ Gated lcd ws2 X2 := by
  intro ws1
  induction ws1 with
  | nil => intro X h; exact ⟨[], X, rfl, rfl, h⟩
  | cons v ws ih =>
    intro X h
    obtain ⟨m, X', rfl, h'⟩ := h
    obtain ⟨X1, X2, rfl, h1, h2⟩ := ih X' h'
    exact ⟨busWriteOf lcd v.1 v.2 ++ statusReads lcd (m + 1) ++ X1, X2,
      by simp only [List.append_assoc], ⟨m, X1, rfl, h1⟩, h2⟩

theorem address_mask (x : Nat) :
    x &&& (0xFF ^^^ (1 <<< HD44780_CMD_READ_BUSYFLAG_AND_ADDRESS)) = x % 128 := by
  have h : (0xFF ^^^ (1 <<< HD44780_CMD_READ_BUSYFLAG_AND_ADDRESS) : Nat) = 2 ^ 7 - 1 := by
    decide
  rw [h, Nat.and_pow_two_sub_one_eq_mod]

theorem get_address_spec (dev : Device) (lcd : HD44780) (hw : Hw) :
    (HD44780_get_address dev lcd hw).1 = status_byte lcd dev hw.pulls % 128 ∧
      busOps lcd (HD44780_get_address dev lcd hw).2 = busOps lcd hw ++ statusReads lcd 1 := by
  obtain ⟨v, -, o⟩ := read_byte_spec dev lcd hw
  have h2 : (HD44780_get_address dev lcd hw).2 = (HD44780_read_byte dev lcd hw).2 := by
    simp only [HD44780_get_address]
  have h1 : (HD44780_get_address dev lcd hw).1 =
      (HD44780_read_byte dev lcd hw).1 &&&
        (0xFF ^^^ (1 <<< HD44780_CMD_READ_BUSYFLAG_AND_ADDRESS)) := by
    simp only [HD44780_get_address]
  rw [h1, h2, address_mask, v, o]
  simp [statusReads]

theorem cgram_byte_lt (address : Nat) :
    (HD44780_CMD_SET_CGRAM_ADDRESS ||| (address <<< 3)) % 256 < 256 :=
  Nat.mod_lt _ (by norm_num)

theorem runs_glyph_rows (dev : Device) (lcd : HD44780) (hdev : Responsive lcd dev)
    (font_5x10 : Bool) (symbol : Nat → Nat) (hsym : ∀ i, symbol i < 256) :
    RunsGated lcd
      (fun fuel hw =>
        (for_loop (fun i hw => HD44780_write_data dev lcd (symbol i) fuel hw)
          (if font_5x10 then 10 else 8) 0 hw).bind
        fun hw =>
          if font_5x10 then for_loop (fun _ hw => HD44780_write_data dev lcd 0 fuel hw) 6 0 hw
          else some hw)
      (glyph_rows font_5x10 symbol) := by
  have hrows : ∀ count, RunsGated lcd
      (fun fuel hw => for_loop (fun i hw => HD44780_write_data dev lcd (symbol i) fuel hw)
        count 0 hw)
      ((List.range count).map (fun i => data (symbol i))) := by
    intro count
    have h := runs_for_loop lcd (fun i => HD44780_write_data dev lcd (symbol i))
      (fun i => data (symbol i)) (fun i => runs_write_data dev lcd hdev (symbol i) (hsym i))
      count 0
    simpa using h
  have hpad : RunsGated lcd
      (fun fuel hw => for_loop (fun _ hw => HD44780_write_data dev lcd 0 fuel hw) 6 0 hw)
      (List.replicate 6 (data 0)) :=
    runs_congr lcd (fun _ _ => rfl) (runs_repeat dev lcd hdev true 0 (by norm_num) 6 0)
  cases font_5x10
  · have h := runs_bind lcd (hrows 8) (runs_pure lcd)
    simp only [List.append_nil] at h
    exact runs_congr lcd (fun _ _ => rfl) h
  · exact runs_congr lcd (fun _ _ => rfl) (runs_bind lcd (hrows 10) hpad)

theorem create_symbol_performs (dev : Device) (lcd : HD44780) (hdev : Responsive lcd dev)
    (address : Nat) (font_5x10 : Bool) (symbol : Nat → Nat) (hsym : ∀ i, symbol i < 256)
    (hw : Hw) :
    ∃ X, Performs lcd (HD44780_create_symbol dev lcd address font_5x10 symbol) hw
        (statusReads lcd 1 ++ X) ∧
      Gated lcd
        ([instr ((0x40 ||| (address <<< 3)) % 256)] ++ glyph_rows font_5x10 symbol ++
          [instr (0x80 ||| status_byte lcd dev hw.pulls % 128)]) X := by
  obtain ⟨ha, ho⟩ := get_address_spec dev lcd hw
  have hlast : 0x80 ||| status_byte lcd dev hw.pulls % 128 < 256 :=
    or_0x80_lt _ (lt_trans (Nat.mod_lt _ (by norm_num)) (by norm_num))
  have hr := runs_bind lcd
    (runs_bind lcd
      (runs_write_instruction dev lcd hdev _ (cgram_byte_lt address))
      (runs_glyph_rows dev lcd hdev font_5x10 symbol hsym))
    (runs_write_instruction dev lcd hdev _ hlast)
  obtain ⟨X, hp, hg⟩ := hr (HD44780_get_address dev lcd hw).2
  refine ⟨X, performs_after lcd (fun fuel => ?_) ho hp, hg⟩
  unfold HD44780_create_symbol
  simp only [ha, HD44780_CMD_SET_DDRAM_ADDRESS, HD44780_CMD_SET_CGRAM_ADDRESS]
  cases HD44780_write_instruction dev lcd ((0x40 ||| (address <<< 3)) % 256) fuel
      (HD44780_get_address dev lcd hw).2 with
  | none => rfl
  | some hw1 =>
    simp only [Option.some_bind]
    cases for_loop (fun i hw => HD44780_write_data dev lcd (symbol i) fuel hw)
      (if font_5x10 = true then 10 else 8) 0 hw1 <;> rfl

theorem put_char_newline_performs (dev : Device) (lcd : HD44780) (hdev : Responsive lcd dev)
    (hw : Hw) :
    ∃ m, Performs lcd (HD44780_put_char dev lcd 10) hw
      (statusReads lcd 1 ++
        (busWriteOf lcd false
            (if lcd.single_line = false ∧ status_byte lcd dev hw.pulls % 128 < 0x40
              then 0xC0 else 0x80) ++
          statusReads lcd (m + 1))) := by
  obtain ⟨ha, ho⟩ := get_address_spec dev lcd hw
  have h2 : (HD44780_get_current_line dev lcd hw).2 = (HD44780_get_address dev lcd hw).2 := by
    simp only [HD44780_get_current_line]
  have h1 : (HD44780_get_current_line dev lcd hw).1 =
      (!lcd.single_line && decide (status_byte lcd dev hw.pulls % 128 ≥ 0x40)).toNat := by
    simp only [HD44780_get_current_line, ha, HD44780_SECOND_LINE_ADDRESS]
  by_cases hc : lcd.single_line = false ∧ status_byte lcd dev hw.pulls % 128 < 0x40
  · obtain ⟨X, hp, hg⟩ := runs_cursor_to dev lcd hdev 0 1 (HD44780_get_address dev lcd hw).2
    obtain ⟨m, rfl⟩ := gated_one lcd _ X hg
    have hb : (0x80 ||| address_for lcd 0 1) % 256 = 0xC0 := by
      simp [address_for, hc.1]
    rw [hb] at hp
    refine ⟨m, ?_⟩
    rw [if_pos hc]
    refine performs_after lcd (fun fuel => ?_) ho hp
    have hl : (HD44780_get_current_line dev lcd hw).1 = 0 := by
      rw [h1]
      have : ¬ (status_byte lcd dev hw.pulls % 128 ≥ 0x40) := by omega
      simp [this]
    simp only [HD44780_put_char, ↓reduceIte, hl, hc.1, and_self, h2]
  · obtain ⟨X, hp, hg⟩ := runs_cursor_to dev lcd hdev 0 0 (HD44780_get_address dev lcd hw).2
    obtain ⟨m, rfl⟩ := gated_one lcd _ X hg
    have hb : (0x80 ||| address_for lcd 0 0) % 256 = 0x80 := by
      simp [address_for]
    rw [hb] at hp
    refine ⟨m, ?_⟩
    rw [if_neg hc]
    refine performs_after lcd (fun fuel => ?_) ho hp
    have hl : ¬ (lcd.single_line = false ∧ (HD44780_get_current_line dev lcd hw).1 = 0) := by
      rintro ⟨hs, hz⟩
      rw [h1] at hz
      apply hc
      refine ⟨hs, ?_⟩
      by_contra hge
      have : status_byte lcd dev hw.pulls % 128 ≥ 0x40 := by omega
      simp [hs, this] at hz
    simp only [HD44780_put_char, ↓reduceIte, hl, h2]

/-! ## Pin-level traces -/

theorem bit_level_eq_testBit (b k : Nat) : bit_level b k = b.testBit k := by
  unfold bit_level
  rw [Nat.one_shiftLeft]
  cases h : b.testBit k
  · have hz : b &&& 2 ^ k = 0 := by
      apply Nat.eq_of_testBit_eq
      intro i
      simp only [Nat.testBit_and, Nat.testBit_two_pow, Nat.zero_testBit]
      by_cases hki : k = i
      · subst hki; simp [h]
      · simp [hki]
    simp [hz]
  · have hne : b &&& 2 ^ k ≠ 0 := by
      intro hz
      have ht : (b &&& 2 ^ k).testBit k = true := by
        simp [Nat.testBit_and, Nat.testBit_two_pow, h]
      rw [hz] at ht
      simp at ht
    simp [hne]

theorem trace_write (l : Line) (v : Bool) (hw : Hw) :
    (HAL_GPIO_WritePin l v hw).trace = hw.trace ++ [Event.write l v] := rfl

theorem trace_gpio_init (l : Line) (m : GpioMode) (hw : Hw) :
    (GPIO_init l m hw).trace = hw.trace ++ [Event.init l m] := rfl

theorem trace_delay_ns (n : Nat) (hw : Hw) :
    (delay_ns n hw).trace = hw.trace ++ [Event.delay n (n / hw.delay_loop_time)] := rfl

theorem loop_time_write (l : Line) (v : Bool) (hw : Hw) :
    (HAL_GPIO_WritePin l v hw).delay_loop_time = hw.delay_loop_time := rfl

theorem loop_time_gpio_init (l : Line) (m : GpioMode) (hw : Hw) :
    (GPIO_init l m hw).delay_loop_time = hw.delay_loop_time := rfl

theorem loop_time_delay_ns (n : Nat) (hw : Hw) :
    (delay_ns n hw).delay_loop_time = hw.delay_loop_time := rfl

theorem set_data_mode_trace (lcd : HD44780) (mode : GpioMode) (hw : Hw) :
    (HD44780_set_data_mode lcd mode hw).trace = hw.trace ++ data_mode_events lcd mode ∧
      (HD44780_set_data_mode lcd mode hw).delay_loop_time = hw.delay_loop_time := by
  unfold HD44780_set_data_mode data_mode_events
  cases lcd.interface_8_bit <;>
    simp [trace_gpio_init, loop_time_gpio_init]

theorem push_value_trace (lcd : HD44780) (value : Nat) (hw : Hw) :
    (HD44780_push_value lcd value hw).trace =
        hw.trace ++ write_pulse (push_drive lcd value) hw.delay_loop_time ∧
      (HD44780_push_value lcd value hw).delay_loop_time = hw.delay_loop_time := by
  unfold HD44780_push_value write_pulse push_drive byte_on_lines low_nibble_on_lines
  cases lcd.interface_8_bit <;>
    simp [bit_level_eq_testBit, trace_write, trace_delay_ns, loop_time_write,
      loop_time_delay_ns]

theorem write_byte_bus_trace (lcd : HD44780) (rs : Bool) (byte : Nat) (hw : Hw) :
    (write_byte_bus lcd rs byte hw).trace =
      hw.trace ++ (data_mode_events lcd GpioMode.output_pp ++
        [Event.write Line.rw false, Event.write Line.rs rs] ++
        byte_pulses lcd byte hw.delay_loop_time) := by
  unfold write_byte_bus byte_pulses
  obtain ⟨t0, l0⟩ := set_data_mode_trace lcd GpioMode.output_pp hw
  generalize HD44780_set_data_mode lcd GpioMode.output_pp hw = A at t0 l0
  cases h8 : lcd.interface_8_bit
  · simp only [Bool.false_eq_true, ↓reduceIte]
    obtain ⟨t1, l1⟩ := push_value_trace lcd (byte >>> 4)
      (HAL_GPIO_WritePin Line.rs rs (HAL_GPIO_WritePin Line.rw false A))
    obtain ⟨t2, -⟩ := push_value_trace lcd byte (HD44780_push_value lcd (byte >>> 4)
      (HAL_GPIO_WritePin Line.rs rs (HAL_GPIO_WritePin Line.rw false A)))
    rw [t2, l1, t1]
    simp [t0, l0, push_drive, h8, low_nibble_on_lines, high_nibble_on_lines, trace_write,
      loop_time_write]
  · simp only [↓reduceIte]
    obtain ⟨t1, -⟩ := push_value_trace lcd byte
      (HAL_GPIO_WritePin Line.rs rs (HAL_GPIO_WritePin Line.rw false A))
    rw [t1]
    simp [t0, l0, push_drive, h8, trace_write, loop_time_write]

theorem pull_value_extends (dev : Device) (lcd : HD44780) (hw : Hw) :
    ∃ T, (HD44780_pull_value dev lcd hw).2.trace = hw.trace ++ T := by
  unfold HD44780_pull_value
  cases lcd.interface_8_bit
  · exact ⟨_, by simp [pull_bit, HAL_GPIO_ReadPin, trace_write, trace_delay_ns]; rfl⟩
  · exact ⟨_, by simp [pull_bit, HAL_GPIO_ReadPin, trace_write, trace_delay_ns]; rfl⟩

theorem read_byte_extends (dev : Device) (lcd : HD44780) (hw : Hw) :
    ∃ T, (HD44780_read_byte dev lcd hw).2.trace = hw.trace ++ T := by
  obtain ⟨t0, -⟩ := set_data_mode_trace lcd GpioMode.input
    (HAL_GPIO_WritePin Line.rs false (HAL_GPIO_WritePin Line.rw true hw))
  obtain ⟨T1, h1⟩ := pull_value_extends dev lcd (HD44780_set_data_mode lcd GpioMode.input
    (HAL_GPIO_WritePin Line.rs false (HAL_GPIO_WritePin Line.rw true hw)))
  obtain ⟨T2, h2⟩ := pull_value_extends dev lcd (HD44780_pull_value dev lcd
    (HD44780_set_data_mode lcd GpioMode.input
      (HAL_GPIO_WritePin Line.rs false (HAL_GPIO_WritePin Line.rw true hw)))).2
  unfold HD44780_read_byte
  cases lcd.interface_8_bit
  · refine ⟨[Event.write Line.rw true, Event.write Line.rs false] ++
      data_mode_events lcd GpioMode.input ++ T1 ++ T2, ?_⟩
    simp only [Bool.false_eq_true, ↓reduceIte]
    rw [h2, h1, t0]
    simp only [trace_write, List.append_assoc, List.singleton_append, List.cons_append,
      List.nil_append]
  · refine ⟨[Event.write Line.rw true, Event.write Line.rs false] ++
      data_mode_events lcd GpioMode.input ++ T1, ?_⟩
    simp only [↓reduceIte]
    rw [h1, t0]
    simp only [trace_write, List.append_assoc, List.singleton_append, List.cons_append,
      List.nil_append]

theorem poll_extends (dev : Device) (lcd : HD44780) (hw : Hw) :
    ∃ T, (poll dev lcd hw).trace = hw.trace ++ T := by
  have hp : poll dev lcd hw = (HD44780_read_byte dev lcd hw).2 := by
    simp only [poll, HD44780_get_busyflag]
  rw [hp]
  exact read_byte_extends dev lcd hw

theorem poll_iterate_extends (dev : Device) (lcd : HD44780) (n : Nat) :
    ∀ hw : Hw, ∃ T, ((poll dev lcd)^[n] hw).trace = hw.trace ++ T := by
  induction n with
  | zero => intro hw; exact ⟨[], by simp⟩
  | succ n ih =>
    intro hw
    obtain ⟨T1, h1⟩ := poll_extends dev lcd hw
    obtain ⟨T2, h2⟩ := ih (poll dev lcd hw)
    refine ⟨T1 ++ T2, ?_⟩
    rw [Function.iterate_succ_apply, h2, h1, List.append_assoc]

theorem delay_if_extends (rs : Bool) (hw : Hw) :
    ∃ T, (if rs then delay_us 5 hw else hw).trace = hw.trace ++ T := by
  cases rs
  · exact ⟨[], by simp⟩
  · exact ⟨_, rfl⟩

/-- The complete pin-level account of a gated byte write. -/
theorem write_byte_pins (dev : Device) (lcd : HD44780) (hdev : Responsive lcd dev)
    (rs : Bool) (byte : Nat) (hb : byte < 256) (hw : Hw) :
    ∃ m hw' T,
      (∀ fuel, m < fuel → HD44780_write_byte dev lcd rs byte fuel hw = some hw') ∧
      hw'.trace =
        hw.trace ++ (data_mode_events lcd GpioMode.output_pp ++
          [Event.write Line.rw false, Event.write Line.rs rs] ++
          byte_pulses lcd byte hw.delay_loop_time) ++ T ∧
      busOps lcd hw' = busOps lcd hw ++ (busWriteOf lcd rs byte ++ statusReads lcd (m + 1)) := by
  obtain ⟨k, hk⟩ := await_busyflag_total dev lcd hdev (write_byte_bus lcd rs byte hw)
  obtain ⟨T1, h1⟩ := poll_iterate_extends dev lcd (k + 1) (write_byte_bus lcd rs byte hw)
  obtain ⟨T2, h2⟩ := delay_if_extends rs ((poll dev lcd)^[k + 1] (write_byte_bus lcd rs byte hw))
  refine ⟨k,
    (if rs then delay_us 5 ((poll dev lcd)^[k + 1] (write_byte_bus lcd rs byte hw))
      else (poll dev lcd)^[k + 1] (write_byte_bus lcd rs byte hw)),
    T1 ++ T2, fun fuel hf => ?_, ?_, ?_⟩
  · rw [write_byte_eq, hk fuel hf]
    simp only [Option.map_some']
  · rw [h2, h1, write_byte_bus_trace]
    simp only [List.append_assoc]
  · rw [busOps_delay_if, (poll_iterate dev lcd (k + 1) _).2, write_byte_bus_ops lcd rs byte hb,
      List.append_assoc]
    rfl

/-! ## The busy-flag wait -/

theorem status_testBit (lcd : HD44780) (dev : Device) (n : Nat) :
    (status_byte lcd dev n).testBit 7 = dev n Line.d7 := by
  have h := status_busy_bit lcd dev n
  unfold Nat.testBit
  rw [Nat.and_comm, h]
  cases dev n Line.d7 <;> rfl

theorem await_busyflag_none (dev : Device) (lcd : HD44780) (fuel : Nat) :
    ∀ hw : Hw, (∀ j, j < fuel → dev (hw.pulls + stride lcd * j) Line.d7 = true) →
      HD44780_await_busyflag dev lcd fuel hw = none := by
  induction fuel with
  | zero => intro hw _; rfl
  | succ f ih =>
    intro hw hj
    obtain ⟨-, p, -⟩ := get_busyflag_spec dev lcd hw
    have h0 := hj 0 (by omega)
    simp only [Nat.mul_zero, Nat.add_zero] at h0
    rw [await_busyflag_succ, if_pos h0]
    apply ih
    intro j hjf
    have e : hw.pulls + stride lcd + stride lcd * j = hw.pulls + stride lcd * (j + 1) := by
      ring
    rw [p, e]
    exact hj (j + 1) (by omega)

/-! ## Delay calibration -/

theorem delay_loop_eq (counter : Nat) : delay_loop counter = counter := by
  induction counter with
  | zero => rfl
  | succ n ih => rw [delay_loop, ih]

theorem loop_time_bounds (f : Nat) (hlo : 3 ≤ f) (hhi : f ≤ 9 * 10 ^ 9) :
    0 < 9 * 10 ^ 9 / f ∧ 9 * 10 ^ 9 / f < 2 ^ 32 := by
  constructor
  · exact Nat.div_pos hhi (by omega)
  · have h1 : 9 * 10 ^ 9 / f ≤ 9 * 10 ^ 9 / 3 := Nat.div_le_div_left hlo (by norm_num)
    have h2 : (9 * 10 ^ 9 / 3 : Nat) < 2 ^ 32 := by norm_num
    omega

/-! ## Levels latched at bus writes -/

@[simp] theorem snap_write (l : Line) (v : Bool) (hw : Hw) :
    snap (HAL_GPIO_WritePin l v hw) = snap_step (snap hw) (Event.write l v) := by
  simp [snap, HAL_GPIO_WritePin, List.foldl_append]

@[simp] theorem snap_gpio_init (l : Line) (m : GpioMode) (hw : Hw) :
    snap (GPIO_init l m hw) = snap hw := by
  simp [snap, GPIO_init, List.foldl_append, snap_step]

@[simp] theorem snap_delay_ns (n : Nat) (hw : Hw) : snap (delay_ns n hw) = snap hw := by
  simp [snap, delay_ns, List.foldl_append, snap_step]

@[simp] theorem snap_delay_us (n : Nat) (hw : Hw) : snap (delay_us n hw) = snap hw := by
  simp [delay_us]

@[simp] theorem snap_read_pin (dev : Device) (l : Line) (hw : Hw) :
    snap (HAL_GPIO_ReadPin dev l hw).2 = snap hw := by
  simp [snap, HAL_GPIO_ReadPin, List.foldl_append, snap_step]

@[simp] theorem snap_set_data_mode (lcd : HD44780) (m : GpioMode) (hw : Hw) :
    snap (HD44780_set_data_mode lcd m hw) = snap hw := by
  unfold HD44780_set_data_mode
  split <;> simp

@[simp] theorem snap_mk (a p : Nat) (hw : Hw) : snap (Hw.mk a p hw.trace) = snap hw := rfl

theorem snap_pull (dev : Device) (lcd : HD44780) (hw : Hw) (hrw : (snap hw).1.rw = true) :
    (snap (HD44780_pull_value dev lcd hw).2).2 = (snap hw).2 ∧
      (snap (HD44780_pull_value dev lcd hw).2).1.rw = true := by
  unfold HD44780_pull_value
  cases lcd.interface_8_bit <;> simp [pull_bit, snap_step, Pins.set, hrw]

theorem snap_read_byte (dev : Device) (lcd : HD44780) (hw : Hw) :
    (snap (HD44780_read_byte dev lcd hw).2).2 = (snap hw).2 := by
  have hA : (snap (HD44780_set_data_mode lcd GpioMode.input
      (HAL_GPIO_WritePin Line.rs false (HAL_GPIO_WritePin Line.rw true hw)))).2 = (snap hw).2 ∧
      (snap (HD44780_set_data_mode lcd GpioMode.input
        (HAL_GPIO_WritePin Line.rs false (HAL_GPIO_WritePin Line.rw true hw)))).1.rw = true := by
    simp [snap_step, Pins.set]
  obtain ⟨hA2, hArw⟩ := hA
  obtain ⟨s1, r1⟩ := snap_pull dev lcd _ hArw
  obtain ⟨s2, -⟩ := snap_pull dev lcd _ r1
  unfold HD44780_read_byte
  cases lcd.interface_8_bit
  · simp only [Bool.false_eq_true, ↓reduceIte]
    rw [s2, s1, hA2]
  · simp only [↓reduceIte]
    rw [s1, hA2]

theorem written_levels_poll (dev : Device) (lcd : HD44780) (hw : Hw) :
    written_levels (poll dev lcd hw) = written_levels hw := by
  have hp : poll dev lcd hw = (HD44780_read_byte dev lcd hw).2 := by
    simp only [poll, HD44780_get_busyflag]
  rw [hp]
  exact snap_read_byte dev lcd hw

/-- A property kept by every evaluation of the loop condition holds when the
busy-flag loop returns. -/
theorem await_busyflag_preserves (dev : Device) (lcd : HD44780) (I : Hw → Prop)
    (hI : ∀ hw, I hw → I (poll dev lcd hw)) :
    ∀ (fuel : Nat) (hw hw' : Hw), I hw → HD44780_await_busyflag dev lcd fuel hw = some hw' →
      I hw' := by
  intro fuel
  induction fuel with
  | zero => intro hw hw' _ h; simp [HD44780_await_busyflag] at h
  | succ f ih =>
    intro hw hw' h0 h
    rw [await_busyflag_succ] at h
    by_cases hb : dev hw.pulls Line.d7 = true
    · rw [if_pos hb] at h
      exact ih _ _ (hI hw h0) h
    · rw [if_neg hb] at h
      cases h
      exact hI hw h0

theorem write_byte_some (dev : Device) (lcd : HD44780) (rs : Bool) (byte fuel : Nat)
    (hw hw' : Hw) (h : HD44780_write_byte dev lcd rs byte fuel hw = some hw') :
    ∃ hw1, HD44780_await_busyflag dev lcd fuel (write_byte_bus lcd rs byte hw) = some hw1 ∧
      hw' = if rs then delay_us 5 hw1 else hw1 := by
  rw [write_byte_eq] at h
  cases hq : HD44780_await_busyflag dev lcd fuel (write_byte_bus lcd rs byte hw) with
  | none => rw [hq] at h; simp at h
  | some hw1 =>
    rw [hq] at h
    simp only [Option.map_some', Option.some.injEq] at h
    exact ⟨hw1, rfl, h.symm⟩

theorem snap_push (lcd : HD44780) (value : Nat) (hw : Hw) (hrw : (snap hw).1.rw = false) :
    ∃ P, (snap (HD44780_push_value lcd value hw)).2 = (snap hw).2 ++ [P] ∧
      (snap (HD44780_push_value lcd value hw)).1.rw = false ∧
      ∀ x, x ∈ push_drive lcd value → P.level x.1 = x.2 := by
  unfold HD44780_push_value push_drive
  cases lcd.interface_8_bit
  · refine ⟨{ (snap hw).1 with
      en := true, d7 := value.testBit 3, d6 := value.testBit 2, d5 := value.testBit 1,
      d4 := value.testBit 0 }, ?_, ?_, ?_⟩
    · simp [snap_step, Pins.set, hrw, bit_level_eq_testBit]
    · simp [snap_step, Pins.set, hrw]
    · intro x hx
      simp only [Bool.false_eq_true, ↓reduceIte, low_nibble_on_lines, List.mem_cons,
        List.mem_singleton, List.not_mem_nil, or_false] at hx
      rcases hx with rfl | rfl | rfl | rfl <;> rfl
  · refine ⟨{ (snap hw).1 with
      en := true, d7 := value.testBit 7, d6 := value.testBit 6, d5 := value.testBit 5,
      d4 := value.testBit 4, d3 := value.testBit 3, d2 := value.testBit 2,
      d1 := value.testBit 1, d0 := value.testBit 0 }, ?_, ?_, ?_⟩
    · simp [snap_step, Pins.set, hrw, bit_level_eq_testBit]
    · simp [snap_step, Pins.set, hrw]
    · intro x hx
      simp only [↓reduceIte, byte_on_lines, List.mem_cons, List.mem_singleton,
        List.not_mem_nil, or_false] at hx
      rcases hx with rfl | rfl | rfl | rfl | rfl | rfl | rfl | rfl <;> rfl

set_option maxRecDepth 1000000 in
theorem testBits_byte_lt : ∀ b, b < 256 →
    (b.testBit 7).toNat * 128 + (b.testBit 6).toNat * 64 + (b.testBit 5).toNat * 32 +
      (b.testBit 4).toNat * 16 + (b.testBit 3).toNat * 8 + (b.testBit 2).toNat * 4 +
      (b.testBit 1).toNat * 2 + (b.testBit 0).toNat = b := by
  intro b hb
  have h := bits_byte_lt b hb
  simpa [bit_level_eq_testBit] using h

set_option maxRecDepth 1000000 in
theorem testBits_high_lt : ∀ b, b < 256 →
    (b.testBit 7).toNat * 8 + (b.testBit 6).toNat * 4 + (b.testBit 5).toNat * 2 +
      (b.testBit 4).toNat = b / 16 := by
  decide

theorem testBits_low (b : Nat) :
    (b.testBit 3).toNat * 8 + (b.testBit 2).toNat * 4 + (b.testBit 1).toNat * 2 +
      (b.testBit 0).toNat = b % 16 := by
  have h := bits_nibble b
  simpa [bit_level_eq_testBit] using h

/-- The levels latched at the bus writes of the pin activity of a byte write. -/
theorem written_levels_write_byte_bus (lcd : HD44780) (rs : Bool) (byte : Nat) (hw : Hw) :
    ∃ L, written_levels (write_byte_bus lcd rs byte hw) = written_levels hw ++ L ∧
      L.length = stride lcd ∧
      (lcd.interface_8_bit = true → ∀ (h : 0 < L.length) x, x ∈ byte_on_lines byte →
        (L.get ⟨0, h⟩).level x.1 = x.2) ∧
      (lcd.interface_8_bit = false → ∀ (h : 1 < L.length),
        (∀ x, x ∈ high_nibble_on_lines byte →
          (L.get ⟨0, Nat.lt_trans Nat.zero_lt_one h⟩).level x.1 = x.2) ∧
        (∀ x, x ∈ low_nibble_on_lines byte → (L.get ⟨1, h⟩).level x.1 = x.2)) := by
  unfold write_byte_bus written_levels
  have hA : (snap (HAL_GPIO_WritePin Line.rs rs (HAL_GPIO_WritePin Line.rw false
      (HD44780_set_data_mode lcd GpioMode.output_pp hw)))).2 = (snap hw).2 ∧
      (snap (HAL_GPIO_WritePin Line.rs rs (HAL_GPIO_WritePin Line.rw false
        (HD44780_set_data_mode lcd GpioMode.output_pp hw)))).1.rw = false := by
    cases rs <;> simp [snap_step, Pins.set]
  obtain ⟨hA2, hArw⟩ := hA
  obtain ⟨A, hA⟩ : ∃ A, HAL_GPIO_WritePin Line.rs rs (HAL_GPIO_WritePin Line.rw false
    (HD44780_set_data_mode lcd GpioMode.output_pp hw)) = A := ⟨_, rfl⟩
  rw [hA] at hA2 hArw
  cases h8 : lcd.interface_8_bit
  · obtain ⟨P1, s1, r1, l1⟩ := snap_push lcd (byte >>> 4) A hArw
    obtain ⟨P2, s2, -, l2⟩ := snap_push lcd byte (HD44780_push_value lcd (byte >>> 4) A) r1
    refine ⟨[P1, P2], ?_, by simp [stride, h8], fun h => by simp at h, fun _ _ => ⟨?_, ?_⟩⟩
    · simp only [Bool.false_eq_true, ↓reduceIte]
      rw [hA, s2, s1, hA2]
      simp
    · intro x hx
      have hx' : (x.1, x.2) ∈ push_drive lcd (byte >>> 4) := by
        simp only [push_drive, h8, Bool.false_eq_true, ↓reduceIte, low_nibble_on_lines,
          Nat.testBit_shiftRight]
        simpa [high_nibble_on_lines] using hx
      simpa using l1 _ hx'
    · intro x hx
      have hx' : x ∈ push_drive lcd byte := by
        simpa [push_drive, h8] using hx
      simpa using l2 _ hx'
  · obtain ⟨P1, s1, -, l1⟩ := snap_push lcd byte A hArw
    refine ⟨[P1], ?_, by simp [stride, h8], fun _ _ x hx => ?_, fun h => by simp at h⟩
    · simp only [↓reduceIte]
      rw [hA, s1, hA2]
    · have hx' : x ∈ push_drive lcd byte := by
        simpa [push_drive, h8] using hx
      simpa using l1 _ hx'

theorem written_levels_write_byte (dev : Device) (lcd : HD44780) (rs : Bool)
    (byte fuel : Nat) (hw hw' : Hw)
    (h : HD44780_write_byte dev lcd rs byte fuel hw = some hw') :
    written_levels hw' = written_levels (write_byte_bus lcd rs byte hw) := by
  obtain ⟨hw1, ha, rfl⟩ := write_byte_some dev lcd rs byte fuel hw hw' h
  have h1 := await_busyflag_preserves dev lcd
    (fun x => written_levels x = written_levels (write_byte_bus lcd rs byte hw))
    (fun x hx => (written_levels_poll dev lcd x).trans hx) fuel _ hw1 rfl ha
  cases rs
  · simpa using h1
  · simpa [written_levels] using h1

theorem shift_or_nibbles : ∀ a7 a6 a5 a4 a3 a2 a1 a0 : Bool,
    (a7.toNat * 8 + a6.toNat * 4 + a5.toNat * 2 + a4.toNat) * 16 +
        (a3.toNat * 8 + a2.toNat * 4 + a1.toNat * 2 + a0.toNat) =
      ((a7.toNat * 8 + a6.toNat * 4 + a5.toNat * 2 + a4.toNat) <<< 4) |||
        (a3.toNat * 8 + a2.toNat * 4 + a1.toNat * 2 + a0.toNat) := by
  decide

theorem read_byte_of_presented (lcd : HD44780) (byte : Nat) (hb : byte < 256)
    (L : List Pins) (hlen : L.length = stride lcd)
    (h8 : lcd.interface_8_bit = true → ∀ (h : 0 < L.length) x, x ∈ byte_on_lines byte →
      (L.get ⟨0, h⟩).level x.1 = x.2)
    (h4 : lcd.interface_8_bit = false → ∀ (h : 1 < L.length),
      (∀ x, x ∈ high_nibble_on_lines byte →
        (L.get ⟨0, Nat.lt_trans Nat.zero_lt_one h⟩).level x.1 = x.2) ∧
      (∀ x, x ∈ low_nibble_on_lines byte → (L.get ⟨1, h⟩).level x.1 = x.2))
    (dev : Device) (hwr : Hw) (hP : Presents lcd dev hwr.pulls L) :
    (HD44780_read_byte dev lcd hwr).1 = byte := by
  obtain ⟨v, -, -⟩ := read_byte_spec dev lcd hwr
  rw [v]
  unfold status_byte
  cases hw8 : lcd.interface_8_bit
  · have h1 : 1 < L.length := by rw [hlen]; simp [stride, hw8]
    obtain ⟨hh, hl⟩ := h4 hw8 h1
    have e0 : ∀ line, in_use lcd line = true →
        dev hwr.pulls line = (L.get ⟨0, Nat.lt_trans Nat.zero_lt_one h1⟩).level line :=
      fun line hl => by simpa using hP 0 (Nat.lt_trans Nat.zero_lt_one h1) line hl
    have e1 : ∀ line, in_use lcd line = true →
        dev (hwr.pulls + 1) line = (L.get ⟨1, h1⟩).level line :=
      fun line hl => hP 1 h1 line hl
    simp only [Bool.false_eq_true, ↓reduceIte, line_nibble]
    rw [e0 Line.d7 rfl, e0 Line.d6 rfl, e0 Line.d5 rfl, e0 Line.d4 rfl,
      e1 Line.d7 rfl, e1 Line.d6 rfl, e1 Line.d5 rfl, e1 Line.d4 rfl,
      hh (Line.d7, byte.testBit 7) (by simp [high_nibble_on_lines]),
      hh (Line.d6, byte.testBit 6) (by simp [high_nibble_on_lines]),
      hh (Line.d5, byte.testBit 5) (by simp [high_nibble_on_lines]),
      hh (Line.d4, byte.testBit 4) (by simp [high_nibble_on_lines]),
      hl (Line.d7, byte.testBit 3) (by simp [low_nibble_on_lines]),
      hl (Line.d6, byte.testBit 2) (by simp [low_nibble_on_lines]),
      hl (Line.d5, byte.testBit 1) (by simp [low_nibble_on_lines]),
      hl (Line.d4, byte.testBit 0) (by simp [low_nibble_on_lines]),
      testBits_high_lt byte hb, testBits_low]
    omega
  · have h0 : 0 < L.length := by rw [hlen]; simp [stride, hw8]
    have hl := h8 hw8 h0
    have e0 : ∀ line, in_use lcd line = true →
        dev hwr.pulls line = (L.get ⟨0, h0⟩).level line :=
      fun line hl => by simpa using hP 0 h0 line hl
    simp only [↓reduceIte, line_byte]
    rw [e0 Line.d7 rfl, e0 Line.d6 rfl, e0 Line.d5 rfl, e0 Line.d4 rfl,
      e0 Line.d3 (by simp [in_use, hw8]), e0 Line.d2 (by simp [in_use, hw8]),
      e0 Line.d1 (by simp [in_use, hw8]), e0 Line.d0 (by simp [in_use, hw8]),
      hl (Line.d7, byte.testBit 7) (by simp [byte_on_lines]),
      hl (Line.d6, byte.testBit 6) (by simp [byte_on_lines]),
      hl (Line.d5, byte.testBit 5) (by simp [byte_on_lines]),
      hl (Line.d4, byte.testBit 4) (by simp [byte_on_lines]),
      hl (Line.d3, byte.testBit 3) (by simp [byte_on_lines]),
      hl (Line.d2, byte.testBit 2) (by simp [byte_on_lines]),
      hl (Line.d1, byte.testBit 1) (by simp [byte_on_lines]),
      hl (Line.d0, byte.testBit 0) (by simp [byte_on_lines])]
    exact testBits_byte_lt byte hb

/-! ## Properties kept by every public operation -/

theorem stable_write_byte {dev : Device} {lcd : HD44780} {I : Hw → Prop}
    (hS : Stable dev lcd I) (rs : Bool) (byte fuel : Nat) (hw hw' : Hw) (h0 : I hw)
    (h : HD44780_write_byte dev lcd rs byte fuel hw = some hw') : I hw' := by
  obtain ⟨hw1, ha, rfl⟩ := write_byte_some dev lcd rs byte fuel hw hw' h
  have hp : ∀ x, I x → I (poll dev lcd x) := by
    intro x hx
    have e : poll dev lcd x = (HD44780_read_byte dev lcd x).2 := by
      simp only [poll, HD44780_get_busyflag]
    rw [e]
    exact hS.read x hx
  have h1 := await_busyflag_preserves dev lcd I hp fuel _ hw1 (hS.write_bus rs byte hw h0) ha
  cases rs
  · exact h1
  · exact hS.delay _ _ h1

theorem stable_get_address {dev : Device} {lcd : HD44780} {I : Hw → Prop}
    (hS : Stable dev lcd I) (hw : Hw) (h0 : I hw) : I (HD44780_get_address dev lcd hw).2 := by
  have e : (HD44780_get_address dev lcd hw).2 = (HD44780_read_byte dev lcd hw).2 := by
    simp only [HD44780_get_address]
  rw [e]
  exact hS.read hw h0

theorem stable_for_loop {I : Hw → Prop} (body : Nat → Hw → Option Hw)
    (hb : ∀ i hw hw', I hw → body i hw = some hw' → I hw') :
    ∀ (count i0 : Nat) (hw hw' : Hw), I hw → for_loop body count i0 hw = some hw' → I hw' := by
  intro count
  induction count with
  | zero =>
    intro i0 hw hw' h0 h
    simp only [for_loop, Option.some.injEq] at h
    rw [← h]; exact h0
  | succ n ih =>
    intro i0 hw hw' h0 h
    simp only [for_loop] at h
    obtain ⟨hw1, h1, h2⟩ := Option.bind_eq_some.1 h
    exact ih (i0 + 1) hw1 hw' (hb i0 hw hw1 h0 h1) h2

theorem stable_cursor_to {dev : Device} {lcd : HD44780} {I : Hw → Prop}
    (hS : Stable dev lcd I) (column row fuel : Nat) (hw hw' : Hw) (h0 : I hw)
    (h : HD44780_cursor_to dev lcd column row fuel hw = some hw') : I hw' :=
  stable_write_byte hS false _ fuel hw hw' h0 h

theorem stable_put_char {dev : Device} {lcd : HD44780} {I : Hw → Prop}
    (hS : Stable dev lcd I) (chr fuel : Nat) (hw hw' : Hw) (h0 : I hw)
    (h : HD44780_put_char dev lcd chr fuel hw = some hw') : I hw' := by
  unfold HD44780_put_char at h
  by_cases hn : chr = 10
  · rw [if_pos hn] at h
    have hl : (HD44780_get_current_line dev lcd hw).2 = (HD44780_get_address dev lcd hw).2 := by
      simp only [HD44780_get_current_line]
    have h1 := stable_get_address hS hw h0
    rw [← hl] at h1
    by_cases hc : lcd.single_line = false ∧ (HD44780_get_current_line dev lcd hw).1 = 0
    · simp only [hc, and_self, ↓reduceIte] at h
      exact stable_cursor_to hS 0 1 fuel _ hw' h1 h
    · simp only [hc, ↓reduceIte] at h
      exact stable_cursor_to hS 0 0 fuel _ hw' h1 h
  · rw [if_neg hn] at h
    by_cases ht : chr = 9
    · rw [if_pos ht] at h
      exact stable_for_loop _
        (fun _ x x' hx hxx => stable_write_byte hS true 32 fuel x x' hx hxx) _ _ hw hw' h0 h
    · rw [if_neg ht] at h
      exact stable_write_byte hS true chr fuel hw hw' h0 h

theorem stable_put_str {dev : Device} {lcd : HD44780} {I : Hw → Prop}
    (hS : Stable dev lcd I) (fuel : Nat) :
    ∀ (str : List Nat) (hw hw' : Hw), I hw →
      HD44780_put_str dev lcd fuel str hw = some hw' → I hw' := by
  intro str
  induction str with
  | nil => intro hw hw' _ h; simp [HD44780_put_str] at h
  | cons c rest ih =>
    intro hw hw' h0 h
    rw [HD44780_put_str] at h
    by_cases hc : c ≠ 0
    · rw [if_pos hc] at h
      obtain ⟨hw1, h1, h2⟩ := Option.bind_eq_some.1 h
      exact ih hw1 hw' (stable_put_char hS c fuel hw hw1 h0 h1) h2
    · rw [if_neg hc] at h
      cases h
      exact h0

theorem stable_create_symbol {dev : Device} {lcd : HD44780} {I : Hw → Prop}
    (hS : Stable dev lcd I) (address : Nat) (font_5x10 : Bool) (symbol : Nat → Nat)
    (fuel : Nat) (hw hw' : Hw) (h0 : I hw)
    (h : HD44780_create_symbol dev lcd address font_5x10 symbol fuel hw = some hw') :
    I hw' := by
  unfold HD44780_create_symbol at h
  simp only [] at h
  obtain ⟨hw1, h1, h⟩ := Option.bind_eq_some.1 h
  obtain ⟨hw2, h2, h⟩ := Option.bind_eq_some.1 h
  obtain ⟨hw3, h3, h⟩ := Option.bind_eq_some.1 h
  have i1 := stable_write_byte hS false _ fuel _ hw1 (stable_get_address hS hw h0) h1
  have i2 := stable_for_loop _
    (fun i x x' hx hxx => stable_write_byte hS true (symbol i) fuel x x' hx hxx) _ _ hw1 hw2 i1 h2
  have i3 : I hw3 := by
    cases font_5x10
    · simp only [Bool.false_eq_true, ↓reduceIte, Option.some.injEq] at h3
      rw [← h3]; exact i2
    · simp only [↓reduceIte] at h3
      exact stable_for_loop _
        (fun _ x x' hx hxx => stable_write_byte hS true 0 fuel x x' hx hxx) _ _ hw2 hw3 i2 h3
  exact stable_write_byte hS false _ fuel hw3 hw' i3 h

theorem stable_init {dev : Device} {lcd : HD44780} {I : Hw → Prop}
    (hS : Stable dev lcd I) (clock fuel : Nat) (hw hw' : Hw) (h0 : I hw)
    (h : HD44780_init dev lcd clock fuel hw = some hw') : I hw' := by
  rw [init_eq] at h
  obtain ⟨hw1, h1, h⟩ := Option.bind_eq_some.1 h
  obtain ⟨hw2, h2, h⟩ := Option.bind_eq_some.1 h
  obtain ⟨hw3, h3, h⟩ := Option.bind_eq_some.1 h
  obtain ⟨hw4, h4, h⟩ := Option.bind_eq_some.1 h
  have i1 := stable_write_byte hS false _ fuel _ hw1 (hS.init_bus clock hw h0) h1
  have i2 := stable_write_byte hS false _ fuel _ hw2 i1 h2
  have i3 := stable_write_byte hS false _ fuel _ hw3 i2 h3
  have i4 := stable_write_byte hS false _ fuel _ hw4 i3 h4
  exact stable_write_byte hS false _ fuel _ hw' i4 h

theorem stable_configure {dev : Device} {lcd : HD44780} {I : Hw → Prop}
    (hS : Stable dev lcd I) (config : HD44780_Config) (fuel : Nat) (hw hw' : Hw) (h0 : I hw)
    (h : HD44780_configure dev lcd config fuel hw = some hw') : I hw' := by
  unfold HD44780_configure at h
  simp only [] at h
  obtain ⟨hw1, h1, h⟩ := Option.bind_eq_some.1 h
  exact stable_write_byte hS false _ fuel _ hw' (stable_write_byte hS false _ fuel _ hw1 h0 h1) h

theorem stable_shift_display {dev : Device} {lcd : HD44780} {I : Hw → Prop}
    (hS : Stable dev lcd I) (n : Int) (fuel : Nat) (hw hw' : Hw) (h0 : I hw)
    (h : HD44780_shift_display dev lcd n fuel hw = some hw') : I hw' := by
  unfold HD44780_shift_display at h
  exact stable_for_loop _
    (fun _ x x' hx hxx => stable_write_byte hS false _ fuel x x' hx hxx) _ _ hw hw' h0 h

/-- A stable property is kept by every call of a public function. -/
theorem stable_run_op {dev : Device} {lcd : HD44780} {I : Hw → Prop}
    (hS : Stable dev lcd I) (fuel : Nat) (op : Op) (hw hw' : Hw) (h0 : I hw)
    (h : run_op dev lcd fuel op hw = some hw') : I hw' := by
  cases op with
  | init clock => exact stable_init hS clock fuel hw hw' h0 h
  | configure config => exact stable_configure hS config fuel hw hw' h0 h
  | clear => exact stable_write_byte hS false _ fuel hw hw' h0 h
  | return_home => exact stable_write_byte hS false _ fuel hw hw' h0 h
  | cursor_to column row => exact stable_cursor_to hS column row fuel hw hw' h0 h
  | shift_display n => exact stable_shift_display hS n fuel hw hw' h0 h
  | create_symbol address font symbol =>
    exact stable_create_symbol hS address font symbol fuel hw hw' h0 h
  | put_char chr => exact stable_put_char hS chr fuel hw hw' h0 h
  | put_str str => exact stable_put_str hS fuel str hw hw' h0 h

/-- A stable property is kept by every sequence of calls. -/
theorem stable_run_ops {dev : Device} {lcd : HD44780} {I : Hw → Prop}
    (hS : Stable dev lcd I) (fuel : Nat) :
    ∀ (ops : List Op) (hw hw' : Hw), I hw → run_ops dev lcd fuel ops hw = some hw' → I hw' := by
  intro ops
  induction ops with
  | nil =>
    intro hw hw' h0 h
    simp only [run_ops, Option.some.injEq] at h
    rw [← h]; exact h0
  | cons op ops ih =>
    intro hw hw' h0 h
    simp only [run_ops] at h
    obtain ⟨hw1, h1, h2⟩ := Option.bind_eq_some.1 h
    exact ih hw1 hw' (stable_run_op hS fuel op hw hw1 h0 h1) h2

/-! ## The low data lines on a 4-bit bus -/

theorem low_touches_append (hw hw' : Hw) (T : List Event) (h : hw'.trace = hw.trace ++ T)
    (hT : T.filter touches_low = []) : low_touches hw' = low_touches hw := by
  unfold low_touches
  rw [h, List.filter_append, hT, List.append_nil]

theorem low_stable (dev : Device) (lcd : HD44780) (h4 : lcd.interface_8_bit = false)
    (L : List Event) : Stable dev lcd (fun hw => low_touches hw = L) := by
  constructor
  · intro rs byte hw h0
    rw [← h0]
    apply low_touches_append hw _ _ (write_byte_bus_trace lcd rs byte hw)
    simp [data_mode_events, byte_pulses, write_pulse, high_nibble_on_lines,
      low_nibble_on_lines, h4, touches_low, Line.is_low]
  · intro hw h0
    rw [← h0]
    unfold HD44780_read_byte HD44780_pull_value HD44780_set_data_mode
    simp [h4, pull_bit, HAL_GPIO_ReadPin, HAL_GPIO_WritePin, GPIO_init, delay_ns, low_touches,
      List.filter_append, touches_low, Line.is_low]
  · intro n hw h0
    rw [← h0]
    exact low_touches_append hw _ _ (trace_delay_ns n hw) (by simp [touches_low])
  · intro clock hw h0
    rw [← h0]
    unfold init_bus HD44780_write_init HD44780_push_value HD44780_set_data_mode delay_init
    by_cases hz : hw.delay_loop_time = 0 <;>
      simp [h4, hz, HAL_GPIO_WritePin, GPIO_init, delay_ns, delay_ms, delay_us, low_touches,
        List.filter_append, touches_low, Line.is_low]

/-! ## Every public operation returns on a responsive device -/

theorem returns_congr {op op' : Nat → Hw → Option Hw}
    (he : ∀ fuel hw, op fuel hw = op' fuel hw) (h : Returns op') : Returns op := by
  intro hw
  obtain ⟨f0, hw', r⟩ := h hw
  exact ⟨f0, hw', fun fuel hf => by rw [he, r fuel hf]⟩

theorem returns_pure : Returns (fun _ hw => some hw) :=
  fun hw => ⟨0, hw, fun _ _ => rfl⟩

theorem returns_bind {op1 op2 : Nat → Hw → Option Hw} (h1 : Returns op1)
    (h2 : Returns op2) : Returns (fun fuel hw => (op1 fuel hw).bind (op2 fuel)) := by
  intro hw
  obtain ⟨f1, hw1, r1⟩ := h1 hw
  obtain ⟨f2, hw2, r2⟩ := h2 hw1
  refine ⟨max f1 f2, hw2, fun fuel hf => ?_⟩
  simp only [r1 fuel (le_trans (le_max_left f1 f2) hf), Option.some_bind,
    r2 fuel (le_trans (le_max_right f1 f2) hf)]

/-- An operation that first computes a value and a state without waiting, and
then continues with an operation that returns, returns. -/
theorem returns_after {α : Type} {op : Nat → Hw → Option Hw}
    (rest : α → Nat → Hw → Option Hw) (first : Hw → α × Hw)
    (he : ∀ fuel hw, op fuel hw = rest (first hw).1 fuel (first hw).2)
    (h : ∀ a, Returns (rest a)) : Returns op := by
  intro hw
  obtain ⟨f0, hw', r⟩ := h (first hw).1 (first hw).2
  exact ⟨f0, hw', fun fuel hf => by rw [he, r fuel hf]⟩

theorem returns_write_byte (dev : Device) (lcd : HD44780) (hdev : Responsive lcd dev)
    (rs : Bool) (byte : Nat) : Returns (HD44780_write_byte dev lcd rs byte) := by
  intro hw
  obtain ⟨k, hk⟩ := await_busyflag_total dev lcd hdev (write_byte_bus lcd rs byte hw)
  refine ⟨k + 1,
    (if rs then delay_us 5 ((poll dev lcd)^[k + 1] (write_byte_bus lcd rs byte hw))
      else (poll dev lcd)^[k + 1] (write_byte_bus lcd rs byte hw)), fun fuel hf => ?_⟩
  rw [write_byte_eq, hk fuel (by omega)]
  simp only [Option.map_some']

theorem returns_for_loop (body : Nat → Nat → Hw → Option Hw) (h : ∀ i, Returns (body i)) :
    ∀ count i0, Returns (fun fuel hw => for_loop (fun i hw => body i fuel hw) count i0 hw) := by
  intro count
  induction count with
  | zero => intro i0; exact returns_congr (fun _ _ => by simp only [for_loop]) returns_pure
  | succ n ih =>
    intro i0
    exact returns_congr (fun _ _ => by simp only [for_loop]) (returns_bind (h i0) (ih (i0 + 1)))

theorem returns_cursor_to (dev : Device) (lcd : HD44780) (hdev : Responsive lcd dev)
    (column row : Nat) : Returns (HD44780_cursor_to dev lcd column row) :=
  returns_congr (fun _ _ => rfl) (returns_write_byte dev lcd hdev false _)

theorem returns_put_char (dev : Device) (lcd : HD44780) (hdev : Responsive lcd dev)
    (chr : Nat) : Returns (HD44780_put_char dev lcd chr) := by
  by_cases hn : chr = 10
  · refine returns_after
      (fun (line : Nat) fuel hw =>
        if lcd.single_line = false ∧ line = 0 then HD44780_cursor_to dev lcd 0 1 fuel hw
        else HD44780_cursor_to dev lcd 0 0 fuel hw)
      (HD44780_get_current_line dev lcd) (fun fuel hw => ?_) (fun line => ?_)
    · simp only [HD44780_put_char, hn, ↓reduceIte]
    · by_cases hc : lcd.single_line = false ∧ line = 0
      · exact returns_congr (fun _ _ => by simp only [hc, and_self, ↓reduceIte])
          (returns_cursor_to dev lcd hdev 0 1)
      · exact returns_congr (fun _ _ => by simp only [hc, ↓reduceIte])
          (returns_cursor_to dev lcd hdev 0 0)
  · by_cases ht : chr = 9
    · exact returns_congr
        (fun _ _ => by simp only [HD44780_put_char, ht, ↓reduceIte]; rfl)
        (returns_for_loop (fun _ => HD44780_write_byte dev lcd true 32)
          (fun _ => returns_write_byte dev lcd hdev true 32) HD44780_TAB_SIZE 0)
    · exact returns_congr
        (fun _ _ => by simp only [HD44780_put_char, hn, ht, ↓reduceIte]; rfl)
        (returns_write_byte dev lcd hdev true chr)

theorem returns_put_str (dev : Device) (lcd : HD44780) (hdev : Responsive lcd dev) :
    ∀ (str : List Nat), 0 ∈ str →
      Returns (fun fuel hw => HD44780_put_str dev lcd fuel str hw) := by
  intro str
  induction str with
  | nil => intro h; simp at h
  | cons c rest ih =>
    intro h
    by_cases hc : c ≠ 0
    · have hr : 0 ∈ rest := by
        rcases List.mem_cons.1 h with h1 | h1
        · exact absurd h1.symm hc
        · exact h1
      exact returns_congr (fun _ _ => by rw [HD44780_put_str, if_pos hc])
        (returns_bind (returns_put_char dev lcd hdev c) (ih hr))
    · exact returns_congr (fun _ _ => by rw [HD44780_put_str, if_neg hc]) returns_pure

theorem returns_create_symbol (dev : Device) (lcd : HD44780) (hdev : Responsive lcd dev)
    (address : Nat) (font_5x10 : Bool) (symbol : Nat → Nat) :
    Returns (HD44780_create_symbol dev lcd address font_5x10 symbol) := by
  refine returns_after
    (fun (a : Nat) fuel hw =>
      (HD44780_write_instruction dev lcd
        ((HD44780_CMD_SET_CGRAM_ADDRESS ||| (address <<< 3)) % 256) fuel hw).bind
      fun hw =>
        (for_loop (fun i hw => HD44780_write_data dev lcd (symbol i) fuel hw)
          (if font_5x10 then 10 else 8) 0 hw).bind
      fun hw =>
        (if font_5x10 then
          for_loop (fun _ hw => HD44780_write_data dev lcd 0 fuel hw) 6 0 hw
        else some hw).bind
      fun hw => HD44780_write_instruction dev lcd (HD44780_CMD_SET_DDRAM_ADDRESS ||| a) fuel hw)
    (HD44780_get_address dev lcd) (fun fuel hw => rfl) (fun a => ?_)
  have hpad : Returns (fun fuel hw =>
      if font_5x10 then for_loop (fun _ hw => HD44780_write_data dev lcd 0 fuel hw) 6 0 hw
      else some hw) := by
    cases font_5x10
    · exact returns_congr (fun _ _ => by simp) returns_pure
    · exact returns_congr (fun _ _ => by simp only [↓reduceIte]; rfl)
        (returns_for_loop (fun _ => HD44780_write_byte dev lcd true 0)
          (fun _ => returns_write_byte dev lcd hdev true 0) 6 0)
  exact returns_bind (returns_write_byte dev lcd hdev false _)
    (returns_bind
      (returns_congr (fun _ _ => rfl)
        (returns_for_loop (fun i => HD44780_write_byte dev lcd true (symbol i))
          (fun i => returns_write_byte dev lcd hdev true (symbol i))
          (if font_5x10 then 10 else 8) 0))
      (returns_bind hpad (returns_write_byte dev lcd hdev false _)))

theorem returns_init (dev : Device) (lcd : HD44780) (hdev : Responsive lcd dev)
    (clock : Nat) : Returns (HD44780_init dev lcd clock) := by
  refine returns_after
    (fun (_ : Unit) fuel hw =>
      (HD44780_write_instruction dev lcd (function_set_byte lcd) fuel hw).bind
        fun hw => (HD44780_write_instruction dev lcd 0x08 fuel hw).bind
        fun hw => (HD44780_write_instruction dev lcd 0x01 fuel hw).bind
        fun hw => (HD44780_write_instruction dev lcd (entry_mode_byte all_false_config)
            fuel hw).bind
        fun hw => HD44780_write_instruction dev lcd (display_control_byte all_false_config)
            fuel hw)
    (fun hw => ((), init_bus lcd clock hw)) (fun fuel hw => init_eq dev lcd clock fuel hw)
    (fun _ => ?_)
  exact returns_bind (returns_write_byte dev lcd hdev false _)
    (returns_bind (returns_write_byte dev lcd hdev false _)
      (returns_bind (returns_write_byte dev lcd hdev false _)
        (returns_bind (returns_write_byte dev lcd hdev false _)
          (returns_write_byte dev lcd hdev false _))))

theorem returns_run_op (dev : Device) (lcd : HD44780) (hdev : Responsive lcd dev)
    (op : Op) (hop : op.terminated) : Returns (fun fuel hw => run_op dev lcd fuel op hw) := by
  cases op with
  | init clock => exact returns_congr (fun _ _ => rfl) (returns_init dev lcd hdev clock)
  | configure config =>
    exact returns_congr (fun _ _ => rfl)
      (returns_bind (returns_write_byte dev lcd hdev false _)
        (returns_write_byte dev lcd hdev false _))
  | clear => exact returns_congr (fun _ _ => rfl) (returns_write_byte dev lcd hdev false _)
  | return_home =>
    exact returns_congr (fun _ _ => rfl) (returns_write_byte dev lcd hdev false _)
  | cursor_to column row =>
    exact returns_congr (fun _ _ => rfl) (returns_cursor_to dev lcd hdev column row)
  | shift_display n =>
    exact returns_congr (fun _ _ => rfl)
      (returns_for_loop (fun _ => HD44780_write_byte dev lcd false _)
        (fun _ => returns_write_byte dev lcd hdev false _) n.natAbs 0)
  | create_symbol address font symbol =>
    exact returns_congr (fun _ _ => rfl)
      (returns_create_symbol dev lcd hdev address font symbol)
  | put_char chr => exact returns_congr (fun _ _ => rfl) (returns_put_char dev lcd hdev chr)
  | put_str str => exact returns_congr (fun _ _ => rfl) (returns_put_str dev lcd hdev str hop)

theorem returns_run_ops (dev : Device) (lcd : HD44780) (hdev : Responsive lcd dev) :
    ∀ (ops : List Op), (∀ op, op ∈ ops → op.terminated) →
      Returns (fun fuel hw => run_ops dev lcd fuel ops hw) := by
  intro ops
  induction ops with
  | nil => intro _; exact returns_congr (fun _ _ => by simp only [run_ops]) returns_pure
  | cons op ops ih =>
    intro h
    exact returns_congr (fun _ _ => by simp only [run_ops])
      (returns_bind (returns_run_op dev lcd hdev op (h op (by simp)))
        (ih (fun o ho => h o (by simp [ho]))))

/-! ## The bus-direction monitor -/

@[simp] theorem mon_write (lcd : HD44780) (l : Line) (v : Bool) (hw : Hw) :
    mon lcd (HAL_GPIO_WritePin l v hw) = (mon lcd hw).step lcd (Event.write l v) := by
  simp [mon, HAL_GPIO_WritePin, List.foldl_append]

@[simp] theorem mon_gpio_init (lcd : HD44780) (l : Line) (m : GpioMode) (hw : Hw) :
    mon lcd (GPIO_init l m hw) = (mon lcd hw).step lcd (Event.init l m) := by
  simp [mon, GPIO_init, List.foldl_append]

@[simp] theorem mon_delay_ns (lcd : HD44780) (n : Nat) (hw : Hw) :
    mon lcd (delay_ns n hw) = mon lcd hw := by
  simp [mon, delay_ns, List.foldl_append, Mon.step, Mon.check]

@[simp] theorem mon_delay_us (lcd : HD44780) (n : Nat) (hw : Hw) :
    mon lcd (delay_us n hw) = mon lcd hw := by
  simp [delay_us]

@[simp] theorem mon_delay_ms (lcd : HD44780) (n : Nat) (hw : Hw) :
    mon lcd (delay_ms n hw) = mon lcd hw := by
  simp [delay_ms]

@[simp] theorem mon_delay_init (lcd : HD44780) (c : Nat) (hw : Hw) :
    mon lcd (delay_init c hw) = mon lcd hw := by
  unfold delay_init
  split <;> rfl

@[simp] theorem mon_read_pin (lcd : HD44780) (dev : Device) (l : Line) (hw : Hw) :
    mon lcd (HAL_GPIO_ReadPin dev l hw).2 =
      (mon lcd hw).step lcd (Event.read l (dev hw.pulls l)) := by
  simp [mon, HAL_GPIO_ReadPin, List.foldl_append]

@[simp] theorem mon_mk (lcd : HD44780) (a p : Nat) (hw : Hw) :
    mon lcd (Hw.mk a p hw.trace) = mon lcd hw := rfl

/-- The set-up of the bus after `HD44780_set_data_mode`, started with the enable
line low. -/
theorem mon_set_data_mode (lcd : HD44780) (mode : GpioMode) (hw : Hw)
    (hen : (mon lcd hw).pins.en = false) :
    (mon lcd (HD44780_set_data_mode lcd mode hw)).ok = (mon lcd hw).ok ∧
      (mon lcd (HD44780_set_data_mode lcd mode hw)).pins = (mon lcd hw).pins ∧
      (mon lcd (HD44780_set_data_mode lcd mode hw)).modes.all lcd mode = true := by
  unfold HD44780_set_data_mode
  cases h8 : lcd.interface_8_bit <;>
    simp [Mon.step, Mon.check, Modes.set, Modes.all, Line.is_data, hen, h8]

theorem mon_push (lcd : HD44780) (value : Nat) (hw : Hw) (h : WriteReady lcd hw) :
    WriteReady lcd (HD44780_push_value lcd value hw) := by
  obtain ⟨hok, hen, hrw, hall⟩ := h
  unfold WriteReady HD44780_push_value
  cases h8 : lcd.interface_8_bit <;>
    simp [Mon.step, Mon.check, Mon.write_cfg, Pins.set, hok, hrw, hall]

theorem mon_pull (dev : Device) (lcd : HD44780) (hw : Hw) (h : ReadReady lcd hw) :
    ReadReady lcd (HD44780_pull_value dev lcd hw).2 := by
  obtain ⟨hok, hen, hrw, hrs, hall⟩ := h
  unfold ReadReady HD44780_pull_value
  cases h8 : lcd.interface_8_bit <;>
    simp [pull_bit, Mon.step, Mon.check, Mon.read_cfg, Pins.set, Line.is_data, hok, hrw, hrs,
      hall]

theorem mon_write_byte_bus (lcd : HD44780) (rs : Bool) (byte : Nat) (hw : Hw)
    (h : BusSafe lcd hw) : BusSafe lcd (write_byte_bus lcd rs byte hw) := by
  obtain ⟨hok, hen⟩ := h
  obtain ⟨mok, mpins, mall⟩ := mon_set_data_mode lcd GpioMode.output_pp hw hen
  have hA : WriteReady lcd (HAL_GPIO_WritePin Line.rs rs (HAL_GPIO_WritePin Line.rw false
      (HD44780_set_data_mode lcd GpioMode.output_pp hw))) := by
    unfold WriteReady
    simp [Mon.step, Mon.check, Pins.set, mok, mpins, mall, hok, hen]
  unfold write_byte_bus
  cases lcd.interface_8_bit
  · have h2 := mon_push lcd byte _ (mon_push lcd (byte >>> 4) _ hA)
    exact ⟨h2.1, h2.2.1⟩
  · have h1 := mon_push lcd byte _ hA
    exact ⟨h1.1, h1.2.1⟩

theorem mon_read_byte (dev : Device) (lcd : HD44780) (hw : Hw) (h : BusSafe lcd hw) :
    BusSafe lcd (HD44780_read_byte dev lcd hw).2 := by
  obtain ⟨hok, hen⟩ := h
  have hB : (mon lcd (HAL_GPIO_WritePin Line.rs false (HAL_GPIO_WritePin Line.rw true hw))).ok
        = true ∧
      (mon lcd (HAL_GPIO_WritePin Line.rs false (HAL_GPIO_WritePin Line.rw true hw))).pins.en
        = false ∧
      (mon lcd (HAL_GPIO_WritePin Line.rs false (HAL_GPIO_WritePin Line.rw true hw))).pins.rw
        = true ∧
      (mon lcd (HAL_GPIO_WritePin Line.rs false (HAL_GPIO_WritePin Line.rw true hw))).pins.rs
        = false := by
    simp [Mon.step, Mon.check, Pins.set, hok, hen]
  obtain ⟨bok, ben, brw, brs⟩ := hB
  obtain ⟨mok, mpins, mall⟩ := mon_set_data_mode lcd GpioMode.input _ ben
  have hA : ReadReady lcd (HD44780_set_data_mode lcd GpioMode.input
      (HAL_GPIO_WritePin Line.rs false (HAL_GPIO_WritePin Line.rw true hw))) := by
    unfold ReadReady
    rw [mok, mpins]
    exact ⟨bok, ben, brw, brs, mall⟩
  unfold HD44780_read_byte
  cases lcd.interface_8_bit
  · have h2 := mon_pull dev lcd _ (mon_pull dev lcd _ hA)
    exact ⟨h2.1, h2.2.1⟩
  · have h1 := mon_pull dev lcd _ hA
    exact ⟨h1.1, h1.2.1⟩

theorem mon_write_init (lcd : HD44780) (byte : Nat) (hw : Hw) (h : WriteReady lcd hw) :
    WriteReady lcd (HD44780_write_init lcd byte hw) := by
  unfold HD44780_write_init
  cases lcd.interface_8_bit
  · exact mon_push lcd _ hw h
  · exact mon_push lcd _ hw h

theorem write_ready_delay_us (lcd : HD44780) (n : Nat) (hw : Hw) (h : WriteReady lcd hw) :
    WriteReady lcd (delay_us n hw) := by
  unfold WriteReady
  rw [mon_delay_us]
  exact h

theorem mon_init_bus (lcd : HD44780) (clock : Nat) (hw : Hw) (h : BusSafe lcd hw) :
    BusSafe lcd (init_bus lcd clock hw) := by
  obtain ⟨hok, hen⟩ := h
  have hI : (mon lcd (GPIO_init Line.en GpioMode.output_pp (GPIO_init Line.rw GpioMode.output_pp
        (GPIO_init Line.rs GpioMode.output_pp (delay_init clock hw))))).ok = true ∧
      (mon lcd (GPIO_init Line.en GpioMode.output_pp (GPIO_init Line.rw GpioMode.output_pp
        (GPIO_init Line.rs GpioMode.output_pp (delay_init clock hw))))).pins.en = false := by
    simp [Mon.step, Mon.check, Modes.set, Line.is_data, hok, hen]
  obtain ⟨iok, ien⟩ := hI
  obtain ⟨mok, mpins, mall⟩ := mon_set_data_mode lcd GpioMode.output_pp _ ien
  have hA : WriteReady lcd (delay_ms 50 (HAL_GPIO_WritePin Line.en false
      (HAL_GPIO_WritePin Line.rw false (HAL_GPIO_WritePin Line.rs false
        (HD44780_set_data_mode lcd GpioMode.output_pp
          (GPIO_init Line.en GpioMode.output_pp (GPIO_init Line.rw GpioMode.output_pp
            (GPIO_init Line.rs GpioMode.output_pp (delay_init clock hw))))))))) := by
    unfold WriteReady
    simp only [mon_delay_ms, mon_write, Mon.step, Mon.check, Pins.set, mok, mpins, mall, iok,
      ien, Bool.not_false, Bool.not_true, Bool.true_or, Bool.or_true, Bool.and_true,
      Bool.and_self, and_self]
  have h3 := write_ready_delay_us lcd 50 _ (mon_write_init lcd
    (HD44780_CMD_FUNCTION_SET ||| HD44780_FLG_DATA_LEN_8BIT) _
    (write_ready_delay_us lcd 120 _ (mon_write_init lcd
      (HD44780_CMD_FUNCTION_SET ||| HD44780_FLG_DATA_LEN_8BIT) _
      (write_ready_delay_us lcd 4500 _ (mon_write_init lcd
        (HD44780_CMD_FUNCTION_SET ||| HD44780_FLG_DATA_LEN_8BIT) _ hA)))))
  unfold init_bus
  cases lcd.interface_8_bit
  · have h4 := write_ready_delay_us lcd 50 _ (mon_write_init lcd
      (HD44780_CMD_FUNCTION_SET ||| HD44780_FLG_DATA_LEN_4BIT) _ h3)
    exact ⟨h4.1, h4.2.1⟩
  · exact ⟨h3.1, h3.2.1⟩

theorem bus_safe_stable (dev : Device) (lcd : HD44780) : Stable dev lcd (BusSafe lcd) := by
  constructor
  · exact fun rs byte hw h => mon_write_byte_bus lcd rs byte hw h
  · exact fun hw h => mon_read_byte dev lcd hw h
  · intro n hw h
    unfold BusSafe
    rw [mon_delay_ns]
    exact h
  · exact fun clock hw h => mon_init_bus lcd clock hw h

/-- The monitor rejects a pulse with the wrong direction: asserting the enable
line with read/write high while the data lines are outputs fails the check. -/
theorem mon_rejects_contention :
    (mon ⟨false, false, false⟩
      ⟨0, 0, [Event.init Line.d7 GpioMode.output_pp, Event.init Line.d6 GpioMode.output_pp,
        Event.init Line.d5 GpioMode.output_pp, Event.init Line.d4 GpioMode.output_pp,
        Event.write Line.rw true, Event.write Line.en true]⟩).ok = false := by
  decide

/-- The monitor rejects a data-line write in a pulse set up for reading. -/
theorem mon_rejects_write_in_read_pulse :
    (mon ⟨false, false, false⟩
      ⟨0, 0, [Event.init Line.d7 GpioMode.input, Event.init Line.d6 GpioMode.input,
        Event.init Line.d5 GpioMode.input, Event.init Line.d4 GpioMode.input,
        Event.write Line.rw true, Event.write Line.en true,
        Event.write Line.d7 true]⟩).ok = false := by
  decide

/-- The bus operations an operation performs from a given state are determined by
the operation and the state. -/
theorem performs_unique (lcd : HD44780) (op : Nat → Hw → Option Hw) (hw : Hw)
    (X Y : List BusOp) (hX : Performs lcd op hw X) (hY : Performs lcd op hw Y) : X = Y := by
  obtain ⟨f1, h1, hr1, hb1⟩ := hX
  obtain ⟨f2, h2, hr2, hb2⟩ := hY
  have e1 := hr1 (max f1 f2) (le_max_left _ _)
  have e2 := hr2 (max f1 f2) (le_max_right _ _)
  rw [e1] at e2
  cases Option.some.inj e2
  rw [hb1] at hb2
  exact List.append_cancel_left hb2

/-! ## Claims -/

/-- C1, the claim as stated fails: on a two-line display, `cursor_to(200, 1)` from
the calibrated state writes the instruction byte 0x88, while
`0x80 | address_for(200, 1) = 0x80 | 264 = 392`; no run of the call performs a
write of 392.  The address is held in a `uint8_t`, so `0x40 + 200` wraps to 8. -/
theorem cursor_to_wraps_address :
    (0x80 ||| address_for ⟨true, false, false⟩ 200 1 = 392) ∧
      (HD44780_cursor_to idle_device ⟨true, false, false⟩ 200 1 1 calibrated).map
          (busOps ⟨true, false, false⟩) = some [BusOp.write false 0x88, BusOp.read false] ∧
      (∃ m, Performs ⟨true, false, false⟩
        (HD44780_cursor_to idle_device ⟨true, false, false⟩ 200 1) calibrated
        ([BusOp.write false 0x88] ++ statusReads ⟨true, false, false⟩ (m + 1))) ∧
      ¬ ∃ m, Performs ⟨true, false, false⟩
        (HD44780_cursor_to idle_device ⟨true, false, false⟩ 200 1) calibrated
        (busWriteOf ⟨true, false, false⟩ false
            (0x80 ||| address_for ⟨true, false, false⟩ 200 1) ++
          statusReads ⟨true, false, false⟩ (m + 1)) := by
  refine ⟨by decide, by decide, ?_, ?_⟩
  · obtain ⟨X, hp, hg⟩ :=
      runs_cursor_to idle_device ⟨true, false, false⟩ (idle_responsive _) 200 1 calibrated
    obtain ⟨m, rfl⟩ := gated_one ⟨true, false, false⟩ _ X hg
    exact ⟨m, hp⟩
  · rintro ⟨m, hp⟩
    obtain ⟨X, hp', hg⟩ :=
      runs_cursor_to idle_device ⟨true, false, false⟩ (idle_responsive _) 200 1 calibrated
    obtain ⟨m', rfl⟩ := gated_one ⟨true, false, false⟩ _ X hg
    have h := performs_unique _ _ _ _ _ hp hp'
    have h0 : some (BusOp.write false 392) = some (BusOp.write false 0x88) :=
      congrArg List.head? h
    exact absurd h0 (by decide)

/-- C1 (amended): from a calibrated state, for every descriptor, column and row,
`HD44780_cursor_to` performs exactly one instruction-register write, followed only
by the status reads of the busy-flag wait.  The byte written is the low eight bits
of `0x80 | address_for(column, row)`, where `address_for` is `0x40 + column` on a
two-line display with an odd row and `column` otherwise; whenever `address_for`
fits in eight bits the byte is `0x80 | address_for(column, row)` itself. -/
theorem cursor_to_writes_address (dev : Device) (lcd : HD44780) (column row : Nat) (hw : Hw)
    (_hcal : hw.delay_loop_time ≠ 0) (hdev : Responsive lcd dev) :
    (∃ m, Performs lcd (HD44780_cursor_to dev lcd column row) hw
      (busWriteOf lcd false ((0x80 ||| address_for lcd column row) % 256) ++
        statusReads lcd (m + 1))) ∧
    (address_for lcd column row < 256 →
      (0x80 ||| address_for lcd column row) % 256 = 0x80 ||| address_for lcd column row) := by
  refine ⟨?_, fun h => Nat.mod_eq_of_lt (or_0x80_lt _ h)⟩
  obtain ⟨X, hp, hg⟩ := runs_cursor_to dev lcd hdev column row hw
  obtain ⟨m, rfl⟩ := gated_one lcd _ X hg
  exact ⟨m, hp⟩

/-- Witness for C1: on a two-line display with an 8-bit bus, `cursor_to(5, 1)`
from the calibrated state writes the instruction byte 0xC5. -/
theorem cursor_to_writes_address_witness :
    (calibrated.delay_loop_time ≠ 0 ∧ Responsive ⟨true, false, false⟩ idle_device) ∧
      ∃ m, Performs ⟨true, false, false⟩
        (HD44780_cursor_to idle_device ⟨true, false, false⟩ 5 1) calibrated
        ([BusOp.write false 0xC5] ++ statusReads ⟨true, false, false⟩ (m + 1)) :=
  ⟨⟨by decide, idle_responsive _⟩,
    (cursor_to_writes_address idle_device ⟨true, false, false⟩ 5 1 calibrated (by decide)
      (idle_responsive _)).1⟩

/-- C2: from a calibrated state (`delay_loop_time ≠ 0`, where the delay division of
the source is defined), for every runtime configuration, `HD44780_configure`
performs exactly two instruction-register writes, each followed only by the status
reads of its busy-flag wait: first the entry-mode byte `0x04 | (shift_display ? 1 :
0) | (shift_rtl ? 0 : 2)`, then the display-control byte `0x08 | (disable_display ?
0 : 4) | (enable_cursor ? 2 : 0) | (enable_blink ? 1 : 0)`. Both bytes are functions
of the configuration flags alone. -/
theorem configure_writes_entry_then_display (dev : Device) (lcd : HD44780)
    (config : HD44780_Config) (hw : Hw) (_hcal : hw.delay_loop_time ≠ 0)
    (hdev : Responsive lcd dev) :
    ∃ m1 m2, Performs lcd (HD44780_configure dev lcd config) hw
      (busWriteOf lcd false (entry_mode_byte config) ++ statusReads lcd (m1 + 1) ++
        (busWriteOf lcd false (display_control_byte config) ++ statusReads lcd (m2 + 1))) := by
  obtain ⟨X, hp, hg⟩ := runs_configure dev lcd hdev config hw
  obtain ⟨m1, X', rfl, hg'⟩ := hg
  obtain ⟨m2, rfl⟩ := gated_one lcd _ X' hg'
  exact ⟨m1, m2, hp⟩

/-- Witness for C2: from the calibrated state, the all-false configuration on a
4-bit bus sends 0x06 and then 0x0C, each as two nibbles. -/
theorem configure_writes_entry_then_display_witness :
    (calibrated.delay_loop_time ≠ 0 ∧ Responsive ⟨false, false, false⟩ idle_device) ∧
      ∃ m1 m2, Performs ⟨false, false, false⟩
        (HD44780_configure idle_device ⟨false, false, false⟩ all_false_config) calibrated
        ([BusOp.write false 0, BusOp.write false 6] ++
            statusReads ⟨false, false, false⟩ (m1 + 1) ++
          ([BusOp.write false 0, BusOp.write false 12] ++
            statusReads ⟨false, false, false⟩ (m2 + 1))) :=
  ⟨⟨by decide, idle_responsive _⟩,
    configure_writes_entry_then_display idle_device ⟨false, false, false⟩ all_false_config
      calibrated (by decide) (idle_responsive _)⟩

/-- C3: started with the enable line low (as at power-on or after any operation),
`HD44780_init` performs first the degraded writes, each a single bus write with
register-select low and no status read among them: three times the function-set
byte 0x30 (only its high nibble 0x3 on a 4-bit bus), then, only on a 4-bit bus,
once 0x20 (nibble 0x2), so three degraded writes on an 8-bit bus and four on a
4-bit bus.  After them come exactly the busy-flag-gated instruction writes
F, 0x08, 0x01, 0x06, 0x0C in this order, where
`F = 0x20 | (interface_8_bit ? 0x10 : 0) | (single_line ? 0 : 0x08) | (font_5x10 ? 0x04 : 0)`. -/
theorem init_write_sequence (dev : Device) (lcd : HD44780) (clock : Nat) (hw : Hw)
    (hen : (dec lcd hw).pins.en = false) (hdev : Responsive lcd dev) :
    (∃ X, Performs lcd (HD44780_init dev lcd clock) hw (degradedWrites lcd ++ X) ∧
      Gated lcd [instr (function_set_byte lcd), instr 0x08, instr 0x01, instr 0x06,
        instr 0x0C] X) ∧
    degradedWrites lcd =
      (if lcd.interface_8_bit then
        [BusOp.write false 0x30, BusOp.write false 0x30, BusOp.write false 0x30]
      else
        [BusOp.write false 3, BusOp.write false 3, BusOp.write false 3,
          BusOp.write false 2]) ∧
    (degradedWrites lcd).length = (if lcd.interface_8_bit then 3 else 4) := by
  refine ⟨init_performs dev lcd hdev clock hw hen, ?_, ?_⟩
  · cases h8 : lcd.interface_8_bit <;> simp [degradedWrites, degradedWrite, h8]
  · cases h8 : lcd.interface_8_bit <;> simp [degradedWrites, h8]

/-- Witness for C3: initialization of a two-line 4-bit display from power-on at
72 MHz. -/
theorem init_write_sequence_witness :
    ((dec ⟨false, false, false⟩ power_on).pins.en = false ∧
        Responsive ⟨false, false, false⟩ idle_device) ∧
      ∃ X, Performs ⟨false, false, false⟩
          (HD44780_init idle_device ⟨false, false, false⟩ 72000000) power_on
          ([BusOp.write false 3, BusOp.write false 3, BusOp.write false 3,
            BusOp.write false 2] ++ X) ∧
        Gated ⟨false, false, false⟩ [instr 0x28, instr 0x08, instr 0x01, instr 0x06,
          instr 0x0C] X :=
  ⟨⟨rfl, idle_responsive _⟩,
    (init_write_sequence idle_device ⟨false, false, false⟩ 72000000 power_on rfl
      (idle_responsive _)).1⟩

/-- C4: the configuration left by `HD44780_init` is the one set by
`HD44780_configure` with all config flags false.  The bus activity of
`HD44780_init` ends with the gated writes of two instruction bytes, and
`HD44780_configure` on the all-false configuration, called from any calibrated
state `hw2` (`delay_loop_time ≠ 0`), performs the gated writes of the same two
bytes in the same order: the entry-mode byte 0x06 and then the display-control
byte 0x0C. -/
theorem init_ends_with_all_false_configure (dev : Device) (lcd : HD44780) (clock : Nat)
    (hw hw2 : Hw) (hen : (dec lcd hw).pins.en = false) (_hcal : hw2.delay_loop_time ≠ 0)
    (hdev : Responsive lcd dev) :
    ∃ X1 X2 Y,
      Performs lcd (HD44780_init dev lcd clock) hw (degradedWrites lcd ++ (X1 ++ X2)) ∧
      Gated lcd [instr (function_set_byte lcd), instr 0x08, instr 0x01] X1 ∧
      Gated lcd [instr (entry_mode_byte all_false_config),
        instr (display_control_byte all_false_config)] X2 ∧
      Performs lcd (HD44780_configure dev lcd all_false_config) hw2 Y ∧
      Gated lcd [instr (entry_mode_byte all_false_config),
        instr (display_control_byte all_false_config)] Y ∧
      entry_mode_byte all_false_config = 0x06 ∧
      display_control_byte all_false_config = 0x0C := by
  obtain ⟨X, hp, hg⟩ := init_performs dev lcd hdev clock hw hen
  obtain ⟨X1, X2, rfl, h1, h2⟩ := gated_split lcd
    [instr (entry_mode_byte all_false_config), instr (display_control_byte all_false_config)]
    [instr (function_set_byte lcd), instr 0x08, instr 0x01] X hg
  obtain ⟨Y, hpY, hgY⟩ := runs_configure dev lcd hdev all_false_config hw2
  exact ⟨X1, X2, Y, hp, h1, h2, hpY, hgY, rfl, rfl⟩

/-- Witness for C4: a two-line 8-bit display, initialized from power-on and
configured from the calibrated state. -/
theorem init_ends_with_all_false_configure_witness :
    ((dec ⟨true, false, false⟩ power_on).pins.en = false ∧
        calibrated.delay_loop_time ≠ 0 ∧ Responsive ⟨true, false, false⟩ idle_device) ∧
      ∃ X1 X2 Y,
        Performs ⟨true, false, false⟩
          (HD44780_init idle_device ⟨true, false, false⟩ 72000000) power_on
          (degradedWrites ⟨true, false, false⟩ ++ (X1 ++ X2)) ∧
        Gated ⟨true, false, false⟩ [instr 0x38, instr 0x08, instr 0x01] X1 ∧
        Gated ⟨true, false, false⟩ [instr 0x06, instr 0x0C] X2 ∧
        Performs ⟨true, false, false⟩
          (HD44780_configure idle_device ⟨true, false, false⟩ all_false_config) calibrated
          Y ∧
        Gated ⟨true, false, false⟩ [instr 0x06, instr 0x0C] Y ∧
        entry_mode_byte all_false_config = 0x06 ∧
        display_control_byte all_false_config = 0x0C :=
  ⟨⟨rfl, by decide, idle_responsive _⟩,
    init_ends_with_all_false_configure idle_device ⟨true, false, false⟩ 72000000 power_on
      calibrated rfl (by decide) (idle_responsive _)⟩

/-- C5: from a calibrated state (`delay_loop_time ≠ 0`), `HD44780_create_symbol`
restores the address it found.  It first reads the status register once, before any
write; with `a` the low seven bits of that status byte (so `a` is in 0..127,
whatever the busy bit), for every slot index, either font and every row array the
last register write of the operation is the instruction `0x80 | a`, followed only by
the status reads of its busy-flag wait: no data or instruction write comes after it.
-/
theorem create_symbol_restores_address (dev : Device) (lcd : HD44780) (address : Nat)
    (font_5x10 : Bool) (symbol : Nat → Nat) (hw : Hw) (_hcal : hw.delay_loop_time ≠ 0)
    (hsym : ∀ i, symbol i < 256) (hdev : Responsive lcd dev) :
    status_byte lcd dev hw.pulls % 128 < 128 ∧
      ∃ X m, Performs lcd (HD44780_create_symbol dev lcd address font_5x10 symbol) hw
        (statusReads lcd 1 ++
          (X ++ busWriteOf lcd false (0x80 ||| status_byte lcd dev hw.pulls % 128) ++
            statusReads lcd (m + 1))) := by
  refine ⟨Nat.mod_lt _ (by norm_num), ?_⟩
  obtain ⟨X, hp, hg⟩ := create_symbol_performs dev lcd hdev address font_5x10 symbol hsym hw
  obtain ⟨X1, m, rfl, -⟩ := gated_snoc lcd _ _ X hg
  exact ⟨X1, m, hp⟩

/-- Witness for C5: with the address counter at 0x45 on an 8-bit bus, the last
write of a 5x8 glyph definition in slot 3, made from the calibrated state, is the
instruction 0xC5. -/
theorem create_symbol_restores_address_witness :
    (calibrated.delay_loop_time ≠ 0 ∧ (∀ i, (fun i => i % 32) i < 256) ∧
        Responsive ⟨true, false, false⟩ device_at_0x45) ∧
      ∃ X m, Performs ⟨true, false, false⟩
        (HD44780_create_symbol device_at_0x45 ⟨true, false, false⟩ 3 false (fun i => i % 32))
        calibrated
        (statusReads ⟨true, false, false⟩ 1 ++
          (X ++ [BusOp.write false 0xC5] ++ statusReads ⟨true, false, false⟩ (m + 1))) :=
  ⟨⟨by decide, fun i => lt_trans (Nat.mod_lt i (by norm_num)) (by norm_num),
      fun _ => ⟨0, rfl⟩⟩,
    (create_symbol_restores_address device_at_0x45 ⟨true, false, false⟩ 3 false
      (fun i => i % 32) calibrated (by decide)
      (fun i => lt_trans (Nat.mod_lt i (by norm_num)) (by norm_num)) (fun _ => ⟨0, rfl⟩)).2⟩

/-- C6: from a calibrated state (`delay_loop_time ≠ 0`), for every slot index in
0..7 and every row array, between the initial status read and the final
address-restoring instruction `HD44780_create_symbol` performs exactly the gated
writes of one instruction `0x40 | (slot << 3)`, a byte in 0x40..0x78, followed by
the data-register writes of rows 0..7 in order for a 5x8 glyph (8 data writes), or
of rows 0..9 in order followed by six zero bytes for a 5x10 glyph (16 data writes);
there is no other write in between. -/
theorem create_symbol_writes_glyph (dev : Device) (lcd : HD44780) (address : Nat)
    (font_5x10 : Bool) (symbol : Nat → Nat) (hw : Hw) (_hcal : hw.delay_loop_time ≠ 0)
    (haddr : address ≤ 7) (hsym : ∀ i, symbol i < 256) (hdev : Responsive lcd dev) :
    (0x40 ≤ 0x40 ||| (address <<< 3) ∧ 0x40 ||| (address <<< 3) ≤ 0x78) ∧
    (glyph_rows font_5x10 symbol).length = (if font_5x10 then 16 else 8) ∧
    ∃ X m, Performs lcd (HD44780_create_symbol dev lcd address font_5x10 symbol) hw
        (statusReads lcd 1 ++
          (X ++ busWriteOf lcd false (0x80 ||| status_byte lcd dev hw.pulls % 128) ++
            statusReads lcd (m + 1))) ∧
      Gated lcd (instr (0x40 ||| (address <<< 3)) :: glyph_rows font_5x10 symbol) X := by
  have hmod : (0x40 ||| (address <<< 3)) % 256 = 0x40 ||| (address <<< 3) := by
    interval_cases address <;> rfl
  refine ⟨by interval_cases address <;> decide, ?_, ?_⟩
  · cases font_5x10 <;> simp [glyph_rows]
  · obtain ⟨X, hp, hg⟩ := create_symbol_performs dev lcd hdev address font_5x10 symbol hsym hw
    obtain ⟨X1, m, rfl, hg1⟩ := gated_snoc lcd _ _ X hg
    rw [hmod] at hg1
    exact ⟨X1, m, hp, hg1⟩

/-- Witness for C6: a 5x10 glyph in slot 2 on a 4-bit bus, defined from the
calibrated state. -/
theorem create_symbol_writes_glyph_witness :
    (calibrated.delay_loop_time ≠ 0 ∧ (2 : Nat) ≤ 7 ∧ (∀ i, (fun i => i % 32) i < 256) ∧
        Responsive ⟨false, true, true⟩ idle_device) ∧
      ∃ X m, Performs ⟨false, true, true⟩
          (HD44780_create_symbol idle_device ⟨false, true, true⟩ 2 true (fun i => i % 32))
          calibrated
          (statusReads ⟨false, true, true⟩ 1 ++
            (X ++ busWriteOf ⟨false, true, true⟩ false
                (0x80 ||| status_byte ⟨false, true, true⟩ idle_device calibrated.pulls % 128) ++
              statusReads ⟨false, true, true⟩ (m + 1))) ∧
        Gated ⟨false, true, true⟩
          [instr 0x50, data 0, data 1, data 2, data 3, data 4, data 5, data 6, data 7,
            data 8, data 9, data 0, data 0, data 0, data 0, data 0, data 0] X :=
  ⟨⟨by decide, by decide, fun i => lt_trans (Nat.mod_lt i (by norm_num)) (by norm_num),
      idle_responsive _⟩,
    (create_symbol_writes_glyph idle_device ⟨false, true, true⟩ 2 true (fun i => i % 32)
      calibrated (by decide) (by decide)
      (fun i => lt_trans (Nat.mod_lt i (by norm_num)) (by norm_num))
      (idle_responsive _)).2.2⟩

/-- C7: from a calibrated state (`delay_loop_time ≠ 0`), `HD44780_put_char` with the
newline character reads the status register once and then performs exactly one
instruction-register write, followed only by the status reads of its busy-flag wait,
and no data write.  With `a` the low seven bits of the status byte read: on a
two-line display with `a` below 0x40 (in particular anywhere in row 0) the
instruction is 0xC0; on a two-line display with `a` at or above 0x40 (in particular
anywhere in row 1) it is 0x80; on a single-line display it is 0x80 for every `a`. -/
theorem put_char_newline_toggles_row (dev : Device) (lcd : HD44780) (hw : Hw)
    (_hcal : hw.delay_loop_time ≠ 0) (hdev : Responsive lcd dev) :
    ∃ m byte, Performs lcd (HD44780_put_char dev lcd 10) hw
        (statusReads lcd 1 ++ (busWriteOf lcd false byte ++ statusReads lcd (m + 1))) ∧
      (lcd.single_line = false → status_byte lcd dev hw.pulls % 128 < 0x40 → byte = 0xC0) ∧
      (lcd.single_line = false → 0x40 ≤ status_byte lcd dev hw.pulls % 128 → byte = 0x80) ∧
      (lcd.single_line = true → byte = 0x80) := by
  obtain ⟨m, hp⟩ := put_char_newline_performs dev lcd hdev hw
  refine ⟨m, _, hp, fun h1 h2 => if_pos ⟨h1, h2⟩, fun _ h2 => if_neg (fun hc => ?_),
    fun h1 => if_neg (fun hc => ?_)⟩
  · omega
  · rw [h1] at hc
    exact Bool.noConfusion hc.1

/-- Witness for C7: on a two-line 8-bit display whose address counter is 0x45
(row 1), a newline sent from the calibrated state writes the instruction 0x80. -/
theorem put_char_newline_toggles_row_witness :
    (calibrated.delay_loop_time ≠ 0 ∧ Responsive ⟨true, false, false⟩ device_at_0x45) ∧
      ∃ m byte, Performs ⟨true, false, false⟩
          (HD44780_put_char device_at_0x45 ⟨true, false, false⟩ 10) calibrated
          (statusReads ⟨true, false, false⟩ 1 ++
            (busWriteOf ⟨true, false, false⟩ false byte ++
              statusReads ⟨true, false, false⟩ (m + 1))) ∧
        ((0x45 : Nat) < 0x40 → byte = 0xC0) ∧ ((0x40 : Nat) ≤ 0x45 → byte = 0x80) :=
  ⟨⟨by decide, fun _ => ⟨0, rfl⟩⟩,
    (put_char_newline_toggles_row device_at_0x45 ⟨true, false, false⟩ calibrated (by decide)
      (fun _ => ⟨0, rfl⟩)).imp fun _ h => h.imp fun _ h => ⟨h.1, h.2.1 rfl, h.2.2.1 rfl⟩⟩

/-- C8: for every descriptor and every device that eventually reports ready, from a
calibrated state (`delay_loop_time ≠ 0`) `HD44780_put_char` with the tab character
performs exactly four data-register writes of the space code 0x20, each followed
only by the status reads of its busy-flag wait; it never writes to the instruction
register, and every read it performs is a status read (register-select low). -/
theorem put_char_tab_writes_four_spaces (dev : Device) (lcd : HD44780) (hw : Hw)
    (_hcal : hw.delay_loop_time ≠ 0) (hdev : Responsive lcd dev) :
    ∃ X, Performs lcd (HD44780_put_char dev lcd 9) hw X ∧
      Gated lcd [data 0x20, data 0x20, data 0x20, data 0x20] X ∧
      (∀ v, BusOp.write false v ∉ X) ∧ (∀ rs, BusOp.read rs ∈ X → rs = false) := by
  obtain ⟨X, hp, hg⟩ := runs_put_char_tab dev lcd hdev hw
  refine ⟨X, hp, hg, fun v hv => ?_, fun rs hr => ?_⟩
  · rcases gated_mem lcd _ X hg _ hv with h | ⟨w, hw4, hop⟩
    · cases h
    · obtain ⟨v', hv'⟩ := mem_busWriteOf lcd _ _ _ hop
      rw [List.eq_of_mem_replicate hw4] at hv'
      simp [data] at hv'
  · rcases gated_mem lcd _ X hg _ hr with h | ⟨w, _, hop⟩
    · simpa using h
    · obtain ⟨v', hv'⟩ := mem_busWriteOf lcd _ _ _ hop
      cases hv'

/-- Witness for C8: a tab on a two-line 8-bit display driven from the calibrated
state. -/
theorem put_char_tab_writes_four_spaces_witness :
    (calibrated.delay_loop_time ≠ 0 ∧ Responsive ⟨true, false, false⟩ idle_device) ∧
      ∃ X, Performs ⟨true, false, false⟩
          (HD44780_put_char idle_device ⟨true, false, false⟩ 9) calibrated X ∧
        Gated ⟨true, false, false⟩ [data 0x20, data 0x20, data 0x20, data 0x20] X ∧
        (∀ v, BusOp.write false v ∉ X) ∧ (∀ rs, BusOp.read rs ∈ X → rs = false) :=
  ⟨⟨by decide, idle_responsive _⟩,
    put_char_tab_writes_four_spaces idle_device ⟨true, false, false⟩ calibrated (by decide)
      (idle_responsive _)⟩

/-- C9: for every byte string `s` without a NUL byte, `HD44780_put_str` on `s`
followed by a terminator (and by anything after it) yields exactly the result of
calling `HD44780_put_char` on each byte of `s` in order, so nothing is transmitted
for the terminator or for what follows it, and `put_str` of a concatenation equals
`put_str` of the first part followed by `put_str` of the second.  When `s` contains
neither newline nor tab and the device eventually reports ready, the operation,
called from a calibrated state (`delay_loop_time ≠ 0`), performs exactly the
data-register writes of the bytes of `s`, in order, and no instruction write. -/
theorem put_str_is_put_char_each (dev : Device) (lcd : HD44780) (s rest : List Nat)
    (hs : ∀ c, c ∈ s → c ≠ 0 ∧ c < 256) :
    (∀ fuel hw,
      HD44780_put_str dev lcd fuel (s ++ 0 :: rest) hw = put_chars dev lcd fuel s hw) ∧
    (∀ s2 rest1 rest2 fuel hw, (∀ c, c ∈ s2 → c ≠ 0) →
      HD44780_put_str dev lcd fuel (s ++ s2 ++ 0 :: rest) hw =
        (HD44780_put_str dev lcd fuel (s ++ 0 :: rest1) hw).bind
          (HD44780_put_str dev lcd fuel (s2 ++ 0 :: rest2))) ∧
    (Responsive lcd dev → (∀ c, c ∈ s → c ≠ 10 ∧ c ≠ 9) → ∀ hw, hw.delay_loop_time ≠ 0 →
      ∃ X, Performs lcd (fun fuel hw => HD44780_put_str dev lcd fuel (s ++ 0 :: rest) hw) hw X ∧
        Gated lcd (s.map data) X) := by
  have h0 : ∀ c, c ∈ s → c ≠ 0 := fun c hc => (hs c hc).1
  refine ⟨fun fuel hw => put_str_eq_put_chars dev lcd fuel rest s h0 hw, ?_, ?_⟩
  · intro s2 rest1 rest2 fuel hw h2
    have h12 : ∀ c, c ∈ s ++ s2 → c ≠ 0 := by
      intro c hc
      rcases List.mem_append.1 hc with h | h
      · exact h0 c h
      · exact h2 c h
    have hf : HD44780_put_str dev lcd fuel (s2 ++ 0 :: rest2) = put_chars dev lcd fuel s2 :=
      funext (put_str_eq_put_chars dev lcd fuel rest2 s2 h2)
    rw [put_str_eq_put_chars dev lcd fuel rest (s ++ s2) h12,
      put_str_eq_put_chars dev lcd fuel rest1 s h0, hf, put_chars_append]
  · intro hdev hplain hw _
    have hr := runs_put_chars_plain dev lcd hdev s
      (fun c hc => ⟨(hs c hc).2, (hplain c hc).1, (hplain c hc).2⟩)
    exact runs_congr lcd (fun fuel hw => put_str_eq_put_chars dev lcd fuel rest s h0 hw) hr hw

/-- Witness for C9: from the calibrated state the string "Hi" gives the data writes
0x48 and then 0x69. -/
theorem put_str_is_put_char_each_witness :
    ((∀ c, c ∈ [0x48, 0x69] → c ≠ 0 ∧ c < 256) ∧ calibrated.delay_loop_time ≠ 0) ∧
      ∃ X, Performs ⟨true, false, false⟩
          (fun fuel hw => HD44780_put_str idle_device ⟨true, false, false⟩ fuel
            ([0x48, 0x69] ++ 0 :: []) hw) calibrated X ∧
        Gated ⟨true, false, false⟩ [data 0x48, data 0x69] X :=
  ⟨⟨by decide, by decide⟩,
    (put_str_is_put_char_each idle_device ⟨true, false, false⟩ [0x48, 0x69] [] (by decide)).2.2
      (idle_responsive _) (by decide) calibrated (by decide)⟩

/-- C10: from a calibrated state (`delay_loop_time ≠ 0`), for every `n` in
-128..127, `HD44780_shift_display(n)` performs exactly `|n|` instruction-register
writes, each followed only by the status reads of its busy-flag wait, and nothing
else; every one of them is the byte 0x1C when `n` is negative and 0x18 otherwise.
`|n|` is at most 128, so there is no write for `n = 0` and there are 128 writes for
`n = -128`. -/
theorem shift_display_writes_abs_n (dev : Device) (lcd : HD44780) (n : Int) (hw : Hw)
    (_hcal : hw.delay_loop_time ≠ 0) (hlo : -128 ≤ n) (hhi : n ≤ 127)
    (hdev : Responsive lcd dev) :
    n.natAbs ≤ 128 ∧
      ∃ X, Performs lcd (HD44780_shift_display dev lcd n) hw X ∧
        Gated lcd (List.replicate n.natAbs (instr (if n < 0 then 0x1C else 0x18))) X := by
  refine ⟨by omega, ?_⟩
  exact runs_shift_display dev lcd hdev n hw

/-- Witness for C10: from the calibrated state `shift_display(-3)` writes 0x1C
three times. -/
theorem shift_display_writes_abs_n_witness :
    (calibrated.delay_loop_time ≠ 0 ∧ (-128 : Int) ≤ -3 ∧ (-3 : Int) ≤ 127 ∧
        Responsive ⟨true, false, false⟩ idle_device) ∧
      ∃ X, Performs ⟨true, false, false⟩
          (HD44780_shift_display idle_device ⟨true, false, false⟩ (-3)) calibrated X ∧
        Gated ⟨true, false, false⟩ [instr 0x1C, instr 0x1C, instr 0x1C] X :=
  ⟨⟨by decide, by decide, by decide, idle_responsive _⟩,
    (shift_display_writes_abs_n idle_device ⟨true, false, false⟩ (-3) calibrated
      (by decide) (by decide) (by decide) (idle_responsive _)).2⟩

/-- C11: for every byte `b` and either target register, on a device that eventually
reports ready and from a calibrated state (`delay_loop_time ≠ 0`),
`HD44780_write_byte` returns, and its pin activity starts with: the data lines in
use configured as outputs, the read/write line set low (write), the register-select
line set to the target, and then, on an 8-bit bus, exactly one enable pulse with bit
`i` of `b` on line `Di` for `i = 0..7`, and on a 4-bit bus exactly two enable
pulses, the first with bits 7..4 of `b` on D7..D4 and the second with bits 3..0 of
`b` on D7..D4.  Whatever pin activity follows is the busy-flag poll: the controller
sees exactly this byte transfer followed by at least one status read before the
operation returns. -/
theorem write_byte_transfers_byte (dev : Device) (lcd : HD44780) (rs : Bool) (b : Nat)
    (hw : Hw) (_hcal : hw.delay_loop_time ≠ 0) (hb : b < 256) (hdev : Responsive lcd dev) :
    ∃ m hw' T,
      (∀ fuel, m < fuel → HD44780_write_byte dev lcd rs b fuel hw = some hw') ∧
      hw'.trace =
        hw.trace ++ (data_mode_events lcd GpioMode.output_pp ++
          [Event.write Line.rw false, Event.write Line.rs rs] ++
          byte_pulses lcd b hw.delay_loop_time) ++ T ∧
      busOps lcd hw' = busOps lcd hw ++ (busWriteOf lcd rs b ++ statusReads lcd (m + 1)) :=
  write_byte_pins dev lcd hdev rs b hb hw

/-- Witness for C11: on a 4-bit bus, from the calibrated state (loop time 125 ns,
so the 240 ns hold is one loop iteration), the character 'H' (0x48) is sent to the
data register as the nibble 0x4 and then the nibble 0x8. -/
theorem write_byte_transfers_byte_witness :
    (calibrated.delay_loop_time ≠ 0 ∧ (0x48 : Nat) < 256 ∧
        Responsive ⟨false, true, false⟩ idle_device) ∧
      ∃ m hw' T,
        (∀ fuel, m < fuel →
          HD44780_write_byte idle_device ⟨false, true, false⟩ true 0x48 fuel calibrated =
            some hw') ∧
        hw'.trace =
          calibrated.trace ++ (data_mode_events ⟨false, true, false⟩ GpioMode.output_pp ++
            [Event.write Line.rw false, Event.write Line.rs true] ++
            ([Event.write Line.en true, Event.write Line.d7 false,
                Event.write Line.d6 true, Event.write Line.d5 false,
                Event.write Line.d4 false, Event.delay 240 1, Event.write Line.en false] ++
              [Event.write Line.en true, Event.write Line.d7 true,
                Event.write Line.d6 false, Event.write Line.d5 false,
                Event.write Line.d4 false, Event.delay 240 1,
                Event.write Line.en false])) ++ T ∧
        busOps ⟨false, true, false⟩ hw' =
          busOps ⟨false, true, false⟩ calibrated ++
            ([BusOp.write true 4, BusOp.write true 8] ++
              statusReads ⟨false, true, false⟩ (m + 1)) :=
  ⟨⟨by decide, by decide, idle_responsive _⟩,
    write_byte_transfers_byte idle_device ⟨false, true, false⟩ true 0x48 calibrated
      (by decide) (by decide) (idle_responsive _)⟩

/-- C12: on a 4-bit bus no public operation touches the low data lines.  For
every call of `init`, `configure`, `clear`, `return_home`, `cursor_to`,
`shift_display`, `create_symbol`, `put_char` or `put_str`, with any arguments,
from any state and with any device: if the call returns, the events of the trace
that configure, drive or sample D0, D1, D2 or D3 are the ones that were there
before the call, so the call has added none and every access it made was to RS,
RW, EN or D4..D7.  On a device that eventually reports ready, every call whose
input has a defined result does return. -/
theorem low_lines_untouched (dev : Device) (lcd : HD44780)
    (h4 : lcd.interface_8_bit = false) :
    (∀ (op : Op) (fuel : Nat) (hw hw' : Hw), run_op dev lcd fuel op hw = some hw' →
      low_touches hw' = low_touches hw) ∧
    (Responsive lcd dev → ∀ (op : Op), op.terminated → ∀ hw : Hw,
      ∃ f0 hw', (∀ fuel, f0 ≤ fuel → run_op dev lcd fuel op hw = some hw') ∧
        low_touches hw' = low_touches hw) := by
  have hsafe : ∀ (op : Op) (fuel : Nat) (hw hw' : Hw), run_op dev lcd fuel op hw = some hw' →
      low_touches hw' = low_touches hw :=
    fun op fuel hw hw' h =>
      stable_run_op (low_stable dev lcd h4 (low_touches hw)) fuel op hw hw' rfl h
  refine ⟨hsafe, fun hdev op hop hw => ?_⟩
  obtain ⟨f0, hw', r⟩ := returns_run_op dev lcd hdev op hop hw
  exact ⟨f0, hw', r, hsafe op f0 hw hw' (r f0 (le_refl f0))⟩

/-- Witness for C12: on a 4-bit bus, initialization from power-on returns and the
trace contains no event on D0..D3. -/
theorem low_lines_untouched_witness :
    (⟨false, false, false⟩ : HD44780).interface_8_bit = false ∧
      ∃ f0 hw', (∀ fuel, f0 ≤ fuel →
          run_op idle_device ⟨false, false, false⟩ fuel (Op.init 72000000) power_on =
            some hw') ∧
        low_touches hw' = [] :=
  ⟨rfl,
    (low_lines_untouched idle_device ⟨false, false, false⟩ rfl).2 (idle_responsive _)
      (Op.init 72000000) trivial power_on⟩

/-- C13, as stated, fails: on an 8-bit bus `HD44780_push_value` of 0xFF from the
calibrated state (loop time 125 ns, so the 240 ns hold is one loop iteration) does
not perform the claimed order (data lines driven first, then enable asserted, held
and deasserted).  Its first pin action is the assertion of the enable line, and
all eight data lines change level after it. -/
theorem push_value_not_data_first :
    calibrated.delay_loop_time ≠ 0 ∧
      (HD44780_push_value ⟨true, false, false⟩ 0xFF calibrated).trace ≠
        calibrated.trace ++
          claimed_write_pulse (push_drive ⟨true, false, false⟩ 0xFF)
            calibrated.delay_loop_time ∧
      (HD44780_push_value ⟨true, false, false⟩ 0xFF calibrated).trace =
        [Event.write Line.en true, Event.write Line.d7 true, Event.write Line.d6 true,
          Event.write Line.d5 true, Event.write Line.d4 true, Event.write Line.d3 true,
          Event.write Line.d2 true, Event.write Line.d1 true, Event.write Line.d0 true,
          Event.delay 240 1, Event.write Line.en false] := by
  decide

/-- C13, amended: for every value, bus width and calibrated state
(`delay_loop_time ≠ 0`), `HD44780_push_value` performs its pin actions in this
order: first the enable line is asserted, then the data lines in use are driven to the requested bits (D7
first), then the driver holds for 240 ns, then the enable line is deasserted.  So
every data-line level change of the transaction lies between the rising and the
falling edge of enable, and precedes the falling edge. -/
theorem push_value_enable_first (lcd : HD44780) (value : Nat) (hw : Hw)
    (_hcal : hw.delay_loop_time ≠ 0) :
    (HD44780_push_value lcd value hw).trace =
      hw.trace ++
        ([Event.write Line.en true] ++
          (push_drive lcd value).map (fun x => Event.write x.1 x.2) ++
          [Event.delay 240 (240 / hw.delay_loop_time), Event.write Line.en false]) :=
  (push_value_trace lcd value hw).1

/-- Witness for C13: on a 4-bit bus, `HD44780_push_value` of the nibble 0x5 from the
calibrated state asserts enable, drives D7..D4 to 0, 1, 0, 1, holds for one loop
iteration and deasserts enable. -/
theorem push_value_enable_first_witness :
    calibrated.delay_loop_time ≠ 0 ∧
      (HD44780_push_value ⟨false, false, false⟩ 0x5 calibrated).trace =
        [Event.write Line.en true, Event.write Line.d7 false, Event.write Line.d6 true,
          Event.write Line.d5 false, Event.write Line.d4 true, Event.delay 240 1,
          Event.write Line.en false] :=
  ⟨by decide, push_value_enable_first ⟨false, false, false⟩ 0x5 calibrated (by decide)⟩

/-- C14: from a calibrated state (`delay_loop_time ≠ 0`), let the status bytes the
controller returns from the current read pulse on be such that byte number `k`
(counting from 0) is the first with bit 7 clear. Then `HD44780_await_busyflag`
returns exactly when it is allowed more than `k` evaluations of its loop condition,
and it has then performed exactly `k + 1` status-register reads (register-select
low, read/write high) and no write.  Only bit 7 of the status bytes enters the
hypotheses, so bits 0..6 are ignored.  If no status byte ever has bit 7 clear, the
loop does not return, however much fuel it is given. -/
theorem await_busyflag_reads_until_ready (dev : Device) (lcd : HD44780) (hw : Hw) (k : Nat)
    (_hcal : hw.delay_loop_time ≠ 0)
    (hbusy : ∀ j, j < k →
      (status_byte lcd dev (hw.pulls + stride lcd * j)).testBit 7 = true)
    (hready : (status_byte lcd dev (hw.pulls + stride lcd * k)).testBit 7 = false) :
    (∃ hw', (∀ fuel, k < fuel → HD44780_await_busyflag dev lcd fuel hw = some hw') ∧
      busOps lcd hw' = busOps lcd hw ++ statusReads lcd (k + 1) ∧
      hw'.pulls = hw.pulls + stride lcd * (k + 1)) ∧
    (∀ fuel, fuel ≤ k → HD44780_await_busyflag dev lcd fuel hw = none) ∧
    (∀ (stuck : Device) (hw0 : Hw), hw0.delay_loop_time ≠ 0 →
      (∀ j, (status_byte lcd stuck (hw0.pulls + stride lcd * j)).testBit 7 = true) →
      ∀ fuel, HD44780_await_busyflag stuck lcd fuel hw0 = none) := by
  simp only [status_testBit] at hbusy hready
  refine ⟨⟨(poll dev lcd)^[k + 1] hw, fun fuel hf => ?_, ?_, ?_⟩, fun fuel hf => ?_, ?_⟩
  · exact await_busyflag_returns dev lcd k hw fuel hf hbusy hready
  · exact (poll_iterate dev lcd (k + 1) hw).2
  · exact (poll_iterate dev lcd (k + 1) hw).1
  · exact await_busyflag_none dev lcd fuel hw (fun j hj => hbusy j (by omega))
  · intro stuck hw0 _ hs fuel
    simp only [status_testBit] at hs
    exact await_busyflag_none stuck lcd fuel hw0 (fun j _ => hs j)

/-- Witness for C14: status bytes 0x81, 0x81, 0x01 on an 8-bit bus; the wait,
started from the calibrated state, performs three status reads. -/
theorem await_busyflag_reads_until_ready_witness :
    (calibrated.delay_loop_time ≠ 0 ∧ (∀ j, j < 2 →
        (status_byte ⟨true, false, false⟩ busy_twice_device
          (calibrated.pulls + stride ⟨true, false, false⟩ * j)).testBit 7 = true) ∧
      (status_byte ⟨true, false, false⟩ busy_twice_device
        (calibrated.pulls + stride ⟨true, false, false⟩ * 2)).testBit 7 = false) ∧
    ∃ hw', (∀ fuel, 2 < fuel →
        HD44780_await_busyflag busy_twice_device ⟨true, false, false⟩ fuel calibrated =
          some hw') ∧
      busOps ⟨true, false, false⟩ hw' =
        busOps ⟨true, false, false⟩ calibrated ++
          [BusOp.read false, BusOp.read false, BusOp.read false] ∧
      hw'.pulls = 3 :=
  ⟨⟨by decide, by decide, by decide⟩,
    (await_busyflag_reads_until_ready busy_twice_device ⟨true, false, false⟩ calibrated 2
      (by decide) (by decide) (by decide)).1⟩

/-- C15: read is symmetric to write, for calls made from calibrated states
(`delay_loop_time ≠ 0`).  Whenever `HD44780_write_byte` of a byte `b` returns, it
has latched one bus write (8-bit bus) or two bus writes (4-bit bus), and for every
device that presents the data-line levels of these bus writes, in the same order, to
the bus reads of `HD44780_read_byte`, the read returns exactly `b`.  On a 4-bit bus
the result of a read is `(first << 4) | second` for the nibbles sampled in its first
and second bus read, whatever the device presents. -/
theorem read_byte_returns_written_byte (dev0 : Device) (lcd : HD44780) (rs : Bool)
    (b fuel : Nat) (hw hw' : Hw) (_hcal : hw.delay_loop_time ≠ 0) (hb : b < 256)
    (hwrite : HD44780_write_byte dev0 lcd rs b fuel hw = some hw') :
    (∃ L, written_levels hw' = written_levels hw ++ L ∧ L.length = stride lcd ∧
      ∀ (dev : Device) (hwr : Hw), hwr.delay_loop_time ≠ 0 →
        Presents lcd dev hwr.pulls L → (HD44780_read_byte dev lcd hwr).1 = b) ∧
    (lcd.interface_8_bit = false → ∀ (dev : Device) (hwr : Hw), hwr.delay_loop_time ≠ 0 →
      (HD44780_read_byte dev lcd hwr).1 =
        (line_nibble dev hwr.pulls <<< 4) ||| line_nibble dev (hwr.pulls + 1)) := by
  constructor
  · obtain ⟨L, hL, hlen, h8, h4⟩ := written_levels_write_byte_bus lcd rs b hw
    refine ⟨L, ?_, hlen, fun dev hwr _ hP => ?_⟩
    · rw [written_levels_write_byte dev0 lcd rs b fuel hw hw' hwrite, hL]
    · exact read_byte_of_presented lcd b hb L hlen h8 h4 dev hwr hP
  · intro h4 dev hwr _
    obtain ⟨v, -, -⟩ := read_byte_spec dev lcd hwr
    rw [v]
    simp only [status_byte, h4, Bool.false_eq_true, ↓reduceIte, line_nibble]
    exact shift_or_nibbles _ _ _ _ _ _ _ _

/-- Witness for C15: on a 4-bit bus, the data-register write of 'H' (0x48) to an
idle device from the calibrated state returns, and a read from a calibrated state
that is presented the two latched nibbles returns 0x48. -/
theorem read_byte_returns_written_byte_witness :
    ∃ hw', (calibrated.delay_loop_time ≠ 0 ∧ (0x48 : Nat) < 256 ∧
        HD44780_write_byte idle_device ⟨false, true, false⟩ true 0x48 1 calibrated =
          some hw') ∧
      ∃ L, written_levels hw' = written_levels calibrated ++ L ∧ L.length = 2 ∧
        ∀ (dev : Device) (hwr : Hw), hwr.delay_loop_time ≠ 0 →
          Presents ⟨false, true, false⟩ dev hwr.pulls L →
          (HD44780_read_byte dev ⟨false, true, false⟩ hwr).1 = 0x48 :=
  match h : HD44780_write_byte idle_device ⟨false, true, false⟩ true 0x48 1 calibrated with
  | some hw' =>
    ⟨hw', ⟨by decide, by decide, rfl⟩,
      (read_byte_returns_written_byte idle_device ⟨false, true, false⟩ true 0x48 1 calibrated
        hw' (by decide) (by decide) h).1⟩
  | none => absurd h (by decide)

/-- C16: with `DELAY_LOOP_CYCLES = 9`, for every clock frequency `f` with
`3 <= f <= 9 * 10^9`, the first call of `delay_init` (the stored loop time is
still 0) stores `loop_time = floor(9 * 10^9 / f)`, which is non-zero and fits 32
bits.  For every 32-bit duration `ns`, `delay_ns` then starts its busy loop with
`counter = floor(ns / loop_time)`, a 32-bit value, and the loop body runs exactly
that many times.  The loop time is the integer part of
`cycles_per_iteration * ns_per_cycle` with `ns_per_cycle = 10^9 / f`: it equals
that product exactly when `f` divides `9 * 10^9`, and it is
`9 * (10^9 / f)` when `f` divides `10^9`.  A later call of `delay_init` with any
other clock value changes nothing. -/
theorem delay_calibrated_once (f ns f2 : Nat) (hw : Hw) (hlo : 3 ≤ f) (hhi : f ≤ 9 * 10 ^ 9)
    (hns : ns < 2 ^ 32) (hfirst : hw.delay_loop_time = 0) :
    (delay_init f hw).delay_loop_time = 9 * 10 ^ 9 / f ∧
    (0 < 9 * 10 ^ 9 / f ∧ 9 * 10 ^ 9 / f < 2 ^ 32) ∧
    (delay_ns ns (delay_init f hw)).trace =
      hw.trace ++ [Event.delay ns (ns / (9 * 10 ^ 9 / f))] ∧
    delay_loop (ns / (9 * 10 ^ 9 / f)) = ns / (9 * 10 ^ 9 / f) ∧
    ns / (9 * 10 ^ 9 / f) < 2 ^ 32 ∧
    (9 * 10 ^ 9 % f = 0 → 9 * 10 ^ 9 / f * f = DELAY_LOOP_CYCLES * 10 ^ 9) ∧
    (10 ^ 9 % f = 0 → 9 * 10 ^ 9 / f = DELAY_LOOP_CYCLES * (10 ^ 9 / f)) ∧
    delay_init f2 (delay_init f hw) = delay_init f hw := by
  obtain ⟨hpos, hlt⟩ := loop_time_bounds f hlo hhi
  have hval : (delay_init f hw).delay_loop_time = 9 * 10 ^ 9 / f := by
    unfold delay_init
    rw [if_pos hfirst]
    show 1000000000 * DELAY_LOOP_CYCLES / f % 2 ^ 32 = 9 * 10 ^ 9 / f
    have e : 1000000000 * DELAY_LOOP_CYCLES = 9 * 10 ^ 9 := by
      unfold DELAY_LOOP_CYCLES; norm_num
    rw [e, Nat.mod_eq_of_lt hlt]
  have htr : (delay_init f hw).trace = hw.trace := by
    unfold delay_init
    rw [if_pos hfirst]
  refine ⟨hval, ⟨hpos, hlt⟩, ?_, delay_loop_eq _, ?_, ?_, ?_, ?_⟩
  · rw [trace_delay_ns, hval, htr]
  · exact lt_of_le_of_lt (Nat.div_le_self _ _) hns
  · intro hdiv
    unfold DELAY_LOOP_CYCLES
    exact Nat.div_mul_cancel (Nat.dvd_of_mod_eq_zero hdiv)
  · intro hdiv
    unfold DELAY_LOOP_CYCLES
    have hd : f ∣ 10 ^ 9 := Nat.dvd_of_mod_eq_zero hdiv
    exact Nat.mul_div_assoc 9 hd
  · have hne : (delay_init f hw).delay_loop_time ≠ 0 := by
      rw [hval]; omega
    generalize delay_init f hw = A at hne
    unfold delay_init
    rw [if_neg hne]

/-- Witness for C16: at 72 MHz the loop time is 125 ns and a delay of 240 ns
starts the loop with counter 1. -/
theorem delay_calibrated_once_witness :
    ((3 : Nat) ≤ 72000000 ∧ (72000000 : Nat) ≤ 9 * 10 ^ 9 ∧ (240 : Nat) < 2 ^ 32 ∧
        power_on.delay_loop_time = 0) ∧
      (delay_init 72000000 power_on).delay_loop_time = 125 ∧
      (delay_ns 240 (delay_init 72000000 power_on)).trace =
        power_on.trace ++ [Event.delay 240 1] ∧
      delay_init 8000000 (delay_init 72000000 power_on) = delay_init 72000000 power_on :=
  ⟨⟨by decide, by decide, by decide, rfl⟩,
    ⟨(delay_calibrated_once 72000000 240 8000000 power_on (by decide) (by decide) (by decide)
        rfl).1,
      (delay_calibrated_once 72000000 240 8000000 power_on (by decide) (by decide) (by decide)
        rfl).2.2.1,
      (delay_calibrated_once 72000000 240 8000000 power_on (by decide) (by decide) (by decide)
        rfl).2.2.2.2.2.2.2⟩⟩

/-- C17: the bus-direction invariant.  `BusSafe` says that in the whole trace so
far every assertion of the enable line found either the write set-up (read/write
low, every data line in use last configured as an output) or the read set-up
(read/write high, register-select low, every data line in use last configured
as an input), that this set-up did not change during the pulse, that data lines
were driven only under the write set-up and sampled only under the read set-up
with the enable line high, and that the enable line is low now.  The power-on
state is `BusSafe`.  Every public operation that returns from a `BusSafe` state
returns in a `BusSafe` state, so with the enable line deasserted; hence so does
every run of `HD44780_init` followed by any sequence of public operations,
degraded writes included.  On a device that eventually reports ready such a run
returns whenever the inputs of its calls have a defined result. -/
theorem bus_direction_invariant (dev : Device) (lcd : HD44780) (hw : Hw)
    (hsafe : BusSafe lcd hw) :
    BusSafe lcd power_on ∧
    (∀ (op : Op) (fuel : Nat) (hw0 hw' : Hw), BusSafe lcd hw0 →
      run_op dev lcd fuel op hw0 = some hw' → BusSafe lcd hw') ∧
    (∀ (clock : Nat) (ops : List Op) (fuel : Nat) (hw' : Hw),
      run_ops dev lcd fuel (Op.init clock :: ops) hw = some hw' → BusSafe lcd hw') ∧
    (Responsive lcd dev → ∀ (clock : Nat) (ops : List Op), (∀ op, op ∈ ops → op.terminated) →
      ∃ f0 hw', (∀ fuel, f0 ≤ fuel →
          run_ops dev lcd fuel (Op.init clock :: ops) hw = some hw') ∧
        BusSafe lcd hw') := by
  have hS := bus_safe_stable dev lcd
  refine ⟨⟨rfl, rfl⟩, fun op fuel hw0 hw' h0 h => stable_run_op hS fuel op hw0 hw' h0 h,
    fun clock ops fuel hw' h => stable_run_ops hS fuel _ hw hw' hsafe h,
    fun hdev clock ops hops => ?_⟩
  have hterm : ∀ op, op ∈ Op.init clock :: ops → op.terminated := by
    intro op hop
    rcases List.mem_cons.1 hop with h1 | h1
    · rw [h1]; trivial
    · exact hops op h1
  obtain ⟨f0, hw', r⟩ := returns_run_ops dev lcd hdev _ hterm hw
  exact ⟨f0, hw', r, stable_run_ops hS f0 _ hw hw' hsafe (r f0 (le_refl f0))⟩

/-- Witness for C17: on a 4-bit bus from power-on, initialization followed by a
glyph definition, a cursor move and the string "Hi\n" returns in a `BusSafe`
state. -/
theorem bus_direction_invariant_witness :
    BusSafe ⟨false, false, false⟩ power_on ∧
      ∃ f0 hw', (∀ fuel, f0 ≤ fuel →
          run_ops idle_device ⟨false, false, false⟩ fuel
            (Op.init 72000000 ::
              [Op.create_symbol 1 false (fun i => i % 32), Op.cursor_to 3 1,
                Op.put_str [0x48, 0x69, 10, 0]]) power_on = some hw') ∧
        BusSafe ⟨false, false, false⟩ hw' :=
  ⟨⟨rfl, rfl⟩,
    (bus_direction_invariant idle_device ⟨false, false, false⟩ power_on ⟨rfl, rfl⟩).2.2.2
      (idle_responsive _) 72000000
      [Op.create_symbol 1 false (fun i => i % 32), Op.cursor_to 3 1,
        Op.put_str [0x48, 0x69, 10, 0]]
      (by
        intro op hop
        simp only [List.mem_cons, List.mem_singleton, List.not_mem_nil, or_false] at hop
        rcases hop with rfl | rfl | rfl
        · trivial
        · trivial
        · show (0 : Nat) ∈ [0x48, 0x69, 10, 0]
          decide)⟩

end HD44780Driver
